import Mathlib

/-!
# Element templates: lookup helpers, custom-properties projection, properties provider

A shallow embedding of `src/cloud-element-templates/Helper.js`,
`src/cloud-element-templates/properties/CustomProperties.js` and
`src/provider/element-templates/ElementTemplatesPropertiesProvider.js`.

Conventions of the embedding

* A JavaScript value that may be `undefined` is an `Option` (`none` is `undefined`)
  or a `JSVal` when its run-time type matters.
* JavaScript arrays are lists; `Array.prototype.find` is `arrayFind`,
  `Array.prototype.filter` is `arrayFilter`.
* A function that may throw returns a `Completion` (or, for `CustomProperties`, an
  `Option` whose `none` is the thrown error).
* Code that mutates arrays and objects in place passes a heap of arrays and objects.
* The identifier generator `uuid()` is a stream of strings read through a counter.
* The registry and the application engine, whose modules are not among these sources,
  are modelled from the specification; each such definition says so.
-/

namespace ElementTemplates

/-! ## Values and document nodes -/

/-- JavaScript primitive values as they occur in template descriptors and in
document attributes. -/
inductive JSVal where
  | undefined
  | null
  | bool (b : Bool)
  | num (n : Int)
  | str (s : String)
  deriving DecidableEq, Repr

/-- An entry of an extension-elements container (for instance a `zeebe:TaskDefinition` or a
`zeebe:Subscription`): the type tags it is an instance of and its attributes. -/
structure ExtensionValue where
  types : List String
  attrs : List (String × JSVal) := []
  deriving DecidableEq, Repr

/-- A `bpmn:ExtensionElements` container with its ordered `values`. -/
structure ExtensionElements where
  values : List ExtensionValue
  deriving DecidableEq, Repr

/-- A `bpmn:Message` root element. -/
structure Message where
  attrs : List (String × JSVal) := []
  extensionElements : Option ExtensionElements := none
  deriving DecidableEq, Repr

/-- An event definition of a `bpmn:Event`; `messageRef` is unset unless it is a message
event definition that references a message. -/
structure EventDefinition where
  types : List String
  messageRef : Option Message := none
  deriving DecidableEq, Repr

/-- A document node (moddle element) reduced to what the helpers read: the type
tags it is an instance of, its attributes (an attribute that is not listed is
unset), and its element-valued properties `extensionElements`, `values` (the entries
of a node that is itself a `bpmn:ExtensionElements`), `eventDefinitions` and
`messageRef`. -/
structure BusinessObject where
  types : List String
  attrs : List (String × JSVal)
  extensionElements : Option ExtensionElements := none
  values : List ExtensionValue := []
  eventDefinitions : Option (List EventDefinition) := none
  messageRef : Option Message := none
  deriving DecidableEq, Repr

/-- The accessor `businessObject.get(name)`: the value stored under `name`, or `undefined`
when the attribute is unset. -/
def BusinessObject.get (bo : BusinessObject) (name : String) : JSVal :=
  match bo.attrs.find? (fun kv => kv.1 = name) with
  | some kv => kv.2
  | none => JSVal.undefined

/-- The accessor `businessObject.set(name, value)`: overwrite the attribute `name`. -/
def BusinessObject.set (bo : BusinessObject) (name : String) (value : JSVal) : BusinessObject :=
  { bo with attrs := (name, value) :: bo.attrs.filter (fun kv => kv.1 ≠ name) }

/-- What the helpers accept as `element`: a diagram element, which carries its
business object, or a document node passed directly. -/
inductive Element where
  | shape (businessObject : BusinessObject)
  | moddle (node : BusinessObject)
  deriving DecidableEq, Repr

/-- The library function `getBusinessObject` of `bpmn-js/lib/util/ModelUtil`:
`(element && element.businessObject) || element`. The argument `none` is an
`undefined` element. -/
def getBusinessObject : Option Element → Option BusinessObject
  | none => none
  | some (Element.shape bo) => some bo
  | some (Element.moddle node) => some node

/-! ## Helper.js -/

/-- The extension attribute name under which the element template ID is stored. -/
def TEMPLATE_ID_ATTR : String := "zeebe:modelerTemplate"

/-- The extension attribute name under which the element template version is stored. -/
def TEMPLATE_VERSION_ATTR : String := "zeebe:modelerTemplateVersion"

/-- Source function `getTemplateId`: `undefined` without a business object. -/
def getTemplateId (element : Option Element) : JSVal :=
  match getBusinessObject element with
  | some businessObject => businessObject.get TEMPLATE_ID_ATTR
  | none => JSVal.undefined

/-- Source function `getTemplateVersion`: `undefined` without a business object. -/
def getTemplateVersion (element : Option Element) : JSVal :=
  match getBusinessObject element with
  | some businessObject => businessObject.get TEMPLATE_VERSION_ATTR
  | none => JSVal.undefined

/-- The method `Array.prototype.find`: visit the elements in ascending index order and
return the first one the predicate accepts; `none` is `undefined`. -/
def arrayFind {α : Type} (p : α → Bool) : List α → Option α
  | [] => none
  | x :: xs => if p x then some x else arrayFind p xs

/-- A binding of a template property: the tag `type` and the variant-specific keys. -/
structure Binding where
  type : String
  name : Option String := none
  source : Option String := none
  key : Option String := none
  deriving DecidableEq, Repr

/-- A `zeebe:Input` parameter. -/
structure InputParameter where
  source : Option String
  target : Option String
  deriving DecidableEq, Repr

/-- A `zeebe:Output` parameter. -/
structure OutputParameter where
  source : Option String
  target : Option String
  deriving DecidableEq, Repr

/-- A `zeebe:IoMapping` extension with its two ordered parameter lists. -/
structure IoMapping where
  inputParameters : List InputParameter
  outputParameters : List OutputParameter
  deriving DecidableEq, Repr

/-- A `zeebe:Property` entry. -/
structure ZeebeProperty where
  name : Option String
  value : Option String
  deriving DecidableEq, Repr

/-- A `zeebe:Properties` extension. -/
structure ZeebeProperties where
  properties : List ZeebeProperty
  deriving DecidableEq, Repr

/-- Source function `findZeebeProperty`. -/
def findZeebeProperty (zeebeProperties : ZeebeProperties) (binding : Binding) :
    Option ZeebeProperty :=
  arrayFind (fun value => decide (value.name = binding.name)) zeebeProperties.properties

/-- Source function `findInputParameter`. -/
def findInputParameter (ioMapping : IoMapping) (binding : Binding) : Option InputParameter :=
  let parameters := ioMapping.inputParameters
  arrayFind (fun parameter => decide (parameter.target = binding.name)) parameters

/-- Source function `findOutputParameter`. -/
def findOutputParameter (ioMapping : IoMapping) (binding : Binding) : Option OutputParameter :=
  let parameters := ioMapping.outputParameters
  arrayFind (fun parameter => decide (parameter.source = binding.source)) parameters

/-- The declaration `generatedValue` of a property descriptor. -/
structure GeneratedValue where
  type : JSVal
  deriving DecidableEq, Repr

/-- The identifier generator: `gen n` is the identifier handed out by the `n`-th call
of `uuid()`. -/
abbrev UuidSource := Nat → String

/-- One call of `uuid()`: the identifier and the advanced call counter. -/
def uuid (gen : UuidSource) (calls : Nat) : String × Nat :=
  (gen calls, calls + 1)

/-- The errors the helpers can raise. -/
inductive JSError where
  | TypeError
  deriving DecidableEq, Repr

/-- The outcome of a call that may throw: the returned value or the error raised. -/
inductive Completion (α : Type) where
  | returns (value : α)
  | throws (error : JSError)
  deriving DecidableEq, Repr

/-- A property read `receiver.get(...)`: a `TypeError` when the receiver is `undefined`. -/
def getOf {α β : Type} (receiver : Option α) (read : α → β) : Completion β :=
  match receiver with
  | some r => Completion.returns (read r)
  | none => Completion.throws JSError.TypeError

/-- The library function `is` of `bpmn-js/lib/util/ModelUtil` on a business object:
`bo && bo.$instanceOf(type)`, falsy for an `undefined` argument. -/
def is (businessObject : Option BusinessObject) (type : String) : Bool :=
  match businessObject with
  | some bo => bo.types.contains type
  | none => false

/-- The library function `is` on an entry of an extension-elements container. -/
def isValue (value : ExtensionValue) (type : String) : Bool :=
  value.types.contains type

/-- The library function `isAny` of `bpmn-js/lib/features/modeling/util/ModelingUtil`:
whether the value is an instance of some listed type. -/
def isAny (value : ExtensionValue) (types : List String) : Bool :=
  types.any (fun type => isValue value type)

/-- The method `Array.prototype.filter`: the accepted elements in ascending index order. -/
def arrayFilter {α : Type} (p : α → Bool) : List α → List α
  | [] => []
  | x :: xs => if p x then x :: arrayFilter p xs else arrayFilter p xs

/-- The container `findExtension` and `findExtensions` search: the business object itself
when it is a `bpmn:ExtensionElements`, else its `extensionElements`; a `TypeError` when
there is no business object to read `extensionElements` from. -/
def extensionContainer (businessObject : Option BusinessObject) :
    Completion (Option ExtensionElements) :=
  if is businessObject "bpmn:ExtensionElements" then
    Completion.returns (businessObject.map (fun bo => { values := bo.values }))
  else
    getOf businessObject (fun bo => bo.extensionElements)

/-- Source function `findExtension`; the value `none` is the `undefined` it returns. -/
def findExtension (element : Option Element) (type : String) :
    Completion (Option ExtensionValue) :=
  let businessObject := getBusinessObject element
  match extensionContainer businessObject with
  | Completion.throws error => Completion.throws error
  | Completion.returns none => Completion.returns none
  | Completion.returns (some extensionElements) =>
    Completion.returns (arrayFind (fun value => isValue value type) extensionElements.values)

/-- Source function `findExtensions`; the value `none` is the `null` it returns without a
container. -/
def findExtensions (element : Option Element) (types : List String) :
    Completion (Option (List ExtensionValue)) :=
  let businessObject := getBusinessObject element
  match extensionContainer businessObject with
  | Completion.throws error => Completion.throws error
  | Completion.returns none => Completion.returns none
  | Completion.returns (some extensionElements) =>
    Completion.returns (some (arrayFilter (fun value => isAny value types) extensionElements.values))

/-- A `zeebe:Header` entry. -/
structure TaskHeader where
  key : Option String
  value : Option String
  deriving DecidableEq, Repr

/-- A `zeebe:TaskHeaders` extension. -/
structure TaskHeaders where
  values : List TaskHeader
  deriving DecidableEq, Repr

/-- Source function `findTaskHeader`. -/
def findTaskHeader (taskHeaders : TaskHeaders) (binding : Binding) : Option TaskHeader :=
  let headers := taskHeaders.values
  arrayFind (fun header => decide (header.key = binding.key)) headers

/-- Source function `findMessage`; the value `none` is the `undefined` it returns. The
element `eventDefinitions[0]` of a non-empty list is an object, so the check
`!businessObject` passes for it. -/
def findMessage (businessObject : Option BusinessObject) : Completion (Option Message) :=
  if is businessObject "bpmn:Event" then
    match getOf businessObject (fun bo => bo.eventDefinitions) with
    | Completion.throws error => Completion.throws error
    | Completion.returns none => Completion.returns none
    | Completion.returns (some []) => Completion.returns none
    | Completion.returns (some (first :: _)) => Completion.returns first.messageRef
  else
    match businessObject with
    | none => Completion.returns none
    | some bo => Completion.returns bo.messageRef

/-- A message as the document node the helpers receive. -/
def Message.node (message : Message) : BusinessObject :=
  { types := [ "bpmn:Message", "bpmn:RootElement", "bpmn:BaseElement" ]
    attrs := message.attrs
    extensionElements := message.extensionElements }

/-- Source function `findZeebeSubscription`. -/
def findZeebeSubscription (message : Option Message) : Completion (Option ExtensionValue) :=
  findExtension (message.map (fun m => Element.moddle m.node)) "zeebe:Subscription"

/-! ## Template descriptors -/

/-- Modelled from the spec: a single condition of `ConditionExpr` (the module
evaluating conditions is not part of these sources). It names the property it
reads and compares that property's current value: `equals` is string-exact,
`oneOf` is set membership. -/
inductive SimpleCondition where
  | equals (property : String) (value : String)
  | oneOf (property : String) (values : List String)
  deriving DecidableEq, Repr

/-- Modelled from the spec: the `condition` of a property descriptor (the module
evaluating conditions is not part of these sources): one condition, or an array
of conditions under `allMatch` that must all hold. -/
inductive ConditionExpr where
  | single (c : SimpleCondition)
  | allMatch (cs : List SimpleCondition)
  deriving DecidableEq, Repr

/-- Modelled from the spec: a choice of a `Dropdown` property. -/
structure Choice where
  name : String
  value : String
  deriving DecidableEq, Repr

/-- A property descriptor of a template. The field `id` is the name by which a
condition refers to the property. The fields `editable` and `choices` are taken from
the specification and read by the modelled application engine only. -/
structure PropertyDescriptor where
  id : Option String := none
  label : Option String := none
  type : Option String := none
  value : JSVal := JSVal.undefined
  feel : Option String := none
  group : Option String := none
  binding : Binding
  generatedValue : Option GeneratedValue := none
  condition : Option ConditionExpr := none
  editable : Option Bool := none
  choices : List Choice := []
  deriving DecidableEq, Repr

/-- A group descriptor of a template. -/
structure GroupDescriptor where
  id : String
  label : Option String := none
  tooltip : Option String := none
  openByDefault : Option Bool := none
  deriving DecidableEq, Repr

/-- Modelled from the spec: the declaration `deprecated` of a template descriptor. -/
structure Deprecation where
  message : Option String := none
  documentationRef : Option String := none
  deriving DecidableEq, Repr

/-- A template descriptor. A descriptor without `groups` has the empty list (the
lookup in `groups` treats both alike). The fields `appliesTo` and `deprecated` are
taken from the specification and read by the modelled registry only. -/
structure ElementTemplate where
  id : String
  version : Option Int := none
  properties : List PropertyDescriptor
  groups : List GroupDescriptor := []
  appliesTo : List String := []
  deprecated : Option Deprecation := none
  deriving DecidableEq, Repr

/-- Source function `getDefaultValue`, threading the call counter of `uuid()`. -/
def getDefaultValue (gen : UuidSource) (property : PropertyDescriptor) (calls : Nat) :
    JSVal × Nat :=
  if property.value ≠ JSVal.undefined then
    (property.value, calls)
  else
    match property.generatedValue with
    | some generatedValue =>
      if generatedValue.type = JSVal.str "uuid" then
        let r := uuid gen calls
        (JSVal.str r.1, r.2)
      else
        (JSVal.undefined, calls)
    | none => (JSVal.undefined, calls)

/-! ## CustomProperties.js -/

/-- The constants imported from `../util/bindingTypes`, a module that is not part
of these sources; the functions below take them as a parameter. -/
structure BindingTypes where
  PROPERTY_TYPE : String
  ZEEBE_TASK_DEFINITION_TYPE_TYPE : String
  ZEEBE_TASK_DEFINITION : String
  ZEBBE_INPUT_TYPE : String
  ZEEBE_OUTPUT_TYPE : String
  ZEEBE_PROPERTY_TYPE : String
  ZEEBE_TASK_HEADER_TYPE : String
  deriving DecidableEq, Repr

/-- Modelled from the spec: the values of the constants of `../util/bindingTypes`
(a module that is not part of these sources), as the binding variants the spec lists. -/
def bindingTypes : BindingTypes :=
  { PROPERTY_TYPE := "property"
    ZEEBE_TASK_DEFINITION_TYPE_TYPE := "zeebe:taskDefinition:type"
    ZEEBE_TASK_DEFINITION := "zeebe:taskDefinition"
    ZEBBE_INPUT_TYPE := "zeebe:input"
    ZEEBE_OUTPUT_TYPE := "zeebe:output"
    ZEEBE_PROPERTY_TYPE := "zeebe:property"
    ZEEBE_TASK_HEADER_TYPE := "zeebe:taskHeader" }

/-- The panel components an entry can be rendered with. -/
inductive Component where
  | BooleanProperty
  | DropdownProperty
  | FeelProperty
  | StringProperty
  | FeelTextAreaProperty
  | TextAreaProperty
  deriving DecidableEq, Repr

/-- An entry of a custom-properties group. The `isEdited` callback is fixed by the
component and is left out. -/
structure Entry where
  id : String
  component : Component
  property : PropertyDescriptor
  deriving DecidableEq, Repr

/-- A group of the properties panel as `addCustomGroup` builds it. -/
structure Group where
  id : String
  label : Option String
  entries : List Entry
  shouldOpen : Bool
  tooltip : Option String
  deriving DecidableEq, Repr

/-- The constant `DEFAULT_CUSTOM_GROUP`, field `id`. -/
def DEFAULT_CUSTOM_GROUP_id : String := "ElementTemplates__CustomProperties"

/-- The constant `DEFAULT_CUSTOM_GROUP`, field `label`. -/
def DEFAULT_CUSTOM_GROUP_label : String := "Custom properties"

/-- Truthiness of an optional string: `undefined` and the empty string are falsy. -/
def strTruthy : Option String → Bool
  | none => false
  | some s => s != ""

/-- Source function `getDefaultType`: `'String'` for the listed binding types, `undefined`
otherwise. -/
def getDefaultType (bt : BindingTypes) (property : PropertyDescriptor) : Option String :=
  let type := property.binding.type
  if [ bt.PROPERTY_TYPE,
       bt.ZEEBE_TASK_DEFINITION_TYPE_TYPE,
       bt.ZEEBE_TASK_DEFINITION,
       bt.ZEBBE_INPUT_TYPE,
       bt.ZEEBE_OUTPUT_TYPE,
       bt.ZEEBE_PROPERTY_TYPE,
       bt.ZEEBE_TASK_HEADER_TYPE ].contains type then
    some "String"
  else
    none

/-- The type `createCustomEntry` dispatches on: the declared `type`, or the default
type when the declared one is falsy. -/
def effectiveType (bt : BindingTypes) (property : PropertyDescriptor) : Option String :=
  if strTruthy property.type then property.type else getDefaultType bt property

/-- Source function `createCustomEntry`; `none` is the `undefined` it returns for a type
it does not render. -/
def createCustomEntry (bt : BindingTypes) (id : String) (property : PropertyDescriptor) :
    Option Entry :=
  let type := effectiveType bt property
  let feel := property.feel
  if type = some "Boolean" then
    some { id := id, component := Component.BooleanProperty, property := property }
  else if type = some "Dropdown" then
    some { id := id, component := Component.DropdownProperty, property := property }
  else if type = some "String" then
    if strTruthy feel then
      some { id := id, component := Component.FeelProperty, property := property }
    else
      some { id := id, component := Component.StringProperty, property := property }
  else if type = some "Text" then
    if strTruthy feel then
      some { id := id, component := Component.FeelTextAreaProperty, property := property }
    else
      some { id := id, component := Component.TextAreaProperty, property := property }
  else
    none

/-- The identifier `custom-entry-${ templateId }-${ index }`. -/
def entryId (templateId : String) (index : Nat) : String :=
  "custom-entry-" ++ templateId ++ "-" ++ toString index

/-- The loop `properties.forEach((property, index) => ...)` of `addCustomGroup`, started
at `index`: the entries pushed, in order. -/
def customEntries (bt : BindingTypes) (templateId : String) :
    List PropertyDescriptor → Nat → List Entry
  | [], _ => []
  | property :: rest, index =>
    match createCustomEntry bt (entryId templateId index) property with
    | some entry => entry :: customEntries bt templateId rest (index + 1)
    | none => customEntries bt templateId rest (index + 1)

/-- The argument `props` of `addCustomGroup`. -/
structure CustomGroupProps where
  id : String
  label : Option String
  openByDefault : Option Bool := none
  properties : List PropertyDescriptor
  templateId : String
  tooltip : Option String := none
  deriving DecidableEq, Repr

/-- Source function `addCustomGroup`: the group is pushed only when it has an entry.
The parameter `openByDefault` defaults to `true`. -/
def addCustomGroup (bt : BindingTypes) (groups : List Group) (props : CustomGroupProps) :
    List Group :=
  let customPropertiesGroup : Group :=
    { id := props.id
      label := props.label
      entries := customEntries bt props.templateId props.properties 0
      shouldOpen := props.openByDefault.getD true
      tooltip := props.tooltip }
  if customPropertiesGroup.entries.length ≠ 0 then
    groups ++ [ customPropertiesGroup ]
  else
    groups

/-! ### Grouping: the library functions `groupBy`, `forEach` and `find` of `min-dash`

`groupBy(collection, 'group')` fills a fresh object literal `grouped`: for each member
`val`, in order, it computes `discriminator = val.group || '_'`, reads
`group = grouped[discriminator]`, stores a new empty array there when that is falsy,
and pushes `val` to `group`. `forEach(object, fn)` visits the own keys in `for ... in`
order; `find(array, fn)` returns the first match. -/

/-- The `grouped` object: its own keys in insertion order, each with its array. -/
abbrev Grouped := List (String × List PropertyDescriptor)

/-- The key `val.group || '_'` under which `groupBy` files a property. -/
def groupKey (property : PropertyDescriptor) : String :=
  match property.group with
  | some g => if g != "" then g else "_"
  | none => "_"

/-- The member names an object literal inherits from `Object.prototype`. Reading one of
them from `grouped` before it is an own key yields the inherited member, which is
truthy and has no `push`. -/
def OBJECT_PROTOTYPE_KEYS : List String :=
  [ "constructor", "__defineGetter__", "__defineSetter__", "hasOwnProperty",
    "__lookupGetter__", "__lookupSetter__", "isPrototypeOf", "propertyIsEnumerable",
    "toString", "valueOf", "__proto__", "toLocaleString" ]

/-- Whether `key` is an own key of `grouped`. -/
def hasOwnKey (grouped : Grouped) (key : String) : Bool :=
  grouped.any (fun kv => kv.1 = key)

/-- Push `val` to the array stored under `key`, creating the key (last in insertion
order) when it is new. -/
def pushTo (key : String) (val : PropertyDescriptor) : Grouped → Grouped
  | [] => [ (key, [ val ]) ]
  | (k, vals) :: rest =>
    if k = key then (k, vals ++ [ val ]) :: rest else (k, vals) :: pushTo key val rest

/-- One iteration of `groupBy`; `none` is the `TypeError` of calling `push` on an
inherited member. -/
def groupByStep (grouped : Grouped) (val : PropertyDescriptor) : Option Grouped :=
  let discriminator := groupKey val
  if hasOwnKey grouped discriminator then
    some (pushTo discriminator val grouped)
  else if OBJECT_PROTOTYPE_KEYS.contains discriminator then
    none
  else
    some (pushTo discriminator val grouped)

/-- The loop of `groupBy` over the remaining members. -/
def groupByLoop : List PropertyDescriptor → Grouped → Option Grouped
  | [], grouped => some grouped
  | val :: rest, grouped =>
    match groupByStep grouped val with
    | some grouped' => groupByLoop rest grouped'
    | none => none

/-- Source function `groupByGroupId`: `groupBy(properties, 'group')`. -/
def groupByGroupId (properties : List PropertyDescriptor) : Option Grouped :=
  groupByLoop properties []

/-- The number written by a string of decimal digits. -/
def digitsValue : List Char → Nat → Nat
  | [], acc => acc
  | c :: cs, acc => digitsValue cs (acc * 10 + (c.toNat - 48))

/-- The array index a key denotes, if it is one: a canonical decimal numeral below
`2^32 - 1`. -/
def arrayIndex? (key : String) : Option Nat :=
  let cs := key.data
  if !cs.isEmpty && cs.all Char.isDigit && (decide (cs = [ '0' ]) || decide (cs.head? ≠ some '0')) then
    if digitsValue cs 0 < 4294967295 then some (digitsValue cs 0) else none
  else
    none

/-- The order in which `for ... in` visits the own keys of an object: the array
indices in ascending numeric order, then the other keys in insertion order. -/
def ownKeysOrder {β : Type} (object : List (String × β)) : List (String × β) :=
  ((object.filterMap (fun kv => (arrayIndex? kv.1).map (fun n => (n, kv)))).insertionSort
      (fun a b => a.1 ≤ b.1)).map (fun nkv => nkv.2)
    ++ object.filter (fun kv => (arrayIndex? kv.1).isNone)

/-- Source function `findCustomGroup`: the first declared group with the given id. -/
def findCustomGroup (groups : List GroupDescriptor) (id : String) : Option GroupDescriptor :=
  arrayFind (fun g => decide (g.id = id)) groups

/-- The two arrays `CustomProperties` fills while it visits the grouped properties. -/
structure Collected where
  groups : List Group
  defaultProps : List PropertyDescriptor
  deriving DecidableEq, Repr

/-- The callback of `forEach(groupedProperties, ...)` in `CustomProperties`. -/
def collectGroup (bt : BindingTypes) (elementTemplate : ElementTemplate) (acc : Collected)
    (kv : String × List PropertyDescriptor) : Collected :=
  let groupId := kv.1
  let properties := kv.2
  match findCustomGroup elementTemplate.groups groupId with
  | none => { acc with defaultProps := acc.defaultProps ++ properties }
  | some group =>
    let props : CustomGroupProps :=
      { id := "ElementTemplates__CustomProperties-" ++ groupId
        label := group.label
        openByDefault := group.openByDefault
        properties := properties
        templateId := elementTemplate.id ++ "-" ++ groupId
        tooltip := group.tooltip }
    { acc with groups := addCustomGroup bt acc.groups props }

/-- Steps (1) of `CustomProperties` on an already grouped template. -/
def collectGroups (bt : BindingTypes) (elementTemplate : ElementTemplate) (grouped : Grouped) :
    Collected :=
  (ownKeysOrder grouped).foldl (collectGroup bt elementTemplate) { groups := [], defaultProps := [] }

/-- Source function `CustomProperties`; `none` is an error thrown by `groupBy`. The
`element` is handed on to the components and does not influence the groups. -/
def CustomProperties (bt : BindingTypes) (_element : Element) (elementTemplate : ElementTemplate) :
    Option (List Group) :=
  match groupByGroupId elementTemplate.properties with
  | none => none
  | some groupedProperties =>
    let acc := collectGroups bt elementTemplate groupedProperties
    if acc.defaultProps.length ≠ 0 then
      some (addCustomGroup bt acc.groups
        { id := DEFAULT_CUSTOM_GROUP_id
          label := some DEFAULT_CUSTOM_GROUP_label
          properties := acc.defaultProps
          templateId := elementTemplate.id })
    else
      some acc.groups

/-- The group object that `addCustomGroup` builds for the declared group `group` and the
properties filed under `groupId` (as `collectGroup` calls it). -/
def declaredGroup (bt : BindingTypes) (elementTemplate : ElementTemplate) (groupId : String)
    (properties : List PropertyDescriptor) (group : GroupDescriptor) : Group :=
  { id := "ElementTemplates__CustomProperties-" ++ groupId
    label := group.label
    entries := customEntries bt (elementTemplate.id ++ "-" ++ groupId) properties 0
    shouldOpen := group.openByDefault.getD true
    tooltip := group.tooltip }

/-- The group object that `addCustomGroup` builds for the default custom properties. -/
def defaultGroup (bt : BindingTypes) (elementTemplate : ElementTemplate)
    (defaultProps : List PropertyDescriptor) : Group :=
  { id := DEFAULT_CUSTOM_GROUP_id
    label := some DEFAULT_CUSTOM_GROUP_label
    entries := customEntries bt elementTemplate.id defaultProps 0
    shouldOpen := true
    tooltip := none }

/-- The group `collectGroup` adds for the key `kv.1` of the grouped properties: the
declared group's object when the key names a declared group and at least one of its
properties yields an entry. -/
def renderedGroup? (bt : BindingTypes) (elementTemplate : ElementTemplate)
    (kv : String × List PropertyDescriptor) : Option Group :=
  match findCustomGroup elementTemplate.groups kv.1 with
  | some group =>
    if (declaredGroup bt elementTemplate kv.1 kv.2 group).entries.length ≠ 0 then
      some (declaredGroup bt elementTemplate kv.1 kv.2 group)
    else
      none
  | none => none

/-- The property list of the default group: the properties filed under the keys that name
no declared group, in the order `CustomProperties` visits the keys. -/
def defaultPropsOf (elementTemplate : ElementTemplate) (grouped : Grouped) :
    List PropertyDescriptor :=
  ((ownKeysOrder grouped).filter
    (fun kv => (findCustomGroup elementTemplate.groups kv.1).isNone)).flatMap (fun kv => kv.2)

/-- The groups `CustomProperties` returns for a template whose properties are grouped as
`grouped`: the rendered declared groups in key order, then the default group when it
has an entry. -/
def groupsOf (bt : BindingTypes) (elementTemplate : ElementTemplate) (grouped : Grouped) :
    List Group :=
  (ownKeysOrder grouped).filterMap (renderedGroup? bt elementTemplate)
    ++ (if (defaultGroup bt elementTemplate (defaultPropsOf elementTemplate grouped)).entries.length
          ≠ 0
        then [ defaultGroup bt elementTemplate (defaultPropsOf elementTemplate grouped) ]
        else [])

/-- The number of entries over all groups. -/
def entryCount (groups : List Group) : Nat :=
  (groups.map (fun g => g.entries.length)).sum

/-! ## Conditions and the conditional entry projection -/

/-- The read path of the binding resolver: the current value of a property on an
element, `undefined` when the binding does not apply. The module implementing it
(`../util/propertyUtil`) is not part of these sources; the functions below take it
as a parameter. -/
abbrev Resolver := Element → PropertyDescriptor → JSVal

/-- Modelled from the spec: the binding resolver restricted to the `property` binding
(the module `../util/propertyUtil` is not part of these sources): get the named
attribute directly on the element's business object. Other bindings are not
resolved by this instance. -/
def resolvePropertyBinding (bt : BindingTypes) : Resolver := fun element property =>
  if property.binding.type = bt.PROPERTY_TYPE then
    match getBusinessObject (some element), property.binding.name with
    | some businessObject, some name => businessObject.get name
    | _, _ => JSVal.undefined
  else
    JSVal.undefined

/-- Modelled from the spec: the current value of the property a condition names (the
condition module is not part of these sources). A not-yet-committed override wins
over the resolved value; a name that no property of the template carries has no
value. -/
def currentValue (resolve : Resolver) (element : Element) (elementTemplate : ElementTemplate)
    (currentOverrides : List (String × JSVal)) (name : String) : Option JSVal :=
  match currentOverrides.find? (fun kv => kv.1 = name) with
  | some kv => some kv.2
  | none =>
    match elementTemplate.properties.find? (fun p => p.id = some name) with
    | some property => some (resolve element property)
    | none => none

/-- Modelled from the spec: one condition holds (the condition module is not part of
these sources). Equality is string-exact, `oneOf` is set membership, and a
condition on a property that does not exist does not hold. -/
def conditionHolds (resolve : Resolver) (element : Element) (elementTemplate : ElementTemplate)
    (currentOverrides : List (String × JSVal)) : SimpleCondition → Bool
  | SimpleCondition.equals property value =>
    decide (currentValue resolve element elementTemplate currentOverrides property
      = some (JSVal.str value))
  | SimpleCondition.oneOf property values =>
    match currentValue resolve element elementTemplate currentOverrides property with
    | some (JSVal.str s) => values.contains s
    | _ => false

/-- Modelled from the spec: the Condition Evaluator `isActive(element, property,
currentOverrides)` (the condition module is not part of these sources). No
condition: always active; an array of conditions: logical AND. -/
def isActive (resolve : Resolver) (element : Element) (elementTemplate : ElementTemplate)
    (currentOverrides : List (String × JSVal)) (property : PropertyDescriptor) : Bool :=
  match property.condition with
  | none => true
  | some (ConditionExpr.single c) =>
    conditionHolds resolve element elementTemplate currentOverrides c
  | some (ConditionExpr.allMatch cs) =>
    cs.all (conditionHolds resolve element elementTemplate currentOverrides)

/-- Modelled from the spec: the template restricted to its active properties (the
condition module is not part of these sources). -/
def applyConditions (resolve : Resolver) (element : Element) (elementTemplate : ElementTemplate)
    (currentOverrides : List (String × JSVal)) : ElementTemplate :=
  { elementTemplate with
    properties := elementTemplate.properties.filter
      (isActive resolve element elementTemplate currentOverrides) }

/-- Modelled from the spec: the Conditional Entry Projection (the cloud properties
provider is not part of these sources): filter to the active properties, then
group them with `CustomProperties`. -/
def conditionalEntryProjection (bt : BindingTypes) (resolve : Resolver) (element : Element)
    (elementTemplate : ElementTemplate) (currentOverrides : List (String × JSVal)) :
    Option (List Group) :=
  CustomProperties bt element (applyConditions resolve element elementTemplate currentOverrides)

/-! ## ElementTemplatesPropertiesProvider.js (provider/element-templates)

The provider mutates arrays and group objects in place. Arrays and group objects live
in a heap and are named by references, so that an array and its copy, and a group held
by both, can be told apart. -/

/-- The method `Array.prototype.findIndex`: the index of the first accepted element; `none`
is the `-1` it returns when there is none. -/
def findIndex {α : Type} (p : α → Bool) : List α → Option Nat
  | [] => none
  | x :: xs => if p x then some 0 else (findIndex p xs).map (fun i => i + 1)

/-- The contents of an array after `array.splice(start, deleteCount, ...items)`. -/
def splice {α : Type} (xs : List α) (start deleteCount : Nat) (items : List α) : List α :=
  xs.take start ++ items ++ xs.drop (start + deleteCount)

/-- The contents of an array after `array.unshift(...items)`. -/
def unshift {α : Type} (xs : List α) (items : List α) : List α :=
  items ++ xs

/-- A group object of the properties panel. The field `add` is the handler of a list
group (unset once deleted), `items` its items; `entries` holds the ids of the entries. -/
structure PanelGroup (Item : Type) where
  id : String
  label : Option String := none
  component : Option String := none
  entries : List String := []
  add : Option String := none
  items : Option (List Item) := none
  deriving DecidableEq, Repr

/-- The heap: group objects and arrays of group references, each named by its position. -/
structure PanelHeap (Item : Type) where
  objects : List (PanelGroup Item)
  arrays : List (List Nat)
  deriving DecidableEq, Repr

/-- The group a reference names. -/
def PanelHeap.deref {Item : Type} (heap : PanelHeap Item) (ref : Nat) : Option (PanelGroup Item) :=
  heap.objects[ref]?

/-- The contents of the array a reference names. -/
def PanelHeap.readArray {Item : Type} (heap : PanelHeap Item) (array : Nat) : List Nat :=
  (heap.arrays[array]?).getD []

/-- Replace the contents of an array in place. -/
def PanelHeap.writeArray {Item : Type} (heap : PanelHeap Item) (array : Nat) (contents : List Nat) :
    PanelHeap Item :=
  { heap with arrays := heap.arrays.set array contents }

/-- Create a new array; its reference and the extended heap. -/
def PanelHeap.allocArray {Item : Type} (heap : PanelHeap Item) (contents : List Nat) :
    Nat × PanelHeap Item :=
  (heap.arrays.length, { heap with arrays := heap.arrays ++ [ contents ] })

/-- Create new group objects; their references, in order, and the extended heap. -/
def PanelHeap.allocGroups {Item : Type} (heap : PanelHeap Item) (groups : List (PanelGroup Item)) :
    List Nat × PanelHeap Item :=
  ((List.range groups.length).map (fun i => heap.objects.length + i),
   { heap with objects := heap.objects ++ groups })

/-- Overwrite a group object in place. -/
def PanelHeap.updateGroup {Item : Type} (heap : PanelHeap Item) (ref : Nat) (group : PanelGroup Item) :
    PanelHeap Item :=
  { heap with objects := heap.objects.set ref group }

/-- The test `group.id === id` on a group reference. -/
def PanelHeap.hasId {Item : Type} (heap : PanelHeap Item) (id : String) (ref : Nat) : Bool :=
  match heap.deref ref with
  | some group => decide (group.id = id)
  | none => false

/-- Source function `addGroupsAfter`, mutating the array `groups`. -/
def addGroupsAfter {Item : Type} (id : String) (groups : Nat) (groupsToAdd : List Nat)
    (heap : PanelHeap Item) : PanelHeap Item :=
  match findIndex (heap.hasId id) (heap.readArray groups) with
  | some index => heap.writeArray groups (splice (heap.readArray groups) index 0 groupsToAdd)
  | none => heap.writeArray groups (unshift (heap.readArray groups) groupsToAdd)

/-- Source function `findGroup`. -/
def findGroup {Item : Type} (groups : Nat) (id : String) (heap : PanelHeap Item) : Option Nat :=
  arrayFind (heap.hasId id) (heap.readArray groups)

/-- The constant `CAMUNDA_INPUT_PARAMETER_TYPE`. -/
def CAMUNDA_INPUT_PARAMETER_TYPE : String := "camunda:inputParameter"

/-- The collaborators of the provider that are not part of these sources: the template
registry lookup `elementTemplates.get(element)` and the functions `CustomProperties`
and `InputProperties` of `./properties`. -/
structure ProviderServices (Item : Type) where
  getTemplate : Element → Option ElementTemplate
  customProperties : Element → ElementTemplate → List (PanelGroup Item)
  inputProperties : Element → Nat → PropertyDescriptor → Option Item

/-- The loop `properties.forEach((property, index) => ...)` of `updateInputGroup`, started
at `index`: the items pushed, in order. -/
def inputItems {Item : Type} (services : ProviderServices Item)
    (element : Element) : List PropertyDescriptor → Nat → List Item
  | [], _ => []
  | property :: rest, index =>
    match services.inputProperties element index property with
    | some item => item :: inputItems services element rest (index + 1)
    | none => inputItems services element rest (index + 1)

/-- Source function `updateInputGroup`, mutating the input group object. -/
def updateInputGroup {Item : Type} (services : ProviderServices Item) (groups : Nat)
    (element : Element) (elementTemplate : ElementTemplate) (heap : PanelHeap Item) :
    PanelHeap Item :=
  match findGroup groups "CamundaPlatform__Input" heap with
  | none => heap
  | some inputGroup =>
    match heap.deref inputGroup with
    | none => heap
    | some group =>
      let properties := arrayFilter
        (fun property => !strTruthy property.type
          && decide (property.binding.type = CAMUNDA_INPUT_PARAMETER_TYPE))
        elementTemplate.properties
      heap.updateGroup inputGroup
        { group with add := none, items := some (inputItems services element properties 0) }

/-- The function returned by the source method `getGroups(element)`, applied to the array
`groups`: the reference of the array it returns and the heap it leaves. -/
def getGroups {Item : Type} (services : ProviderServices Item) (element : Element) (groups : Nat)
    (heap : PanelHeap Item) : Nat × PanelHeap Item :=
  let copied := heap.allocArray (heap.readArray groups)
  let groups' := copied.1
  let templatesGroup : PanelGroup Item :=
    { id := "template", label := some "Template", component := some "ElementTemplatesGroup",
      entries := [] }
  let allocated := copied.2.allocGroups [ templatesGroup ]
  let heap1 := addGroupsAfter "documentation" groups' allocated.1 allocated.2
  match services.getTemplate element with
  | none => (groups', heap1)
  | some elementTemplate =>
    let customPropertiesGroups := heap1.allocGroups (services.customProperties element elementTemplate)
    let heap2 := addGroupsAfter "template" groups' customPropertiesGroups.1 customPropertiesGroups.2
    (groups', updateInputGroup services groups' element elementTemplate heap2)

/-! ## Test data -/

/-- A task whose `name` attribute has the given value. -/
def taskNamed (name : String) : Element :=
  Element.shape { types := [ "bpmn:Task" ], attrs := [ ("name", JSVal.str name) ] }

/-- The condition `nameProp = 'foo'`. -/
def nameIsFoo : Option ConditionExpr :=
  some (ConditionExpr.single (SimpleCondition.equals "nameProp" "foo"))

/-- The condition template of the provider test: the unconditional property `name` and
six properties conditioned on `name = 'foo'`. -/
def conditionTemplate : ElementTemplate :=
  { id := "example.com.condition"
    properties :=
      [ { id := some "nameProp", label := some "name", type := some "String",
          binding := { type := "property", name := some "name" } },
        { label := some "customProperty", type := some "String", value := JSVal.str "defaultValue",
          binding := { type := "property", name := some "customProperty" },
          condition := nameIsFoo },
        { label := some "taskDefinitionType", type := some "String", value := JSVal.str "nameProp=foo",
          binding := { type := "zeebe:taskDefinition:type" }, condition := nameIsFoo },
        { label := some "input", type := some "String", value := JSVal.str "nameProp=foo",
          binding := { type := "zeebe:input", name := some "input" }, condition := nameIsFoo },
        { label := some "output", type := some "String", value := JSVal.str "nameProp=foo",
          binding := { type := "zeebe:output", source := some "source" }, condition := nameIsFoo },
        { label := some "property", type := some "String", value := JSVal.str "nameProp=foo",
          binding := { type := "zeebe:property", name := some "property" }, condition := nameIsFoo },
        { label := some "header", type := some "String", value := JSVal.str "nameProp=foo",
          binding := { type := "zeebe:taskHeader", key := some "header" }, condition := nameIsFoo } ] }

/-- The template of the correlation-key rendering test: a message name and a
correlation key, neither in a declared group. -/
def messageCorrelationTemplate : ElementTemplate :=
  { id := "message-correlation-key-rendering"
    properties :=
      [ { label := some "name", type := some "String",
          binding := { type := "bpmn:Message#property", name := some "name" } },
        { label := some "correlationKey", type := some "String", feel := some "required",
          binding := { type := "bpmn:Message#zeebe:subscription#property",
                       name := some "correlationKey" } } ] }

/-- A template whose only property is hidden and in no group. -/
def hiddenOnlyTemplate : ElementTemplate :=
  { id := "hidden-only"
    properties :=
      [ { type := some "Hidden", value := JSVal.str "secret",
          binding := { type := "property", name := some "secret" } } ] }

/-- A template with a declared group and one property in it, one in an unknown group and
one in no group. -/
def groupedTemplate : ElementTemplate :=
  { id := "grouped"
    groups := [ { id := "headers", label := some "Request headers" } ]
    properties :=
      [ { label := some "url", type := some "String",
          binding := { type := "zeebe:input", name := some "url" } },
        { label := some "accept", type := some "String", group := some "headers",
          binding := { type := "zeebe:taskHeader", key := some "accept" } },
        { label := some "body", type := some "Text", group := some "payload",
          binding := { type := "zeebe:input", name := some "body" } } ] }

/-- A template that declares a group with the id `_` and has a property in no group. -/
def underscoreTemplate : ElementTemplate :=
  { id := "underscore"
    groups := [ { id := "_", label := some "Underscore" } ]
    properties :=
      [ { label := some "url", type := some "String",
          binding := { type := "zeebe:input", name := some "url" } } ] }

/-- A template that declares a group with the empty id and has a property naming it. -/
def emptyGroupIdTemplate : ElementTemplate :=
  { id := "empty-group-id"
    groups := [ { id := "", label := some "Unnamed" } ]
    properties :=
      [ { label := some "url", type := some "String", group := some "",
          binding := { type := "zeebe:input", name := some "url" } } ] }

/-- A template with a property in the group `constructor`. -/
def constructorGroupTemplate : ElementTemplate :=
  { id := "constructor-group"
    groups := [ { id := "constructor", label := some "Constructor" } ]
    properties :=
      [ { label := some "url", type := some "String", group := some "constructor",
          binding := { type := "zeebe:input", name := some "url" } } ] }

/-- The second property of `messageCorrelationTemplate`. -/
def correlationKeyProperty : PropertyDescriptor :=
  { label := some "correlationKey", type := some "String", feel := some "required",
    binding := { type := "bpmn:Message#zeebe:subscription#property",
                 name := some "correlationKey" } }

/-- The entry the panel shows for `correlationKeyProperty`. -/
def correlationKeyEntry : Entry :=
  { id := "custom-entry-message-correlation-key-rendering-1"
    component := Component.FeelProperty
    property := correlationKeyProperty }

/-- The second property of `conditionTemplate`, conditioned on `name = 'foo'`. -/
def customPropertyDescriptor : PropertyDescriptor :=
  { label := some "customProperty", type := some "String", value := JSVal.str "defaultValue",
    binding := { type := "property", name := some "customProperty" },
    condition := nameIsFoo }

/-- An element that carries a template id and no template version, as the task of the
registry test `should get template by element (template ID)`. -/
def unversionedTask : Element :=
  Element.shape { types := [ "bpmn:Task" ], attrs := [ ("zeebe:modelerTemplate", JSVal.str "foo") ] }

/-- The entries of a container that are instances of `type`, first to last, in the words
of the specification of `findExtension`: the first of them is the extension. -/
def firstInstanceOf (values : List ExtensionValue) (type : String) : Option ExtensionValue :=
  (values.filter (fun value => value.types.contains type)).head?

/-- The subscription of a message in the words of its specification: the first
`zeebe:Subscription` entry among the message's extension elements, or `undefined` when
the message has no extension elements or no such entry. -/
def firstZeebeSubscription (message : Message) : Option ExtensionValue :=
  match message.extensionElements with
  | none => none
  | some extensionElements => firstInstanceOf extensionElements.values "zeebe:Subscription"

/-- The entries of a container that are instances of at least one listed type, in their
original order, in the words of the specification of `findExtensions`. -/
def instancesOfAny (values : List ExtensionValue) (types : List String) : List ExtensionValue :=
  values.filter (fun value => types.any (fun type => value.types.contains type))

/-- A service task carrying one `zeebe:TaskDefinition` between two other extensions. -/
def taskWithTaskDefinition : Element :=
  Element.shape
    { types := [ "bpmn:ServiceTask", "bpmn:Task", "bpmn:FlowNode", "bpmn:BaseElement" ]
      attrs := [ ("name", JSVal.str "Rest call") ]
      extensionElements := some
        { values :=
            [ { types := [ "zeebe:IoMapping" ] },
              { types := [ "zeebe:TaskDefinition" ], attrs := [ ("type", JSVal.str "http") ] },
              { types := [ "zeebe:TaskHeaders" ] } ] } }

/-- A task without extension elements. -/
def plainTask : Element :=
  Element.shape
    { types := [ "bpmn:Task", "bpmn:FlowNode", "bpmn:BaseElement" ], attrs := [] }

/-- A message with a subscription after another extension. -/
def subscribedMessage : Message :=
  { attrs := [ ("name", JSVal.str "order") ]
    extensionElements := some
      { values :=
          [ { types := [ "zeebe:Properties" ] },
            { types := [ "zeebe:Subscription" ],
              attrs := [ ("correlationKey", JSVal.str "one") ] },
            { types := [ "zeebe:Subscription" ],
              attrs := [ ("correlationKey", JSVal.str "two") ] } ] } }

/-- A message start event: a message event definition first, a timer event definition
second. -/
def messageStartEvent : BusinessObject :=
  { types := [ "bpmn:StartEvent", "bpmn:CatchEvent", "bpmn:Event", "bpmn:FlowNode" ]
    attrs := []
    eventDefinitions := some
      [ { types := [ "bpmn:MessageEventDefinition" ], messageRef := some subscribedMessage },
        { types := [ "bpmn:TimerEventDefinition" ] } ] }

/-- A send task that references a message itself. -/
def sendTask : BusinessObject :=
  { types := [ "bpmn:SendTask", "bpmn:Task", "bpmn:FlowNode" ]
    attrs := []
    messageRef := some subscribedMessage }

/-- A start event without event definitions. -/
def blankStartEvent : BusinessObject :=
  { types := [ "bpmn:StartEvent", "bpmn:CatchEvent", "bpmn:Event", "bpmn:FlowNode" ]
    attrs := []
    eventDefinitions := some [] }

/-- Task headers with two headers of the key `accept`. -/
def acceptHeaders : TaskHeaders :=
  { values :=
      [ { key := some "method", value := some "GET" },
        { key := some "accept", value := some "text/plain" },
        { key := some "accept", value := some "application/json" } ] }

/-- The groups of the panel before the provider runs: `general`, `documentation` and the
input list group, held by the array `0`. -/
def panelHeap : PanelHeap String :=
  { objects :=
      [ { id := "general", label := some "General" },
        { id := "documentation", label := some "Documentation" },
        { id := "CamundaPlatform__Input", label := some "Inputs", add := some "addInput" } ]
    arrays := [ [ 0, 1, 2 ] ] }

/-- A template with two untyped input parameters around a typed one. -/
def inputTemplate : ElementTemplate :=
  { id := "inputs"
    properties :=
      [ { label := some "first", binding := { type := "camunda:inputParameter", name := some "a" } },
        { label := some "typed", type := some "String",
          binding := { type := "camunda:inputParameter", name := some "b" } },
        { label := some "second", binding := { type := "camunda:inputParameter", name := some "c" } } ] }

/-- Provider services for the examples: the given registry answer, one custom-properties
group, and an input item naming its index and the property's label. -/
def panelServices (applied : Option ElementTemplate) : ProviderServices String :=
  { getTemplate := fun _ => applied
    customProperties := fun _ elementTemplate =>
      [ { id := "ElementTemplates__CustomProperties"
          entries := elementTemplate.properties.map (fun p => p.label.getD "") } ]
    inputProperties := fun _ index property =>
      some (toString index ++ ":" ++ property.label.getD "") }

/-- The ids of the groups an array holds, in order. -/
def PanelHeap.groupIds {Item : Type} (heap : PanelHeap Item) (array : Nat) : List String :=
  (heap.readArray array).filterMap (fun ref => (heap.deref ref).map (fun group => group.id))

/-- The panel heap with a template group object (reference `3`) that is in no array yet. -/
def panelHeapWithTemplateGroup : PanelHeap String :=
  { panelHeap with
    objects := panelHeap.objects ++ [ { id := "template", label := some "Template" } ] }

/-- The template group object `getGroups` creates. -/
def templatesGroup {Item : Type} : PanelGroup Item :=
  { id := "template", label := some "Template", component := some "ElementTemplatesGroup",
    entries := [] }

/-- The heap after step (0) of `getGroups` and the creation of the template group: the copy
of the provided array is the new array `heap.arrays.length`, the template group the new
object `heap.objects.length`. -/
def copiedHeap {Item : Type} (groups : Nat) (heap : PanelHeap Item) : PanelHeap Item :=
  { objects := heap.objects ++ [ templatesGroup ]
    arrays := heap.arrays ++ [ heap.readArray groups ] }

/-- The heap after step (1) of `getGroups`: the template group is added to the copy by
`addGroupsAfter`. -/
def heapWithTemplateGroup {Item : Type} (groups : Nat) (heap : PanelHeap Item) : PanelHeap Item :=
  addGroupsAfter "documentation" heap.arrays.length [ heap.objects.length ]
    (copiedHeap groups heap)

/-- The heap after `getGroups` created the custom-properties groups `customs`: they are the
new objects from `heap.objects.length + 1` on. -/
def heapWithCustomGroups {Item : Type} (customs : List (PanelGroup Item)) (groups : Nat)
    (heap : PanelHeap Item) : PanelHeap Item :=
  { objects := (heapWithTemplateGroup groups heap).objects ++ customs
    arrays := (heapWithTemplateGroup groups heap).arrays }

/-- The array `grouped[key]`, empty when `key` is no own key. -/
def valuesAt (grouped : Grouped) (key : String) : List PropertyDescriptor :=
  match grouped with
  | [] => []
  | (k, vals) :: rest => if k = key then vals else valuesAt rest key

/-- A template without declared groups whose second property names the group `zz`, the
first and the third naming none. -/
def orderTemplate : ElementTemplate :=
  { id := "order"
    properties :=
      [ { label := some "first", type := some "String",
          binding := { type := "zeebe:input", name := some "first" } },
        { label := some "second", type := some "String", group := some "zz",
          binding := { type := "zeebe:input", name := some "second" } },
        { label := some "third", type := some "String",
          binding := { type := "zeebe:input", name := some "third" } } ] }

/-- A template whose id and group ids contain `-` and digits: the declared groups `1` and
`1-0`, and one property in each of them and one in no group. -/
def dashTemplate : ElementTemplate :=
  { id := "a-1"
    groups := [ { id := "1", label := some "One" }, { id := "1-0", label := some "One-zero" } ]
    properties :=
      [ { label := some "plain", type := some "String",
          binding := { type := "zeebe:input", name := some "plain" } },
        { label := some "dashed", type := some "String", group := some "1-0",
          binding := { type := "zeebe:input", name := some "dashed" } },
        { label := some "numbered", type := some "String", group := some "1",
          binding := { type := "zeebe:input", name := some "numbered" } } ] }

/-! ## The template registry and the application engine

The registry (`ElementTemplates`) and the command behind `applyTemplate` are not part
of these sources, only their tests are. The definitions of this section follow the
specification (sections 3, 4.3, 4.4 and 4.5) and are checked against the tests. -/

/-- Modelled from the spec: the state of the registry, the catalog of loaded templates. -/
structure Registry where
  templates : List ElementTemplate
  deriving DecidableEq, Repr

/-- Modelled from the spec: the filter argument of `getAll` and `getLatest`, a JavaScript
value or a diagram element. -/
inductive FilterArgument where
  | value (v : JSVal)
  | element (e : Element)
  deriving DecidableEq, Repr

/-- Modelled from the spec: what a filter argument selects. The values `undefined` and
`null` are an absent filter, a string is a family id; any other value is no filter. -/
inductive FilterKind where
  | absent
  | family (id : String)
  | applicable (e : Element)
  | invalid
  deriving DecidableEq, Repr

/-- Modelled from the spec: the reading of a filter argument. -/
def classifyFilter : FilterArgument → FilterKind
  | FilterArgument.value JSVal.undefined => FilterKind.absent
  | FilterArgument.value JSVal.null => FilterKind.absent
  | FilterArgument.value (JSVal.str id) => FilterKind.family id
  | FilterArgument.value (JSVal.bool _) => FilterKind.invalid
  | FilterArgument.value (JSVal.num _) => FilterKind.invalid
  | FilterArgument.element e => FilterKind.applicable e

/-- Modelled from the spec: the outcome of a registry call, the sequence returned or the
message of the error thrown. -/
inductive RegistryResult (α : Type) where
  | returns (value : α)
  | throws (message : String)
  deriving DecidableEq, Repr

/-- The message of the error for a filter argument of a wrong type, as the tests expect it. -/
def FILTER_ARGUMENT_MESSAGE : String :=
  "argument must be of type \x7bstring|djs.model.Base|undefined\x7d"

/-- Modelled from the spec: whether a template applies to an element, that is whether the
element is an instance of one of the type tags in `appliesTo`. -/
def appliesToElement (e : Element) (template : ElementTemplate) : Bool :=
  template.appliesTo.any (fun tag => is (getBusinessObject (some e)) tag)

/-- Modelled from the spec: `getAll(filter)`, paired with the registry after the call. All
versions of one family, all templates applying to the element, or the whole catalog;
an error for any other argument. -/
def Registry.getAll (registry : Registry) (filter : FilterArgument) :
    RegistryResult (List ElementTemplate) × Registry :=
  match classifyFilter filter with
  | FilterKind.absent => (RegistryResult.returns registry.templates, registry)
  | FilterKind.family id =>
    (RegistryResult.returns (registry.templates.filter (fun t => decide (t.id = id))), registry)
  | FilterKind.applicable e =>
    (RegistryResult.returns (registry.templates.filter (appliesToElement e)), registry)
  | FilterKind.invalid => (RegistryResult.throws FILTER_ARGUMENT_MESSAGE, registry)

/-- Modelled from the spec: the options of `getLatest`. -/
structure LatestOptions where
  deprecated : Bool := false
  deriving DecidableEq, Repr

/-- Modelled from the spec: whether the version `candidate` is later than the version
`latest`. A versioned template is later than an unversioned one. -/
def newerVersion (candidate latest : Option Int) : Bool :=
  match candidate, latest with
  | some v, some w => decide (w < v)
  | some _, none => true
  | none, _ => false

/-- Modelled from the spec: the latest member of a family, found by one pass over its
members. -/
def latestOf : List ElementTemplate → Option ElementTemplate
  | [] => none
  | first :: rest =>
    some (rest.foldl
      (fun latest candidate =>
        if newerVersion candidate.version latest.version then candidate else latest)
      first)

/-- Modelled from the spec: the members of the catalog `getLatest` considers, the
deprecated ones only on request. -/
def latestCandidates (options : LatestOptions) (templates : List ElementTemplate) :
    List ElementTemplate :=
  templates.filter (fun t => options.deprecated || t.deprecated.isNone)

/-- Modelled from the spec: one entry per family, the latest member of each, in the order
in which the families first occur. -/
def latestPerFamily (templates : List ElementTemplate) : List ElementTemplate :=
  ((templates.map (fun t => t.id)).eraseDups).filterMap
    (fun id => latestOf (templates.filter (fun t => decide (t.id = id))))

/-- Modelled from the spec: `getLatest(filter, options)`, paired with the registry after
the call. -/
def Registry.getLatest (registry : Registry) (filter : FilterArgument)
    (options : LatestOptions) : RegistryResult (List ElementTemplate) × Registry :=
  match classifyFilter filter with
  | FilterKind.absent =>
    (RegistryResult.returns (latestPerFamily (latestCandidates options registry.templates)),
      registry)
  | FilterKind.family id =>
    (RegistryResult.returns
      (latestOf ((latestCandidates options registry.templates).filter
        (fun t => decide (t.id = id)))).toList, registry)
  | FilterKind.applicable e =>
    (RegistryResult.returns
      ((latestPerFamily (latestCandidates options registry.templates)).filter
        (appliesToElement e)), registry)
  | FilterKind.invalid => (RegistryResult.throws FILTER_ARGUMENT_MESSAGE, registry)

/-- Modelled from the spec: `get(id, version)`, the template with this id and version. -/
def Registry.get (registry : Registry) (id : String) (version : Option Int) :
    Option ElementTemplate :=
  arrayFind (fun t => decide (t.id = id) && decide (t.version = version)) registry.templates

/-- Modelled from the spec: `get(element)`, the template named by the applied-template
marker of the element. -/
def Registry.getApplied (registry : Registry) (element : Element) : Option ElementTemplate :=
  match getTemplateId (some element) with
  | JSVal.str id =>
    registry.get id
      (match getTemplateVersion (some element) with
       | JSVal.num version => some version
       | _ => none)
  | _ => none

/-- Modelled from the spec: what the application engine reads and writes of an element, its
business object (which carries the applied-template marker) and its `zeebe:IoMapping`. -/
structure TemplatedElement where
  businessObject : BusinessObject
  ioMapping : IoMapping
  deriving DecidableEq, Repr

/-- Modelled from the spec: the value a `zeebe:input` binding resolves to, the source of the
input parameter that `findInputParameter` finds, if there is one. -/
def inputSource (ioMapping : IoMapping) (binding : Binding) : Option String :=
  (findInputParameter ioMapping binding).bind (fun parameter => parameter.source)

/-- Replace the first member the predicate accepts. -/
def updateFirst {α : Type} (p : α → Bool) (f : α → α) : List α → List α
  | [] => []
  | x :: xs => if p x then f x :: xs else x :: updateFirst p f xs

/-- Remove the first member the predicate accepts. -/
def removeFirst {α : Type} (p : α → Bool) : List α → List α
  | [] => []
  | x :: xs => if p x then xs else x :: removeFirst p xs

/-- Modelled from the spec: write a bound value. The input parameter of the binding is
updated where it is; a missing one is created after the existing ones. -/
def setInput (ioMapping : IoMapping) (binding : Binding) (source : String) : IoMapping :=
  match findInputParameter ioMapping binding with
  | some _ =>
    { ioMapping with
      inputParameters :=
        updateFirst (fun parameter => decide (parameter.target = binding.name))
          (fun parameter => { parameter with source := some source })
          ioMapping.inputParameters }
  | none =>
    { ioMapping with
      inputParameters :=
        ioMapping.inputParameters ++ [ { source := some source, target := binding.name } ] }

/-- Modelled from the spec: clear a bound value, removing the input parameter. -/
def removeInput (ioMapping : IoMapping) (binding : Binding) : IoMapping :=
  { ioMapping with
    inputParameters :=
      removeFirst (fun parameter => decide (parameter.target = binding.name))
        ioMapping.inputParameters }

/-- Modelled from the spec: the default a property declares, when it is a string. -/
def defaultSource (property : PropertyDescriptor) : Option String :=
  match property.value with
  | JSVal.str s => some s
  | _ => none

/-- Modelled from the spec: a property the user cannot edit, hidden or not editable. -/
def isHiddenOrFixed (property : PropertyDescriptor) : Bool :=
  decide (property.type = some "Hidden") || decide (property.editable = some false)

/-- Modelled from the spec: whether a value is valid under the constraints of a property; a
dropdown accepts the values of its choices. -/
def isValidValue (property : PropertyDescriptor) (value : String) : Bool :=
  if property.type = some "Dropdown" then
    property.choices.any (fun choice => decide (choice.value = value))
  else
    true

/-- Modelled from the spec: the value a binding gets when a template is applied, from the
property of the old template with the same binding (if any), the property of the new
template and the existing value (if any). (a) A hidden or non-editable property takes
the new template's value; (c) a value equal to the old template's default is replaced
by the new default; (b) any other value is kept if it is valid under the new template
and replaced by the new default otherwise. -/
def valueToApply (oldProperty : Option PropertyDescriptor) (newProperty : PropertyDescriptor)
    (existing : Option String) : Option String :=
  if isHiddenOrFixed newProperty then
    defaultSource newProperty
  else
    match existing with
    | none => defaultSource newProperty
    | some value =>
      if oldProperty.bind defaultSource = some value then
        defaultSource newProperty
      else if isValidValue newProperty value then
        some value
      else
        defaultSource newProperty

/-- Modelled from the spec: binding identity of two `zeebe:input` properties. -/
def sameBinding (a b : PropertyDescriptor) : Bool :=
  decide (a.binding.type = b.binding.type) && decide (a.binding.name = b.binding.name)

/-- Modelled from the spec: the property of the old template with the binding of
`property`. -/
def oldPropertyFor (oldTemplate : Option ElementTemplate) (property : PropertyDescriptor) :
    Option PropertyDescriptor :=
  oldTemplate.bind (fun template => arrayFind (fun q => sameBinding q property) template.properties)

/-- Modelled from the spec: step 2 of `applyTemplate` for one property of the new template.
Only `zeebe:input` bindings are modelled. -/
def applyProperty (oldTemplate : Option ElementTemplate) (ioMapping : IoMapping)
    (property : PropertyDescriptor) : IoMapping :=
  if property.binding.type = "zeebe:input" then
    match valueToApply (oldPropertyFor oldTemplate property) property
        (inputSource ioMapping property.binding) with
    | some value => setInput ioMapping property.binding value
    | none => removeInput ioMapping property.binding
  else
    ioMapping

/-- Modelled from the spec: step 2 of `applyTemplate` for the bindings that exist in the
old template only, whose values are cleared. -/
def clearOldBindings (oldTemplate : Option ElementTemplate) (newTemplate : ElementTemplate)
    (ioMapping : IoMapping) : IoMapping :=
  match oldTemplate with
  | none => ioMapping
  | some template =>
    (template.properties.filter
      (fun q => decide (q.binding.type = "zeebe:input")
        && !newTemplate.properties.any (fun p => sameBinding q p))).foldl
      (fun io q => removeInput io q.binding) ioMapping

/-- Modelled from the spec: the applied-template marker for a template, or its absence. -/
def setMarker (businessObject : BusinessObject) (template : Option ElementTemplate) :
    BusinessObject :=
  match template with
  | none =>
    (businessObject.set TEMPLATE_ID_ATTR JSVal.undefined).set TEMPLATE_VERSION_ATTR
      JSVal.undefined
  | some t =>
    (businessObject.set TEMPLATE_ID_ATTR (JSVal.str t.id)).set TEMPLATE_VERSION_ATTR
      (match t.version with
       | some version => JSVal.num version
       | none => JSVal.undefined)

/-- Modelled from the spec: `applyTemplate(element, newTemplate)` for templates with
unconditional `zeebe:input` properties. With `null` the marker is cleared and the
values stay (unlink); otherwise the old template is looked up by the marker, the values
of its bindings that the new template lacks are cleared, the properties of the new
template are applied in declaration order and the marker is set. -/
def applyTemplate (registry : Registry) (element : TemplatedElement)
    (newTemplate : Option ElementTemplate) : TemplatedElement :=
  match newTemplate with
  | none => { element with businessObject := setMarker element.businessObject none }
  | some template =>
    let oldTemplate := registry.getApplied (Element.shape element.businessObject)
    { businessObject := setMarker element.businessObject (some template)
      ioMapping :=
        template.properties.foldl (applyProperty oldTemplate)
          (clearOldBindings oldTemplate template element.ioMapping) }

/-- The catalog of the registry tests, reduced to ids, versions and deprecation. -/
def testCatalog : Registry :=
  { templates :=
      [ { id := "my.mail.Task", properties := [] },
        { id := "deprecated", properties := [], deprecated := some {} },
        { id := "default", version := some 1, properties := [] },
        { id := "foo", properties := [] },
        { id := "foo", version := some 1, properties := [] },
        { id := "foo", version := some 2, properties := [] },
        { id := "foo", version := some 3, properties := [] },
        { id := "bar", version := some 1, properties := [] },
        { id := "bar", version := some 2, properties := [] },
        { id := "baz", properties := [] },
        { id := "process-template", version := some 1, properties := [] },
        { id := "subprocess-template", version := some 1, properties := [] } ] }

/-- A property bound to the input parameter `name`. -/
def inputProperty (name : String) (type : String) (value : JSVal) : PropertyDescriptor :=
  { label := some name, type := some type, value := value,
    binding := { type := "zeebe:input", name := some name } }

/-- The template `templateA` of the integration tests in the version `version`, with the
default `value` for the properties that declare one: `normalValue` without default,
`defaultValue` and `changedDefaultValue` with it, and the hidden `hiddenValue`. -/
def templateA (version : Int) (value : String) : ElementTemplate :=
  { id := "templateA"
    version := some version
    appliesTo := [ "bpmn:ServiceTask" ]
    properties :=
      [ inputProperty "normalValue" "String" JSVal.undefined,
        inputProperty "defaultValue" "String" (JSVal.str value),
        inputProperty "changedDefaultValue" "String" (JSVal.str value),
        inputProperty "hiddenValue" "Hidden" (JSVal.str value) ] }

/-- The catalog of the integration tests, reduced to the two versions of `templateA`. -/
def integrationCatalog : Registry :=
  { templates := [ templateA 1 "A1", templateA 2 "A2" ] }

/-- A service task with the given marker attributes and input parameters. -/
def serviceTask (attrs : List (String × JSVal)) (inputs : List (String × String)) :
    TemplatedElement :=
  { businessObject := { types := [ "bpmn:ServiceTask", "bpmn:Task" ], attrs := attrs }
    ioMapping :=
      { inputParameters :=
          inputs.map (fun ts => { source := some ts.2, target := some ts.1 })
        outputParameters := [] } }

/-- The element `templateTask` of the integration tests: `templateA` in version 1 is
applied, and the user has changed `changedDefaultValue`. -/
def templateTask : TemplatedElement :=
  serviceTask
    [ ("zeebe:modelerTemplate", JSVal.str "templateA"),
      ("zeebe:modelerTemplateVersion", JSVal.num 1) ]
    [ ("normalValue", "A1"), ("defaultValue", "A1"), ("changedDefaultValue", "A1-changed"),
      ("hiddenValue", "A1") ]

/-- The element `configuredTask` of the integration tests: a service task without template. -/
def configuredTask : TemplatedElement :=
  serviceTask []
    [ ("normalValue", "existing"), ("changedDefaultValue", "existing"),
      ("hiddenValue", "existing") ]

/-- A service task marked with `templateA` in version 1 that has the input parameters of
`configuredTask`. -/
def markedConfiguredTask : TemplatedElement :=
  serviceTask
    [ ("zeebe:modelerTemplate", JSVal.str "templateA"),
      ("zeebe:modelerTemplateVersion", JSVal.num 1) ]
    [ ("normalValue", "existing"), ("changedDefaultValue", "existing"),
      ("hiddenValue", "existing") ]

/-- The input parameters of an element as pairs of target and source. -/
def inputsOf (element : TemplatedElement) : List (Option String × Option String) :=
  element.ioMapping.inputParameters.map (fun parameter => (parameter.target, parameter.source))

/-! ## Lemmas on the document accessors and on `Array.prototype.find` -/

theorem BusinessObject.get_set_same (bo : BusinessObject) (name : String) (value : JSVal) :
    (bo.set name value).get name = value := by
  simp [BusinessObject.get, BusinessObject.set]

theorem BusinessObject.get_set_other (bo : BusinessObject) (name other : String) (value : JSVal)
    (h : other ≠ name) : (bo.set name value).get other = bo.get other := by
  have hfind : ∀ l : List (String × JSVal),
      (l.filter (fun kv => decide (kv.1 ≠ name))).find? (fun kv => decide (kv.1 = other))
        = l.find? (fun kv => decide (kv.1 = other)) := by
    intro l
    induction l with
    | nil => rfl
    | cons kv rest ih =>
      rw [List.filter_cons]
      by_cases hk : kv.1 = name
      · have hne : ¬ kv.1 = other := fun h' => h (h'.symm.trans hk)
        have h1 : decide (kv.1 ≠ name) = false := by simp [hk]
        have h2 : decide (kv.1 = other) = false := by simp [hne]
        rw [if_neg (by simp [h1]), List.find?_cons, h2, ih]
      · have h1 : decide (kv.1 ≠ name) = true := by simp [hk]
        rw [if_pos h1, List.find?_cons, List.find?_cons, ih]
  unfold BusinessObject.get BusinessObject.set
  simp only [List.find?]
  have hno : decide (name = other) = false := by simp [Ne.symm h]
  simp only [hno]
  rw [hfind]

theorem arrayFind_eq_none_iff {α : Type} (p : α → Bool) (l : List α) :
    arrayFind p l = none ↔ ∀ x ∈ l, p x = false := by
  induction l with
  | nil => simp [arrayFind]
  | cons x xs ih =>
    by_cases hx : p x = true
    · simp [arrayFind, hx]
    · simp [arrayFind, hx, ih]

theorem arrayFind_eq_some_iff {α : Type} (p : α → Bool) (l : List α) (x : α) :
    arrayFind p l = some x ↔
      ∃ before after, l = before ++ x :: after ∧ p x = true ∧ ∀ y ∈ before, p y = false := by
  induction l with
  | nil => simp [arrayFind]
  | cons a as ih =>
    by_cases ha : p a = true
    · simp only [arrayFind, ha, if_true, Option.some.injEq]
      constructor
      · intro h
        subst h
        exact ⟨[], as, rfl, ha, by simp⟩
      · rintro ⟨before, after, hl, _, hbefore⟩
        cases before with
        | nil =>
          simp only [List.nil_append, List.cons.injEq] at hl
          exact hl.1
        | cons b bs =>
          simp only [List.cons_append, List.cons.injEq] at hl
          have hb := hbefore b (by simp)
          rw [← hl.1] at hb
          simp [ha] at hb
    · have ha' : p a = false := by simpa using ha
      simp only [arrayFind, ha', Bool.false_eq_true, if_false, ih]
      constructor
      · rintro ⟨before, after, hl, hx, hbefore⟩
        refine ⟨a :: before, after, by simp [hl], hx, ?_⟩
        intro y hy
        rcases List.mem_cons.1 hy with rfl | hy
        · exact ha'
        · exact hbefore y hy
      · rintro ⟨before, after, hl, hx, hbefore⟩
        cases before with
        | nil =>
          simp only [List.nil_append, List.cons.injEq] at hl
          rw [hl.1] at ha'
          simp [hx] at ha'
        | cons b bs =>
          simp only [List.cons_append, List.cons.injEq] at hl
          exact ⟨bs, after, hl.2, hx, fun y hy => hbefore y (by simp [hy])⟩

/-! ## The applied-template marker (`getTemplateId`, `getTemplateVersion`) -/

/-- C4: `getTemplateId` returns exactly the value of the attribute `zeebe:modelerTemplate`
of the element's business object and `getTemplateVersion` exactly the value of
`zeebe:modelerTemplateVersion`, for a diagram element and for a document node alike;
the two attribute names are distinct, and writing either attribute leaves the other
getter's result unchanged. -/
theorem getTemplateId_getTemplateVersion_read_fixed_attributes (bo : BusinessObject) :
    getTemplateId (some (Element.shape bo)) = bo.get "zeebe:modelerTemplate"
    ∧ getTemplateId (some (Element.moddle bo)) = bo.get "zeebe:modelerTemplate"
    ∧ getTemplateVersion (some (Element.shape bo)) = bo.get "zeebe:modelerTemplateVersion"
    ∧ getTemplateVersion (some (Element.moddle bo)) = bo.get "zeebe:modelerTemplateVersion"
    ∧ TEMPLATE_ID_ATTR ≠ TEMPLATE_VERSION_ATTR
    ∧ (∀ v : JSVal,
        getTemplateId (some (Element.shape (bo.set "zeebe:modelerTemplateVersion" v)))
          = getTemplateId (some (Element.shape bo)))
    ∧ (∀ v : JSVal,
        getTemplateVersion (some (Element.shape (bo.set "zeebe:modelerTemplate" v)))
          = getTemplateVersion (some (Element.shape bo))) := by
  refine ⟨rfl, rfl, rfl, rfl, by decide, ?_, ?_⟩
  · intro v
    exact BusinessObject.get_set_other bo _ _ v (by decide)
  · intro v
    exact BusinessObject.get_set_other bo _ _ v (by decide)

/-- C5, counterexample: the task of the registry test carries the template id `foo` and no
template version, so its id is present while its version is absent. -/
theorem template_id_without_version :
    ¬ (getTemplateId (some unversionedTask) = JSVal.undefined
        ↔ getTemplateVersion (some unversionedTask) = JSVal.undefined) := by
  decide

/-- C5, amended: the two markers are read from independent attributes. An element without
business object has neither. For an element with a business object the template id is
absent exactly when `zeebe:modelerTemplate` is unset and the version exactly when
`zeebe:modelerTemplateVersion` is unset, so the two are absent together or present
together exactly when the two attributes are both unset or both set; and writing the
version attribute changes the version read and leaves the template id as it is. -/
theorem template_markers_absent_together_iff (element : Option Element) :
    (getBusinessObject element = none →
      getTemplateId element = JSVal.undefined ∧ getTemplateVersion element = JSVal.undefined)
    ∧ (∀ bo, getBusinessObject element = some bo →
        (getTemplateId element = JSVal.undefined ↔ bo.get TEMPLATE_ID_ATTR = JSVal.undefined)
        ∧ (getTemplateVersion element = JSVal.undefined
            ↔ bo.get TEMPLATE_VERSION_ATTR = JSVal.undefined)
        ∧ ((getTemplateId element = JSVal.undefined
              ↔ getTemplateVersion element = JSVal.undefined)
            ↔ (bo.get TEMPLATE_ID_ATTR = JSVal.undefined
              ↔ bo.get TEMPLATE_VERSION_ATTR = JSVal.undefined))
        ∧ ∀ v : JSVal,
            getTemplateVersion (some (Element.shape (bo.set TEMPLATE_VERSION_ATTR v))) = v
            ∧ getTemplateId (some (Element.shape (bo.set TEMPLATE_VERSION_ATTR v)))
                = getTemplateId element) := by
  constructor
  · intro h
    simp [getTemplateId, getTemplateVersion, h]
  · intro bo h
    have hid : getTemplateId element = bo.get TEMPLATE_ID_ATTR := by
      simp [getTemplateId, h]
    have hversion : getTemplateVersion element = bo.get TEMPLATE_VERSION_ATTR := by
      simp [getTemplateVersion, h]
    refine ⟨by rw [hid], by rw [hversion], by rw [hid, hversion], ?_⟩
    intro v
    constructor
    · exact BusinessObject.get_set_same bo TEMPLATE_VERSION_ATTR v
    · rw [hid]
      exact BusinessObject.get_set_other bo TEMPLATE_VERSION_ATTR TEMPLATE_ID_ATTR v (by decide)

/-- C5, witness: the unversioned task has a template id and no version, as its two
attributes say, and giving it the version 1 leaves its template id as it is. -/
theorem template_markers_absent_together_iff_witness :
    getTemplateId (some unversionedTask) = JSVal.str "foo"
    ∧ getTemplateVersion (some unversionedTask) = JSVal.undefined
    ∧ getTemplateVersion (some (Element.shape
        (BusinessObject.set { types := [ "bpmn:Task" ],
                              attrs := [ ("zeebe:modelerTemplate", JSVal.str "foo") ] }
          TEMPLATE_VERSION_ATTR (JSVal.num 1)))) = JSVal.num 1
    ∧ getTemplateId (some (Element.shape
        (BusinessObject.set { types := [ "bpmn:Task" ],
                              attrs := [ ("zeebe:modelerTemplate", JSVal.str "foo") ] }
          TEMPLATE_VERSION_ATTR (JSVal.num 1)))) = getTemplateId (some unversionedTask) :=
  ⟨by decide, by decide,
   (((template_markers_absent_together_iff (some unversionedTask)).2
      { types := [ "bpmn:Task" ], attrs := [ ("zeebe:modelerTemplate", JSVal.str "foo") ] }
      rfl).2.2.2 (JSVal.num 1)).1,
   (((template_markers_absent_together_iff (some unversionedTask)).2
      { types := [ "bpmn:Task" ], attrs := [ ("zeebe:modelerTemplate", JSVal.str "foo") ] }
      rfl).2.2.2 (JSVal.num 1)).2⟩

/-! ## Default values (`getDefaultValue`) -/

/-- C6: a property descriptor whose `value` is not `undefined` has exactly that value as
its default, whatever `generatedValue` declares, and `uuid()` is not called (the call
counter is unchanged). -/
theorem getDefaultValue_explicit_value (gen : UuidSource) (property : PropertyDescriptor)
    (calls : Nat) (h : property.value ≠ JSVal.undefined) :
    getDefaultValue gen property calls = (property.value, calls) := by
  simp [getDefaultValue, h]

/-- C6, witness: the values `null`, `false`, `0` and the empty string are returned as they
are although the descriptor declares a generated `uuid`. -/
theorem getDefaultValue_explicit_value_witness :
    getDefaultValue (fun n => "id-" ++ toString n)
        { value := JSVal.null, binding := { type := "property" },
          generatedValue := some { type := JSVal.str "uuid" } } 5 = (JSVal.null, 5)
    ∧ getDefaultValue (fun n => "id-" ++ toString n)
        { value := JSVal.bool false, binding := { type := "property" },
          generatedValue := some { type := JSVal.str "uuid" } } 5 = (JSVal.bool false, 5)
    ∧ getDefaultValue (fun n => "id-" ++ toString n)
        { value := JSVal.num 0, binding := { type := "property" } } 5 = (JSVal.num 0, 5)
    ∧ getDefaultValue (fun n => "id-" ++ toString n)
        { value := JSVal.str "", binding := { type := "property" },
          generatedValue := some { type := JSVal.str "uuid" } } 5 = (JSVal.str "", 5) :=
  ⟨getDefaultValue_explicit_value _ _ 5 (by decide),
   getDefaultValue_explicit_value _ _ 5 (by decide),
   getDefaultValue_explicit_value _ _ 5 (by decide),
   getDefaultValue_explicit_value _ _ 5 (by decide)⟩

/-- C7: a property descriptor without explicit value has a defined default exactly when its
`generatedValue.type` is `'uuid'`; then the default is the identifier the generator
hands out (one call of `uuid()`), and without `generatedValue`, or with one of another
type, the default is `undefined` and `uuid()` is not called. -/
theorem getDefaultValue_without_value (gen : UuidSource) (property : PropertyDescriptor)
    (calls : Nat) (h : property.value = JSVal.undefined) :
    ((getDefaultValue gen property calls).1 ≠ JSVal.undefined
        ↔ ∃ g, property.generatedValue = some g ∧ g.type = JSVal.str "uuid")
    ∧ (∀ g, property.generatedValue = some g → g.type = JSVal.str "uuid" →
        getDefaultValue gen property calls = (JSVal.str (uuid gen calls).1, (uuid gen calls).2))
    ∧ (property.generatedValue = none →
        getDefaultValue gen property calls = (JSVal.undefined, calls))
    ∧ (∀ g, property.generatedValue = some g → g.type ≠ JSVal.str "uuid" →
        getDefaultValue gen property calls = (JSVal.undefined, calls)) := by
  cases hg : property.generatedValue with
  | none => simp [getDefaultValue, h, hg]
  | some g =>
    by_cases ht : g.type = JSVal.str "uuid"
    · simp [getDefaultValue, h, hg, ht]
    · simp [getDefaultValue, h, hg, ht]

/-- C7, witness: a descriptor declaring a generated `uuid` and no value gets the generator's
next identifier. -/
theorem getDefaultValue_without_value_witness :
    getDefaultValue (fun n => "id-" ++ toString n)
      { binding := { type := "property" }, generatedValue := some { type := JSVal.str "uuid" } } 5
      = (JSVal.str "id-5", 6) :=
  (getDefaultValue_without_value (fun n => "id-" ++ toString n)
    { binding := { type := "property" }, generatedValue := some { type := JSVal.str "uuid" } } 5
    rfl).2.1 { type := JSVal.str "uuid" } rfl rfl

/-! ## Lookups in extension lists -/

/-- C8: `findInputParameter` returns the first input parameter, in list order, whose `target`
equals the binding's `name`, and `undefined` exactly when no input parameter has that
target. -/
theorem findInputParameter_first_match (ioMapping : IoMapping) (binding : Binding) :
    (∀ parameter, findInputParameter ioMapping binding = some parameter ↔
      ∃ before after, ioMapping.inputParameters = before ++ parameter :: after
        ∧ parameter.target = binding.name
        ∧ ∀ q ∈ before, q.target ≠ binding.name)
    ∧ (findInputParameter ioMapping binding = none ↔
      ∀ q ∈ ioMapping.inputParameters, q.target ≠ binding.name) := by
  constructor
  · intro parameter
    simp [findInputParameter, arrayFind_eq_some_iff]
  · simp [findInputParameter, arrayFind_eq_none_iff]

/-- C9: `findOutputParameter` returns the first output parameter, in list order, whose
`source` equals the binding's `source`, and `undefined` exactly when no output parameter
has that source. -/
theorem findOutputParameter_first_match (ioMapping : IoMapping) (binding : Binding) :
    (∀ parameter, findOutputParameter ioMapping binding = some parameter ↔
      ∃ before after, ioMapping.outputParameters = before ++ parameter :: after
        ∧ parameter.source = binding.source
        ∧ ∀ q ∈ before, q.source ≠ binding.source)
    ∧ (findOutputParameter ioMapping binding = none ↔
      ∀ q ∈ ioMapping.outputParameters, q.source ≠ binding.source) := by
  constructor
  · intro parameter
    simp [findOutputParameter, arrayFind_eq_some_iff]
  · simp [findOutputParameter, arrayFind_eq_none_iff]

/-- C10: `findZeebeProperty` returns the first entry of the `properties` list whose `name`
equals the binding's `name`, and `undefined` exactly when no entry has that name. -/
theorem findZeebeProperty_first_match (zeebeProperties : ZeebeProperties) (binding : Binding) :
    (∀ entry, findZeebeProperty zeebeProperties binding = some entry ↔
      ∃ before after, zeebeProperties.properties = before ++ entry :: after
        ∧ entry.name = binding.name
        ∧ ∀ q ∈ before, q.name ≠ binding.name)
    ∧ (findZeebeProperty zeebeProperties binding = none ↔
      ∀ q ∈ zeebeProperties.properties, q.name ≠ binding.name) := by
  constructor
  · intro entry
    simp [findZeebeProperty, arrayFind_eq_some_iff]
  · simp [findZeebeProperty, arrayFind_eq_none_iff]

/-! ## Lemmas on `createCustomEntry` and `addCustomGroup` -/

theorem createCustomEntry_eq_some {bt : BindingTypes} {id : String} {property : PropertyDescriptor}
    {entry : Entry} (h : createCustomEntry bt id property = some entry) :
    entry.id = id ∧ entry.property = property := by
  simp only [createCustomEntry] at h
  split_ifs at h <;> (cases h; exact ⟨rfl, rfl⟩)

theorem createCustomEntry_isSome_congr (bt : BindingTypes) (id id' : String)
    (property : PropertyDescriptor) :
    (createCustomEntry bt id property).isSome = (createCustomEntry bt id' property).isSome := by
  simp only [createCustomEntry]
  split_ifs <;> rfl

theorem mem_customEntries (bt : BindingTypes) (templateId : String) (entry : Entry) :
    ∀ (properties : List PropertyDescriptor) (start : Nat),
      entry ∈ customEntries bt templateId properties start ↔
        ∃ i property, properties[i]? = some property
          ∧ createCustomEntry bt (entryId templateId (start + i)) property = some entry := by
  intro properties
  induction properties with
  | nil => intro start; simp [customEntries]
  | cons p rest ih =>
    intro start
    have hstep : ∀ i, start + 1 + i = start + (i + 1) := fun i => by omega
    constructor
    · intro h
      have hrest : entry ∈ customEntries bt templateId rest (start + 1) →
          ∃ i property, (p :: rest)[i]? = some property
            ∧ createCustomEntry bt (entryId templateId (start + i)) property = some entry := by
        intro hmem
        obtain ⟨i, q, hq, hc⟩ := (ih (start + 1)).1 hmem
        exact ⟨i + 1, q, by simpa using hq, by rw [← hstep]; exact hc⟩
      simp only [customEntries] at h
      cases hc : createCustomEntry bt (entryId templateId start) p with
      | none =>
        rw [hc] at h
        exact hrest h
      | some e =>
        rw [hc] at h
        rcases List.mem_cons.1 h with rfl | h
        · exact ⟨0, p, by simp, by simpa using hc⟩
        · exact hrest h
    · rintro ⟨i, q, hq, hc⟩
      have hrest : ∀ j, rest[j]? = some q →
          createCustomEntry bt (entryId templateId (start + (j + 1))) q = some entry →
          entry ∈ customEntries bt templateId rest (start + 1) := by
        intro j hj hcj
        exact (ih (start + 1)).2 ⟨j, q, hj, by rw [hstep]; exact hcj⟩
      simp only [customEntries]
      cases i with
      | zero =>
        simp only [List.getElem?_cons_zero, Option.some.injEq] at hq
        subst hq
        simp only [Nat.add_zero] at hc
        rw [hc]
        exact List.mem_cons_self _ _
      | succ j =>
        simp only [List.getElem?_cons_succ] at hq
        cases hp : createCustomEntry bt (entryId templateId start) p with
        | none => exact hrest j hq hc
        | some e => exact List.mem_cons_of_mem _ (hrest j hq hc)

theorem addCustomGroup_eq (bt : BindingTypes) (groups : List Group) (props : CustomGroupProps) :
    addCustomGroup bt groups props =
      if (customEntries bt props.templateId props.properties 0).length ≠ 0 then
        groups ++ [ { id := props.id, label := props.label,
                      entries := customEntries bt props.templateId props.properties 0,
                      shouldOpen := props.openByDefault.getD true, tooltip := props.tooltip } ]
      else groups := by
  simp only [addCustomGroup]

/-! ## Lemmas on `groupBy` and the key order -/

theorem pushTo_self (key : String) (val : PropertyDescriptor) :
    ∀ grouped : Grouped, ∃ vals, (key, vals) ∈ pushTo key val grouped ∧ val ∈ vals := by
  intro grouped
  induction grouped with
  | nil => exact ⟨[ val ], by simp [pushTo], by simp⟩
  | cons kv rest ih =>
    obtain ⟨k, vals⟩ := kv
    by_cases hk : k = key
    · subst hk
      exact ⟨vals ++ [ val ], by simp [pushTo], by simp⟩
    · obtain ⟨vs, hmem, hval⟩ := ih
      exact ⟨vs, by simp [pushTo, hk, hmem], hval⟩

theorem pushTo_mono (key : String) (val : PropertyDescriptor) (k : String)
    (vals : List PropertyDescriptor) :
    ∀ grouped : Grouped, (k, vals) ∈ grouped →
      ∃ vals', (k, vals') ∈ pushTo key val grouped ∧ ∀ v ∈ vals, v ∈ vals' := by
  intro grouped
  induction grouped with
  | nil => intro h; simp at h
  | cons kv rest ih =>
    obtain ⟨k0, vals0⟩ := kv
    intro h
    by_cases hk : k0 = key
    · rcases List.mem_cons.1 h with heq | hrest
      · cases heq
        exact ⟨vals ++ [ val ], by simp [pushTo, hk], fun v hv => by simp [hv]⟩
      · exact ⟨vals, by simp [pushTo, hk, hrest], fun v hv => hv⟩
    · rcases List.mem_cons.1 h with heq | hrest
      · cases heq
        exact ⟨vals, by simp [pushTo, hk], fun v hv => hv⟩
      · obtain ⟨vs, hmem, hsub⟩ := ih hrest
        exact ⟨vs, by simp [pushTo, hk, hmem], hsub⟩

theorem pushTo_sound (key : String) (val : PropertyDescriptor) (k : String)
    (vals : List PropertyDescriptor) :
    ∀ grouped : Grouped, (k, vals) ∈ pushTo key val grouped →
      ∀ v ∈ vals, (k = key ∧ v = val) ∨ ∃ vals0, (k, vals0) ∈ grouped ∧ v ∈ vals0 := by
  intro grouped
  induction grouped with
  | nil =>
    intro h v hv
    simp only [pushTo, List.mem_singleton, Prod.mk.injEq] at h
    obtain ⟨rfl, rfl⟩ := h
    left
    exact ⟨rfl, by simpa using hv⟩
  | cons kv rest ih =>
    obtain ⟨k0, vals0⟩ := kv
    intro h v hv
    by_cases hk : k0 = key
    · simp only [pushTo, hk, if_true] at h
      rcases List.mem_cons.1 h with heq | hrest
      · cases heq
        rcases List.mem_append.1 hv with hv0 | hv1
        · right
          exact ⟨vals0, by simp [hk], hv0⟩
        · left
          exact ⟨rfl, by simpa using hv1⟩
      · right
        exact ⟨vals, List.mem_cons_of_mem _ hrest, hv⟩
    · simp only [pushTo, hk, if_false] at h
      rcases List.mem_cons.1 h with heq | hrest
      · cases heq
        right
        exact ⟨vals, List.mem_cons_self _ _, hv⟩
      · rcases ih hrest v hv with hl | ⟨vs, hmem, hvs⟩
        · exact Or.inl hl
        · exact Or.inr ⟨vs, List.mem_cons_of_mem _ hmem, hvs⟩

theorem groupByStep_eq_some {grouped grouped' : Grouped} {val : PropertyDescriptor}
    (h : groupByStep grouped val = some grouped') :
    grouped' = pushTo (groupKey val) val grouped := by
  simp only [groupByStep] at h
  split_ifs at h <;> (cases h; rfl)

theorem groupByStep_total (grouped : Grouped) (val : PropertyDescriptor)
    (h : groupKey val ∉ OBJECT_PROTOTYPE_KEYS) :
    groupByStep grouped val = some (pushTo (groupKey val) val grouped) := by
  by_cases ho : hasOwnKey grouped (groupKey val) = true <;> simp [groupByStep, h, ho]

theorem groupByLoop_total :
    ∀ (properties : List PropertyDescriptor) (grouped : Grouped),
      (∀ p ∈ properties, groupKey p ∉ OBJECT_PROTOTYPE_KEYS) →
      ∃ result, groupByLoop properties grouped = some result := by
  intro properties
  induction properties with
  | nil => intro grouped _; exact ⟨grouped, rfl⟩
  | cons p rest ih =>
    intro grouped h
    simp only [groupByLoop, groupByStep_total grouped p (h p (List.mem_cons_self _ _))]
    exact ih _ (fun q hq => h q (List.mem_cons_of_mem _ hq))

theorem groupByLoop_complete :
    ∀ (properties : List PropertyDescriptor) (grouped result : Grouped),
      groupByLoop properties grouped = some result →
      (∀ p ∈ properties, ∃ vals, (groupKey p, vals) ∈ result ∧ p ∈ vals)
      ∧ (∀ k vals, (k, vals) ∈ grouped →
          ∃ vals', (k, vals') ∈ result ∧ ∀ v ∈ vals, v ∈ vals') := by
  intro properties
  induction properties with
  | nil =>
    intro grouped result h
    simp only [groupByLoop, Option.some.injEq] at h
    subst h
    exact ⟨fun p hp => by simp at hp, fun k vals hk => ⟨vals, hk, fun v hv => hv⟩⟩
  | cons p rest ih =>
    intro grouped result h
    simp only [groupByLoop] at h
    cases hs : groupByStep grouped p with
    | none => rw [hs] at h; cases h
    | some g' =>
      rw [hs] at h
      have hg' := groupByStep_eq_some hs
      obtain ⟨hprops, hold⟩ := ih g' result h
      constructor
      · intro q hq
        rcases List.mem_cons.1 hq with rfl | hq
        · obtain ⟨vs, hmem, hval⟩ := pushTo_self (groupKey q) q grouped
          rw [← hg'] at hmem
          obtain ⟨vs', hmem', hsub⟩ := hold _ _ hmem
          exact ⟨vs', hmem', hsub q hval⟩
        · exact hprops q hq
      · intro k vals hk
        obtain ⟨vs, hmem, hsub⟩ := pushTo_mono (groupKey p) p k vals grouped hk
        rw [← hg'] at hmem
        obtain ⟨vs', hmem', hsub'⟩ := hold _ _ hmem
        exact ⟨vs', hmem', fun v hv => hsub' v (hsub v hv)⟩

theorem groupByLoop_sound :
    ∀ (properties : List PropertyDescriptor) (grouped result : Grouped),
      groupByLoop properties grouped = some result →
      ∀ k vals, (k, vals) ∈ result → ∀ v ∈ vals,
        (v ∈ properties ∧ groupKey v = k) ∨ ∃ vals0, (k, vals0) ∈ grouped ∧ v ∈ vals0 := by
  intro properties
  induction properties with
  | nil =>
    intro grouped result h k vals hk v hv
    simp only [groupByLoop, Option.some.injEq] at h
    subst h
    exact Or.inr ⟨vals, hk, hv⟩
  | cons p rest ih =>
    intro grouped result h k vals hk v hv
    simp only [groupByLoop] at h
    cases hs : groupByStep grouped p with
    | none => rw [hs] at h; cases h
    | some g' =>
      rw [hs] at h
      have hg' := groupByStep_eq_some hs
      rcases ih g' result h k vals hk v hv with ⟨hmem, hkey⟩ | ⟨vs, hmem, hvs⟩
      · exact Or.inl ⟨List.mem_cons_of_mem _ hmem, hkey⟩
      · rw [hg'] at hmem
        rcases pushTo_sound (groupKey p) p k vs grouped hmem v hvs with ⟨hk', hv'⟩ | hold
        · subst hv'
          exact Or.inl ⟨List.mem_cons_self _ _, hk'.symm⟩
        · exact Or.inr hold

theorem mem_ownKeysOrder {β : Type} (object : List (String × β)) (kv : String × β) :
    kv ∈ ownKeysOrder object ↔ kv ∈ object := by
  simp only [ownKeysOrder, List.mem_append, List.mem_map, List.mem_filter]
  constructor
  · rintro (⟨nkv, hmem, rfl⟩ | ⟨hmem, _⟩)
    · rw [(List.perm_insertionSort _ _).mem_iff, List.mem_filterMap] at hmem
      obtain ⟨a, ha, hmap⟩ := hmem
      cases hidx : arrayIndex? a.1 with
      | none => rw [hidx] at hmap; cases hmap
      | some n =>
        rw [hidx] at hmap
        simp only [Option.map_some', Option.some.injEq] at hmap
        subst hmap
        exact ha
    · exact hmem
  · intro hmem
    cases hidx : arrayIndex? kv.1 with
    | none => exact Or.inr ⟨hmem, by simp [hidx]⟩
    | some n =>
      left
      refine ⟨(n, kv), ?_, rfl⟩
      rw [(List.perm_insertionSort _ _).mem_iff, List.mem_filterMap]
      exact ⟨kv, hmem, by simp [hidx]⟩

/-! ## The shape of the result of `CustomProperties` -/

theorem collectGroup_foldl (bt : BindingTypes) (elementTemplate : ElementTemplate) :
    ∀ (keys : List (String × List PropertyDescriptor)) (acc : Collected),
      (keys.foldl (collectGroup bt elementTemplate) acc).groups
          = acc.groups ++ keys.filterMap (renderedGroup? bt elementTemplate)
      ∧ (keys.foldl (collectGroup bt elementTemplate) acc).defaultProps
          = acc.defaultProps ++ (keys.filter
              (fun kv => (findCustomGroup elementTemplate.groups kv.1).isNone)).flatMap
                (fun kv => kv.2) := by
  intro keys
  induction keys with
  | nil => intro acc; simp
  | cons kv rest ih =>
    intro acc
    simp only [List.foldl_cons]
    obtain ⟨hg, hd⟩ := ih (collectGroup bt elementTemplate acc kv)
    rw [hg, hd]
    cases hf : findCustomGroup elementTemplate.groups kv.1 with
    | none =>
      simp [collectGroup, renderedGroup?, hf, List.filter_cons, List.flatMap_cons]
    | some group =>
      by_cases he : (customEntries bt (elementTemplate.id ++ "-" ++ kv.1) kv.2 0).length = 0
      · simp [collectGroup, renderedGroup?, hf, List.filter_cons, addCustomGroup_eq,
          declaredGroup, he]
      · simp [collectGroup, renderedGroup?, hf, List.filter_cons, addCustomGroup_eq,
          declaredGroup, he]

theorem CustomProperties_eq_some {bt : BindingTypes} {element : Element}
    {elementTemplate : ElementTemplate} {groups : List Group}
    (h : CustomProperties bt element elementTemplate = some groups) :
    ∃ grouped, groupByGroupId elementTemplate.properties = some grouped
      ∧ groups = (ownKeysOrder grouped).filterMap (renderedGroup? bt elementTemplate)
          ++ (if (defaultGroup bt elementTemplate (defaultPropsOf elementTemplate grouped)).entries.length
                ≠ 0
              then [ defaultGroup bt elementTemplate (defaultPropsOf elementTemplate grouped) ]
              else []) := by
  simp only [CustomProperties] at h
  cases hg : groupByGroupId elementTemplate.properties with
  | none => rw [hg] at h; cases h
  | some grouped =>
    rw [hg] at h
    refine ⟨grouped, rfl, ?_⟩
    obtain ⟨hgroups, hdefault⟩ := collectGroup_foldl bt elementTemplate (ownKeysOrder grouped)
      { groups := [], defaultProps := [] }
    simp only [List.nil_append] at hgroups hdefault
    simp only [collectGroups, hgroups, hdefault, addCustomGroup_eq] at h
    have hdp : defaultPropsOf elementTemplate grouped
        = ((ownKeysOrder grouped).filter
            (fun kv => (findCustomGroup elementTemplate.groups kv.1).isNone)).flatMap
              (fun kv => kv.2) := rfl
    rw [← hdp] at h
    by_cases hlen : (defaultPropsOf elementTemplate grouped).length = 0
    · have hnil : defaultPropsOf elementTemplate grouped = [] := List.length_eq_zero.1 hlen
      simp only [hnil, List.length_nil, ne_eq, not_true_eq_false, if_false,
        Option.some.injEq] at h
      simp [defaultGroup, hnil, customEntries, ← h]
    · simp only [ne_eq, hlen, not_false_eq_true, if_true] at h
      by_cases he : (customEntries bt elementTemplate.id
          (defaultPropsOf elementTemplate grouped) 0).length = 0
      · simp only [he, not_true_eq_false, if_false, Option.some.injEq] at h
        simp [defaultGroup, he, ← h]
      · simp only [he, not_false_eq_true, if_true, Option.some.injEq] at h
        simp [defaultGroup, he, ← h]

theorem CustomProperties_total (bt : BindingTypes) (element : Element)
    (elementTemplate : ElementTemplate)
    (h : ∀ p ∈ elementTemplate.properties, groupKey p ∉ OBJECT_PROTOTYPE_KEYS) :
    ∃ groups, CustomProperties bt element elementTemplate = some groups := by
  obtain ⟨grouped, hg⟩ := groupByLoop_total elementTemplate.properties [] h
  simp only [CustomProperties, groupByGroupId, hg]
  split_ifs
  · exact ⟨_, rfl⟩
  · exact ⟨_, rfl⟩

theorem CustomProperties_eq_groupsOf {bt : BindingTypes} {element : Element}
    {elementTemplate : ElementTemplate} {groups : List Group}
    (h : CustomProperties bt element elementTemplate = some groups) :
    ∃ grouped, groupByGroupId elementTemplate.properties = some grouped
      ∧ groups = groupsOf bt elementTemplate grouped :=
  CustomProperties_eq_some h

theorem mem_defaultPropsOf (elementTemplate : ElementTemplate) (grouped : Grouped)
    (p : PropertyDescriptor) :
    p ∈ defaultPropsOf elementTemplate grouped ↔
      ∃ k vals, (k, vals) ∈ grouped ∧ findCustomGroup elementTemplate.groups k = none
        ∧ p ∈ vals := by
  simp only [defaultPropsOf, List.mem_flatMap, List.mem_filter, mem_ownKeysOrder,
    Option.isNone_iff_eq_none]
  constructor
  · rintro ⟨⟨k, vals⟩, ⟨hmem, hnone⟩, hp⟩
    exact ⟨k, vals, hmem, hnone, hp⟩
  · rintro ⟨k, vals, hmem, hnone, hp⟩
    exact ⟨(k, vals), ⟨hmem, hnone⟩, hp⟩

theorem default_entry_mem_groupsOf (bt : BindingTypes) (elementTemplate : ElementTemplate)
    (grouped : Grouped) (i : Nat) (p : PropertyDescriptor) (e : Entry)
    (hp : (defaultPropsOf elementTemplate grouped)[i]? = some p)
    (he : createCustomEntry bt (entryId elementTemplate.id i) p = some e) :
    ∃ G ∈ groupsOf bt elementTemplate grouped,
      G.id = DEFAULT_CUSTOM_GROUP_id ∧ G.label = some DEFAULT_CUSTOM_GROUP_label
        ∧ e ∈ G.entries := by
  have hmem : e ∈ (defaultGroup bt elementTemplate
      (defaultPropsOf elementTemplate grouped)).entries :=
    (mem_customEntries bt elementTemplate.id e _ 0).2 ⟨i, p, hp, by simpa using he⟩
  have hlen : (defaultGroup bt elementTemplate
      (defaultPropsOf elementTemplate grouped)).entries.length ≠ 0 := by
    intro h0
    rw [List.length_eq_zero.1 h0] at hmem
    simp at hmem
  refine ⟨defaultGroup bt elementTemplate (defaultPropsOf elementTemplate grouped), ?_,
    rfl, rfl, hmem⟩
  simp only [groupsOf, List.mem_append]
  right
  rw [if_pos hlen]
  exact List.mem_singleton_self _

theorem declared_entry_mem_groupsOf (bt : BindingTypes) (elementTemplate : ElementTemplate)
    (grouped : Grouped) (g : String) (props : List PropertyDescriptor) (d : GroupDescriptor)
    (i : Nat) (p : PropertyDescriptor) (e : Entry)
    (hg : (g, props) ∈ grouped) (hd : findCustomGroup elementTemplate.groups g = some d)
    (hp : props[i]? = some p)
    (he : createCustomEntry bt (entryId (elementTemplate.id ++ "-" ++ g) i) p = some e) :
    ∃ G ∈ groupsOf bt elementTemplate grouped,
      G.id = "ElementTemplates__CustomProperties-" ++ g ∧ G.label = d.label
        ∧ e ∈ G.entries := by
  have hmem : e ∈ (declaredGroup bt elementTemplate g props d).entries :=
    (mem_customEntries bt (elementTemplate.id ++ "-" ++ g) e _ 0).2
      ⟨i, p, hp, by simpa using he⟩
  have hlen : (declaredGroup bt elementTemplate g props d).entries.length ≠ 0 := by
    intro h0
    rw [List.length_eq_zero.1 h0] at hmem
    simp at hmem
  refine ⟨declaredGroup bt elementTemplate g props d, ?_, rfl, rfl, hmem⟩
  simp only [groupsOf, List.mem_append, List.mem_filterMap]
  left
  refine ⟨(g, props), (mem_ownKeysOrder grouped _).2 hg, ?_⟩
  simp only [renderedGroup?, hd]
  rw [if_pos hlen]

theorem entry_origin_groupsOf (bt : BindingTypes) (elementTemplate : ElementTemplate)
    (grouped : Grouped) (G : Group) (hG : G ∈ groupsOf bt elementTemplate grouped)
    (e : Entry) (he : e ∈ G.entries) :
    (G.id = DEFAULT_CUSTOM_GROUP_id
      ∧ ∃ i, (defaultPropsOf elementTemplate grouped)[i]? = some e.property
        ∧ e.id = entryId elementTemplate.id i)
    ∨ (∃ g props d i, (g, props) ∈ grouped
        ∧ findCustomGroup elementTemplate.groups g = some d
        ∧ G.id = "ElementTemplates__CustomProperties-" ++ g
        ∧ props[i]? = some e.property
        ∧ e.id = entryId (elementTemplate.id ++ "-" ++ g) i) := by
  simp only [groupsOf, List.mem_append, List.mem_filterMap] at hG
  rcases hG with ⟨⟨g, props⟩, hkv, hr⟩ | hdef
  · right
    simp only [renderedGroup?] at hr
    cases hd : findCustomGroup elementTemplate.groups g with
    | none => rw [hd] at hr; cases hr
    | some d =>
      rw [hd] at hr
      simp only at hr
      split_ifs at hr
      cases hr
      obtain ⟨i, p, hp, hc⟩ := (mem_customEntries bt _ e _ 0).1 he
      obtain ⟨hid, hprop⟩ := createCustomEntry_eq_some hc
      simp only [Nat.zero_add] at hid
      exact ⟨g, props, d, i, (mem_ownKeysOrder grouped _).1 hkv, hd, rfl,
        by rw [hprop]; exact hp, hid⟩
  · left
    split_ifs at hdef
    · rw [List.mem_singleton] at hdef
      subst hdef
      obtain ⟨i, p, hp, hc⟩ := (mem_customEntries bt _ e _ 0).1 he
      obtain ⟨hid, hprop⟩ := createCustomEntry_eq_some hc
      simp only [Nat.zero_add] at hid
      exact ⟨rfl, i, by rw [hprop]; exact hp, hid⟩
    · simp at hdef

theorem entry_property_mem (bt : BindingTypes) (elementTemplate : ElementTemplate)
    (grouped : Grouped) (hgrouped : groupByGroupId elementTemplate.properties = some grouped)
    (G : Group) (hG : G ∈ groupsOf bt elementTemplate grouped) (e : Entry) (he : e ∈ G.entries) :
    e.property ∈ elementTemplate.properties := by
  have hsound := groupByLoop_sound elementTemplate.properties [] grouped hgrouped
  rcases entry_origin_groupsOf bt elementTemplate grouped G hG e he with
    ⟨_, i, hi, _⟩ | ⟨g, props, d, i, hg, _, _, hi, _⟩
  · obtain ⟨k, vals, hk, _, hp⟩ :=
      (mem_defaultPropsOf elementTemplate grouped e.property).1 (List.mem_iff_getElem?.2 ⟨i, hi⟩)
    rcases hsound k vals hk e.property hp with ⟨hmem, _⟩ | ⟨_, h0, _⟩
    · exact hmem
    · simp at h0
  · rcases hsound g props hg e.property (List.mem_iff_getElem?.2 ⟨i, hi⟩) with
      ⟨hmem, _⟩ | ⟨_, h0, _⟩
    · exact hmem
    · simp at h0

theorem createCustomEntry_exists_of_exists (bt : BindingTypes) (property : PropertyDescriptor)
    (h : ∃ id e, createCustomEntry bt id property = some e) (id' : String) :
    ∃ e', createCustomEntry bt id' property = some e' := by
  obtain ⟨id, e, he⟩ := h
  have hsome : (createCustomEntry bt id' property).isSome = true := by
    rw [createCustomEntry_isSome_congr bt id' id, he]
    rfl
  exact Option.isSome_iff_exists.1 hsome

theorem groupKey_of_unset {property : PropertyDescriptor} (h : property.group = none) :
    groupKey property = "_" := by
  simp [groupKey, h]

theorem groupKey_of_named {property : PropertyDescriptor} {g : String}
    (h : property.group = some g) (hg : g ≠ "") : groupKey property = g := by
  simp [groupKey, h, hg]

theorem findCustomGroup_eq_none_of_undeclared (groups : List GroupDescriptor) (id : String)
    (h : ∀ d ∈ groups, d.id ≠ id) : findCustomGroup groups id = none := by
  refine (arrayFind_eq_none_iff _ _).2 ?_
  intro d hd
  simpa using h d hd

/-- The keys of `groupBy` collide with group ids: a property in no group is filed under `_`
and lands in a declared group with the id `_`; a property whose group is the empty
string is filed under `_` as well and misses the declared group with the empty id; and
a group named like a member of `Object.prototype` makes `groupBy` throw. -/
theorem groupBy_key_collisions :
    (CustomProperties bindingTypes (taskNamed "") underscoreTemplate).map
        (fun gs => gs.map (fun g => (g.id, g.label)))
      = some [ ("ElementTemplates__CustomProperties-_", some "Underscore") ]
    ∧ (CustomProperties bindingTypes (taskNamed "") emptyGroupIdTemplate).map
        (fun gs => gs.map (fun g => (g.id, g.label)))
      = some [ ("ElementTemplates__CustomProperties", some "Custom properties") ]
    ∧ CustomProperties bindingTypes (taskNamed "") constructorGroupTemplate = none := by
  decide

/-- `CustomProperties` itself does not look at conditions: handed the unfiltered condition
template it builds an entry for each of the seven properties, whatever the task's name. -/
theorem CustomProperties_ignores_conditions :
    (CustomProperties bindingTypes (taskNamed "") conditionTemplate).map entryCount = some 7 := by
  decide

/-! ## The custom-properties projection -/

/-- C1, counterexample: the only property of the template is in no group and is hidden; it
yields no entry, so `CustomProperties` returns no group at all and the property is in
no default group. -/
theorem hidden_property_in_no_group :
    hiddenOnlyTemplate.properties.map (fun p => (p.group, p.type)) = [ (none, some "Hidden") ]
    ∧ CustomProperties bindingTypes (taskNamed "") hiddenOnlyTemplate = some [] := by
  decide

/-- C1, amended: for every template whose group keys are no member names of
`Object.prototype`, `CustomProperties` returns groups, and every property that yields an
entry is placed as follows. If its `group` is unset and no declared group has the id `_`,
or its `group` is a non-empty name that no declared group has as id, an entry for it
is in the group with id `ElementTemplates__CustomProperties` and label
`Custom properties`. If its `group` is a non-empty name `g` and `d` is the first
declared group with id `g`, an entry for it is in the group with id
`ElementTemplates__CustomProperties-g` carrying the label of `d`. -/
theorem CustomProperties_places_rendered_properties (bt : BindingTypes) (element : Element)
    (elementTemplate : ElementTemplate)
    (hkeys : ∀ p ∈ elementTemplate.properties, groupKey p ∉ OBJECT_PROTOTYPE_KEYS) :
    ∃ groups, CustomProperties bt element elementTemplate = some groups
      ∧ ∀ p ∈ elementTemplate.properties, (∃ id e, createCustomEntry bt id p = some e) →
        (((p.group = none ∧ ∀ d ∈ elementTemplate.groups, d.id ≠ "_")
            ∨ ∃ g, p.group = some g ∧ g ≠ "" ∧ ∀ d ∈ elementTemplate.groups, d.id ≠ g) →
          ∃ G ∈ groups, G.id = "ElementTemplates__CustomProperties"
            ∧ G.label = some "Custom properties"
            ∧ ∃ e ∈ G.entries, e.property = p)
        ∧ (∀ g d, p.group = some g → g ≠ "" →
            findCustomGroup elementTemplate.groups g = some d →
          ∃ G ∈ groups, G.id = "ElementTemplates__CustomProperties-" ++ g
            ∧ G.label = d.label
            ∧ ∃ e ∈ G.entries, e.property = p) := by
  obtain ⟨groups, hgroups⟩ := CustomProperties_total bt element elementTemplate hkeys
  obtain ⟨grouped, hg, rfl⟩ := CustomProperties_eq_groupsOf hgroups
  refine ⟨_, hgroups, ?_⟩
  intro p hp hyields
  obtain ⟨vals, hkv, hpv⟩ := (groupByLoop_complete _ [] grouped hg).1 p hp
  constructor
  · intro hcase
    have hnone : findCustomGroup elementTemplate.groups (groupKey p) = none := by
      rcases hcase with ⟨hunset, hundeclared⟩ | ⟨g, hnamed, hne, hundeclared⟩
      · rw [groupKey_of_unset hunset]
        exact findCustomGroup_eq_none_of_undeclared _ _ hundeclared
      · rw [groupKey_of_named hnamed hne]
        exact findCustomGroup_eq_none_of_undeclared _ _ hundeclared
    have hmem : p ∈ defaultPropsOf elementTemplate grouped :=
      (mem_defaultPropsOf elementTemplate grouped p).2 ⟨_, vals, hkv, hnone, hpv⟩
    obtain ⟨i, hi⟩ := List.mem_iff_getElem?.1 hmem
    obtain ⟨e, he⟩ := createCustomEntry_exists_of_exists bt p hyields
      (entryId elementTemplate.id i)
    obtain ⟨G, hG, hid, hlabel, heG⟩ :=
      default_entry_mem_groupsOf bt elementTemplate grouped i p e hi he
    exact ⟨G, hG, hid, hlabel, e, heG, (createCustomEntry_eq_some he).2⟩
  · intro g d hnamed hne hd
    rw [groupKey_of_named hnamed hne] at hkv
    obtain ⟨i, hi⟩ := List.mem_iff_getElem?.1 hpv
    obtain ⟨e, he⟩ := createCustomEntry_exists_of_exists bt p hyields
      (entryId (elementTemplate.id ++ "-" ++ g) i)
    obtain ⟨G, hG, hid, hlabel, heG⟩ :=
      declared_entry_mem_groupsOf bt elementTemplate grouped g vals d i p e hkv hd hi he
    exact ⟨G, hG, hid, hlabel, e, heG, (createCustomEntry_eq_some he).2⟩

/-- C1, witness: the template with the declared group `headers`, one property in it, one in
the unknown group `payload` and one in no group. -/
theorem CustomProperties_places_rendered_properties_witness :
    (∀ p ∈ groupedTemplate.properties, groupKey p ∉ OBJECT_PROTOTYPE_KEYS)
    ∧ ∃ groups, CustomProperties bindingTypes (taskNamed "") groupedTemplate = some groups
      ∧ ∀ p ∈ groupedTemplate.properties,
        (∃ id e, createCustomEntry bindingTypes id p = some e) →
        (((p.group = none ∧ ∀ d ∈ groupedTemplate.groups, d.id ≠ "_")
            ∨ ∃ g, p.group = some g ∧ g ≠ "" ∧ ∀ d ∈ groupedTemplate.groups, d.id ≠ g) →
          ∃ G ∈ groups, G.id = "ElementTemplates__CustomProperties"
            ∧ G.label = some "Custom properties"
            ∧ ∃ e ∈ G.entries, e.property = p)
        ∧ (∀ g d, p.group = some g → g ≠ "" →
            findCustomGroup groupedTemplate.groups g = some d →
          ∃ G ∈ groups, G.id = "ElementTemplates__CustomProperties-" ++ g
            ∧ G.label = d.label
            ∧ ∃ e ∈ G.entries, e.property = p) :=
  ⟨by decide,
   CustomProperties_places_rendered_properties bindingTypes (taskNamed "") groupedTemplate
    (by decide)⟩

/-- C2: for the condition template (the unconditional property `name` and six properties
conditioned on `name = 'foo'`) a task named `''` gets exactly 1 custom-property entry and
a task named `'foo'` exactly 7; and for every template, element and overrides, the
groups the projection returns hold no entry for a property whose condition does not
hold. -/
theorem conditional_projection_only_active :
    (conditionalEntryProjection bindingTypes (resolvePropertyBinding bindingTypes)
        (taskNamed "") conditionTemplate []).map entryCount = some 1
    ∧ (conditionalEntryProjection bindingTypes (resolvePropertyBinding bindingTypes)
        (taskNamed "foo") conditionTemplate []).map entryCount = some 7
    ∧ ∀ (bt : BindingTypes) (resolve : Resolver) (element : Element)
        (elementTemplate : ElementTemplate) (currentOverrides : List (String × JSVal))
        (groups : List Group),
        conditionalEntryProjection bt resolve element elementTemplate currentOverrides
          = some groups →
        ∀ p, isActive resolve element elementTemplate currentOverrides p = false →
          ∀ G ∈ groups, ∀ e ∈ G.entries, e.property ≠ p := by
  refine ⟨by decide, by decide, ?_⟩
  intro bt resolve element elementTemplate currentOverrides groups h p hp G hG e he hprop
  obtain ⟨grouped, hg, rfl⟩ := CustomProperties_eq_groupsOf h
  have hmem := entry_property_mem bt _ grouped hg G hG e he
  simp only [applyConditions, List.mem_filter] at hmem
  rw [hprop, hp] at hmem
  exact absurd hmem.2 (by simp)

/-- C2, witness: on a task named `''` the property `customProperty` of the condition
template is inactive and the projection returns a single group without an entry for
it. -/
theorem conditional_projection_only_active_witness :
    isActive (resolvePropertyBinding bindingTypes) (taskNamed "") conditionTemplate []
        customPropertyDescriptor = false
    ∧ ((conditionalEntryProjection bindingTypes (resolvePropertyBinding bindingTypes)
        (taskNamed "") conditionTemplate []).getD []).length = 1
    ∧ ∀ G ∈ (conditionalEntryProjection bindingTypes (resolvePropertyBinding bindingTypes)
          (taskNamed "") conditionTemplate []).getD [],
        ∀ e ∈ G.entries, e.property ≠ customPropertyDescriptor :=
  ⟨by decide, by decide,
   conditional_projection_only_active.2.2 bindingTypes (resolvePropertyBinding bindingTypes)
    (taskNamed "") conditionTemplate [] _ (by decide) customPropertyDescriptor (by decide)⟩

/-- C3: entry identifiers are built from the template id, the group id and the property
index. When `CustomProperties` returns groups for a template with id `T` whose
properties are grouped as `grouped`: the entry built for the property at position `i`
of the default group's property list has the id `custom-entry-T-i` and is in the
default group; the entry built for the property at position `i` of the list filed
under a declared group `g` has the id `custom-entry-T-g-i` and is in the group of `g`;
and every entry of every returned group is one of these. -/
theorem entry_ids_from_template_group_index (bt : BindingTypes) (element : Element)
    (elementTemplate : ElementTemplate) (grouped : Grouped) (groups : List Group)
    (hgrouped : groupByGroupId elementTemplate.properties = some grouped)
    (h : CustomProperties bt element elementTemplate = some groups) :
    (∀ (i : Nat) p e, (defaultPropsOf elementTemplate grouped)[i]? = some p →
        createCustomEntry bt (entryId elementTemplate.id i) p = some e →
        e.id = "custom-entry-" ++ elementTemplate.id ++ "-" ++ toString i
        ∧ ∃ G ∈ groups, G.id = "ElementTemplates__CustomProperties" ∧ e ∈ G.entries)
    ∧ (∀ g props d (i : Nat) p e, (g, props) ∈ grouped →
        findCustomGroup elementTemplate.groups g = some d →
        props[i]? = some p →
        createCustomEntry bt (entryId (elementTemplate.id ++ "-" ++ g) i) p = some e →
        e.id = "custom-entry-" ++ elementTemplate.id ++ "-" ++ g ++ "-" ++ toString i
        ∧ ∃ G ∈ groups, G.id = "ElementTemplates__CustomProperties-" ++ g ∧ e ∈ G.entries)
    ∧ (∀ G ∈ groups, ∀ e ∈ G.entries,
        (G.id = "ElementTemplates__CustomProperties"
          ∧ ∃ i : Nat, (defaultPropsOf elementTemplate grouped)[i]? = some e.property
            ∧ e.id = "custom-entry-" ++ elementTemplate.id ++ "-" ++ toString i)
        ∨ (∃ g props d, ∃ i : Nat, (g, props) ∈ grouped
            ∧ findCustomGroup elementTemplate.groups g = some d
            ∧ G.id = "ElementTemplates__CustomProperties-" ++ g
            ∧ props[i]? = some e.property
            ∧ e.id = "custom-entry-" ++ elementTemplate.id ++ "-" ++ g ++ "-" ++ toString i)) := by
  obtain ⟨grouped', hg', rfl⟩ := CustomProperties_eq_groupsOf h
  rw [hgrouped] at hg'
  cases hg'
  refine ⟨?_, ?_, ?_⟩
  · intro i p e hp he
    obtain ⟨G, hG, hid, _, heG⟩ :=
      default_entry_mem_groupsOf bt elementTemplate grouped i p e hp he
    exact ⟨(createCustomEntry_eq_some he).1, G, hG, hid, heG⟩
  · intro g props d i p e hg hd hp he
    obtain ⟨G, hG, hid, _, heG⟩ :=
      declared_entry_mem_groupsOf bt elementTemplate grouped g props d i p e hg hd hp he
    refine ⟨?_, G, hG, hid, heG⟩
    rw [(createCustomEntry_eq_some he).1]
    simp only [entryId, String.append_assoc]
  · intro G hG e he
    rcases entry_origin_groupsOf bt elementTemplate grouped G hG e he with
      ⟨hid, i, hi, heid⟩ | ⟨g, props, d, i, hg, hd, hid, hi, heid⟩
    · exact Or.inl ⟨hid, i, hi, heid⟩
    · refine Or.inr ⟨g, props, d, i, hg, hd, hid, hi, ?_⟩
      rw [heid]
      simp only [entryId, String.append_assoc]

/-- C3, witness: in the template `message-correlation-key-rendering` the correlation key is
at index 1 of the default group's property list; its entry has the id
`custom-entry-message-correlation-key-rendering-1` and is in the default group. -/
theorem entry_ids_from_template_group_index_witness :
    correlationKeyEntry.id = "custom-entry-message-correlation-key-rendering-1"
    ∧ ∃ G ∈ (CustomProperties bindingTypes (taskNamed "") messageCorrelationTemplate).getD [],
        G.id = "ElementTemplates__CustomProperties" ∧ correlationKeyEntry ∈ G.entries :=
  ⟨rfl,
   ((entry_ids_from_template_group_index bindingTypes (taskNamed "") messageCorrelationTemplate
      [ ("_", messageCorrelationTemplate.properties) ]
      ((CustomProperties bindingTypes (taskNamed "") messageCorrelationTemplate).getD [])
      (by decide) (by decide)).1 1 correlationKeyProperty correlationKeyEntry
      (by decide) (by decide)).2⟩

/-! ## Task headers, extensions and messages -/

/-- C11: `findTaskHeader` returns the first entry of the `values` list whose `key` equals the
binding's `key`, and `undefined` exactly when no header has that key. -/
theorem findTaskHeader_first_match (taskHeaders : TaskHeaders) (binding : Binding) :
    (∀ header, findTaskHeader taskHeaders binding = some header ↔
      ∃ before after, taskHeaders.values = before ++ header :: after
        ∧ header.key = binding.key
        ∧ ∀ q ∈ before, q.key ≠ binding.key)
    ∧ (findTaskHeader taskHeaders binding = none ↔
      ∀ q ∈ taskHeaders.values, q.key ≠ binding.key) := by
  constructor
  · intro header
    simp [findTaskHeader, arrayFind_eq_some_iff]
  · simp [findTaskHeader, arrayFind_eq_none_iff]

/-- C11, witness: of the two headers with the key `accept` the first is found, and a key no
header has finds nothing. -/
theorem findTaskHeader_first_match_witness :
    findTaskHeader acceptHeaders { type := "zeebe:taskHeader", key := some "accept" }
      = some { key := some "accept", value := some "text/plain" }
    ∧ findTaskHeader acceptHeaders { type := "zeebe:taskHeader", key := some "retries" } = none :=
  ⟨((findTaskHeader_first_match acceptHeaders
      { type := "zeebe:taskHeader", key := some "accept" }).1 _).2
      ⟨[ { key := some "method", value := some "GET" } ],
       [ { key := some "accept", value := some "application/json" } ], rfl, rfl, by decide⟩,
   (findTaskHeader_first_match acceptHeaders
      { type := "zeebe:taskHeader", key := some "retries" }).2.2 (by decide)⟩

theorem extensionContainer_of_property {bo : BusinessObject} {container : ExtensionElements}
    (hnot : is (some bo) "bpmn:ExtensionElements" = false)
    (hcontainer : bo.extensionElements = some container) :
    extensionContainer (some bo) = Completion.returns (some container) := by
  simp [extensionContainer, hnot, getOf, hcontainer]

theorem extensionContainer_of_missing {bo : BusinessObject}
    (hnot : is (some bo) "bpmn:ExtensionElements" = false)
    (hmissing : bo.extensionElements = none) :
    extensionContainer (some bo) = Completion.returns none := by
  simp [extensionContainer, hnot, getOf, hmissing]

theorem arrayFind_eq_filter_head? {α : Type} (p : α → Bool) (l : List α) :
    arrayFind p l = (l.filter p).head? := by
  induction l with
  | nil => rfl
  | cons x xs ih =>
    by_cases hx : p x = true
    · simp [arrayFind, List.filter_cons, hx]
    · simp [arrayFind, List.filter_cons, hx, ih]

theorem arrayFilter_eq_filter {α : Type} (p : α → Bool) (l : List α) :
    arrayFilter p l = l.filter p := by
  induction l with
  | nil => rfl
  | cons x xs ih =>
    by_cases hx : p x = true
    · simp [arrayFilter, List.filter_cons, hx, ih]
    · simp [arrayFilter, List.filter_cons, hx, ih]

theorem findExtension_of_container {element : Element} {bo : BusinessObject}
    {container : ExtensionElements} (type : String)
    (hbo : getBusinessObject (some element) = some bo)
    (hnot : is (some bo) "bpmn:ExtensionElements" = false)
    (hcontainer : bo.extensionElements = some container) :
    findExtension (some element) type
      = Completion.returns (arrayFind (fun value => isValue value type) container.values) := by
  simp only [findExtension, hbo, extensionContainer_of_property hnot hcontainer]

/-- Without an element there is no business object to read `extensionElements` from:
`findExtension` and `findExtensions` raise a `TypeError`. -/
theorem findExtension_undefined_element_throws (type : String) (types : List String) :
    findExtension none type = Completion.throws JSError.TypeError
    ∧ findExtensions none types = Completion.throws JSError.TypeError :=
  ⟨rfl, rfl⟩

/-- C12: for a BPMN element or diagram element that has an extension-elements container,
`findExtension(element, t)` returns the first entry of the container's `values`, in list
order, that is an instance of `t`, and `undefined` exactly when no entry is an instance
of `t`. -/
theorem findExtension_first_instance (element : Element) (bo : BusinessObject)
    (container : ExtensionElements) (type : String)
    (hbo : getBusinessObject (some element) = some bo)
    (hnot : is (some bo) "bpmn:ExtensionElements" = false)
    (hcontainer : bo.extensionElements = some container) :
    findExtension (some element) type
        = Completion.returns (firstInstanceOf container.values type)
    ∧ (∀ value, findExtension (some element) type = Completion.returns (some value) ↔
        ∃ before after, container.values = before ++ value :: after
          ∧ isValue value type = true
          ∧ ∀ q ∈ before, isValue q type = false)
    ∧ (findExtension (some element) type = Completion.returns none ↔
        ∀ q ∈ container.values, isValue q type = false) := by
  rw [findExtension_of_container type hbo hnot hcontainer]
  refine ⟨?_, ?_, ?_⟩
  · rw [arrayFind_eq_filter_head?]
    rfl
  · intro value
    simp only [Completion.returns.injEq, arrayFind_eq_some_iff]
  · simp only [Completion.returns.injEq, arrayFind_eq_none_iff]

/-- C12, witness: the service task carries its task definition second of three extensions;
asked for `zeebe:TaskDefinition` it yields that entry, asked for `zeebe:Subscription`
nothing. -/
theorem findExtension_first_instance_witness :
    findExtension (some taskWithTaskDefinition) "zeebe:TaskDefinition"
      = Completion.returns
          (some { types := [ "zeebe:TaskDefinition" ], attrs := [ ("type", JSVal.str "http") ] })
    ∧ findExtension (some taskWithTaskDefinition) "zeebe:Subscription"
      = Completion.returns none :=
  ⟨(findExtension_first_instance taskWithTaskDefinition _ _ "zeebe:TaskDefinition"
      rfl (by decide) rfl).1,
   (findExtension_first_instance taskWithTaskDefinition _ _ "zeebe:Subscription"
      rfl (by decide) rfl).2.2.2 (by decide)⟩

/-- C13: a missing extension container is treated as absent, never thrown: for an element
whose business object has no `extensionElements` (and is not itself the container)
`findExtension` returns `undefined` for every type, without raising an error. -/
theorem findExtension_missing_container (element : Element) (bo : BusinessObject)
    (type : String)
    (hbo : getBusinessObject (some element) = some bo)
    (hnot : is (some bo) "bpmn:ExtensionElements" = false)
    (hmissing : bo.extensionElements = none) :
    findExtension (some element) type = Completion.returns none := by
  simp only [findExtension, hbo, extensionContainer_of_missing hnot hmissing]

/-- C13, witness: a task without extension elements has no task definition. -/
theorem findExtension_missing_container_witness :
    findExtension (some plainTask) "zeebe:TaskDefinition" = Completion.returns none :=
  findExtension_missing_container plainTask _ "zeebe:TaskDefinition" rfl (by decide) rfl

/-- C14: for a `bpmn:Event` with at least one event definition `findMessage` returns the
`messageRef` of the first event definition, whatever event definitions follow it; for a
business object that is no event it returns that object's own `messageRef`. -/
theorem findMessage_first_event_definition :
    (∀ (bo : BusinessObject) (first : EventDefinition) (rest : List EventDefinition),
        is (some bo) "bpmn:Event" = true → bo.eventDefinitions = some (first :: rest) →
        findMessage (some bo) = Completion.returns first.messageRef
        ∧ ∀ rest' : List EventDefinition,
            findMessage (some { bo with eventDefinitions := some (first :: rest') })
              = findMessage (some bo))
    ∧ (∀ bo : BusinessObject, is (some bo) "bpmn:Event" = false →
        findMessage (some bo) = Completion.returns bo.messageRef) := by
  constructor
  · intro bo first rest hevent hdefs
    have hevent' : ∀ rest' : List EventDefinition,
        is (some { bo with eventDefinitions := some (first :: rest') }) "bpmn:Event" = true :=
      fun _ => hevent
    constructor
    · simp [findMessage, hevent, getOf, hdefs]
    · intro rest'
      simp [findMessage, hevent, hevent' rest', getOf, hdefs]
  · intro bo hevent
    simp [findMessage, hevent]

/-- C14, witness: the message start event yields the message of its first (message) event
definition although a timer event definition follows, and the send task yields the
message it references itself. -/
theorem findMessage_first_event_definition_witness :
    findMessage (some messageStartEvent) = Completion.returns (some subscribedMessage)
    ∧ findMessage (some sendTask) = Completion.returns (some subscribedMessage) :=
  ⟨(findMessage_first_event_definition.1 messageStartEvent
      { types := [ "bpmn:MessageEventDefinition" ], messageRef := some subscribedMessage }
      [ { types := [ "bpmn:TimerEventDefinition" ] } ] (by decide) rfl).1,
   findMessage_first_event_definition.2 sendTask (by decide)⟩

/-- C15: `findMessage` never throws: for an `undefined` (or `null`) business object and for a
`bpmn:Event` whose `eventDefinitions` list is missing or empty it returns `undefined`, and
on every input it returns. -/
theorem findMessage_absent_on_inapplicable_input :
    findMessage none = Completion.returns none
    ∧ (∀ bo : BusinessObject, is (some bo) "bpmn:Event" = true →
        bo.eventDefinitions = none ∨ bo.eventDefinitions = some [] →
        findMessage (some bo) = Completion.returns none)
    ∧ (∀ input : Option BusinessObject, ∃ result, findMessage input = Completion.returns result) := by
  refine ⟨rfl, ?_, ?_⟩
  · intro bo hevent hdefs
    rcases hdefs with hdefs | hdefs <;> simp [findMessage, hevent, getOf, hdefs]
  · intro input
    cases input with
    | none => exact ⟨none, rfl⟩
    | some bo =>
      by_cases hevent : is (some bo) "bpmn:Event" = true
      · cases hdefs : bo.eventDefinitions with
        | none => exact ⟨none, by simp [findMessage, hevent, getOf, hdefs]⟩
        | some defs =>
          cases defs with
          | nil => exact ⟨none, by simp [findMessage, hevent, getOf, hdefs]⟩
          | cons first rest =>
            exact ⟨first.messageRef, by simp [findMessage, hevent, getOf, hdefs]⟩
      · exact ⟨bo.messageRef, by simp [findMessage, hevent]⟩

/-- C15, witness: a start event with an empty list of event definitions has no message. -/
theorem findMessage_absent_on_inapplicable_input_witness :
    findMessage (some blankStartEvent) = Completion.returns none :=
  findMessage_absent_on_inapplicable_input.2.1 blankStartEvent (by decide) (Or.inr rfl)

/-- C16: `findZeebeSubscription(message)` equals `findExtension(message, 'zeebe:Subscription')`,
also for an `undefined` message; for a message it is the first `zeebe:Subscription` entry
among the message's extension elements, or `undefined` when the message has no extension
elements or no such entry. -/
theorem findZeebeSubscription_eq_findExtension (message : Message) :
    findZeebeSubscription (some message)
        = findExtension (some (Element.moddle message.node)) "zeebe:Subscription"
    ∧ findZeebeSubscription none = findExtension none "zeebe:Subscription"
    ∧ findZeebeSubscription (some message)
        = Completion.returns (firstZeebeSubscription message)
    ∧ (message.extensionElements = none →
        findZeebeSubscription (some message) = Completion.returns none)
    ∧ (∀ container, message.extensionElements = some container →
        (∀ q ∈ container.values, isValue q "zeebe:Subscription" = false) →
        findZeebeSubscription (some message) = Completion.returns none) := by
  have hnot : is (some message.node) "bpmn:ExtensionElements" = false := by
    simp [is, Message.node]
  have hsome : ∀ container, message.extensionElements = some container →
      findZeebeSubscription (some message)
        = Completion.returns
            (arrayFind (fun value => isValue value "zeebe:Subscription") container.values) := by
    intro container hcontainer
    exact @findExtension_of_container (Element.moddle message.node) message.node container
      "zeebe:Subscription" rfl hnot hcontainer
  have hnone : message.extensionElements = none →
      findZeebeSubscription (some message) = Completion.returns none := by
    intro hmissing
    exact findExtension_missing_container (Element.moddle message.node) message.node
      "zeebe:Subscription" rfl hnot hmissing
  refine ⟨rfl, rfl, ?_, hnone, ?_⟩
  · cases hcontainer : message.extensionElements with
    | none =>
      rw [hnone hcontainer]
      simp [firstZeebeSubscription, hcontainer]
    | some container =>
      rw [hsome container hcontainer, arrayFind_eq_filter_head?]
      simp [firstZeebeSubscription, hcontainer, firstInstanceOf, isValue]
  · intro container hcontainer hall
    rw [hsome container hcontainer]
    exact congrArg Completion.returns ((arrayFind_eq_none_iff _ _).2 hall)

/-- C16, witness: the message's first subscription is found although a second one follows,
and a message without extension elements has none. -/
theorem findZeebeSubscription_eq_findExtension_witness :
    findZeebeSubscription (some subscribedMessage)
      = Completion.returns
          (some { types := [ "zeebe:Subscription" ],
                  attrs := [ ("correlationKey", JSVal.str "one") ] })
    ∧ findZeebeSubscription (some { attrs := [ ("name", JSVal.str "plain") ] })
      = Completion.returns none :=
  ⟨(findZeebeSubscription_eq_findExtension subscribedMessage).2.2.1,
   (findZeebeSubscription_eq_findExtension { attrs := [ ("name", JSVal.str "plain") ] }).2.2.2.1
     rfl⟩

/-- C17: for an element with an extension-elements container `findExtensions` returns exactly
the entries of the container's `values` that are instances of at least one listed type,
in their original order: the result is a sublist of `values`, holds an entry exactly when
`values` holds it and it is an instance of a listed type, and holds each such entry as
often as `values` does. For a single type the result is as long as the number of
instances of that type among `values`. -/
theorem findExtensions_instances_in_order (element : Element) (bo : BusinessObject)
    (container : ExtensionElements) (types : List String)
    (hbo : getBusinessObject (some element) = some bo)
    (hnot : is (some bo) "bpmn:ExtensionElements" = false)
    (hcontainer : bo.extensionElements = some container) :
    findExtensions (some element) types
        = Completion.returns (some (instancesOfAny container.values types))
    ∧ (instancesOfAny container.values types).Sublist container.values
    ∧ (∀ value, value ∈ instancesOfAny container.values types ↔
        value ∈ container.values ∧ ∃ type ∈ types, isValue value type = true)
    ∧ (∀ value, (∃ type ∈ types, isValue value type = true) →
        (instancesOfAny container.values types).count value = container.values.count value)
    ∧ (∀ type, findExtensions (some element) [ type ]
        = Completion.returns (some (instancesOfAny container.values [ type ]))
        ∧ (instancesOfAny container.values [ type ]).length
            = container.values.countP (fun value => isValue value type)) := by
  have hfind : ∀ ts : List String, findExtensions (some element) ts
      = Completion.returns (some (instancesOfAny container.values ts)) := by
    intro ts
    simp only [findExtensions, hbo, extensionContainer_of_property hnot hcontainer,
      arrayFilter_eq_filter]
    rfl
  refine ⟨hfind types, List.filter_sublist _, ?_, ?_, ?_⟩
  · intro value
    simp only [instancesOfAny, List.mem_filter, List.any_eq_true, isValue]
  · rintro value ⟨type, htype, hinst⟩
    refine List.count_filter ?_
    exact List.any_eq_true.2 ⟨type, htype, hinst⟩
  · intro type
    refine ⟨hfind [ type ], ?_⟩
    rw [List.countP_eq_length_filter]
    simp [instancesOfAny, isValue]

/-- C17, witness: the service task carries one `zeebe:TaskDefinition` among three extensions;
the list for `[ 'zeebe:TaskDefinition' ]` has length 1. -/
theorem findExtensions_instances_in_order_witness :
    findExtensions (some taskWithTaskDefinition) [ "zeebe:TaskDefinition" ]
      = Completion.returns
          (some [ { types := [ "zeebe:TaskDefinition" ], attrs := [ ("type", JSVal.str "http") ] } ])
    ∧ (instancesOfAny
        [ { types := [ "zeebe:IoMapping" ] },
          { types := [ "zeebe:TaskDefinition" ], attrs := [ ("type", JSVal.str "http") ] },
          { types := [ "zeebe:TaskHeaders" ] } ] [ "zeebe:TaskDefinition" ]).length = 1 :=
  ⟨(findExtensions_instances_in_order taskWithTaskDefinition _ _ [ "zeebe:TaskDefinition" ]
      rfl (by decide) rfl).1,
   ((findExtensions_instances_in_order taskWithTaskDefinition _ _ [ "zeebe:TaskDefinition" ]
      rfl (by decide) rfl).2.2.2.2 "zeebe:TaskDefinition").2.trans (by decide)⟩

/-! ## Lemmas on arrays and the panel heap -/

theorem findIndex_eq_none_iff {α : Type} (p : α → Bool) (l : List α) :
    findIndex p l = none ↔ ∀ x ∈ l, p x = false := by
  induction l with
  | nil => simp [findIndex]
  | cons x xs ih =>
    by_cases hx : p x = true
    · simp [findIndex, hx]
    · simp [findIndex, hx, ih]

theorem findIndex_of_first {α : Type} (p : α → Bool) (before : List α) (x : α) (after : List α)
    (hx : p x = true) (hbefore : ∀ y ∈ before, p y = false) :
    findIndex p (before ++ x :: after) = some before.length := by
  induction before with
  | nil => simp [findIndex, hx]
  | cons b bs ih =>
    have hb : p b = false := hbefore b (List.mem_cons_self _ _)
    have hbs := ih (fun y hy => hbefore y (List.mem_cons_of_mem _ hy))
    simp [findIndex, hb, hbs]

theorem splice_insert {α : Type} (before rest items : List α) :
    splice (before ++ rest) before.length 0 items = before ++ items ++ rest := by
  simp [splice]

theorem PanelHeap.readArray_writeArray_same {Item : Type} (heap : PanelHeap Item) (array : Nat)
    (contents : List Nat) (hvalid : array < heap.arrays.length) :
    (heap.writeArray array contents).readArray array = contents := by
  simp [PanelHeap.readArray, PanelHeap.writeArray, List.getElem?_set, hvalid]

theorem PanelHeap.readArray_writeArray_ne {Item : Type} (heap : PanelHeap Item) (array other : Nat)
    (contents : List Nat) (hne : array ≠ other) :
    (heap.writeArray array contents).readArray other = heap.readArray other := by
  simp [PanelHeap.readArray, PanelHeap.writeArray, List.getElem?_set, hne]

theorem PanelHeap.readArray_allocArray {Item : Type} (heap : PanelHeap Item) (contents : List Nat)
    (array : Nat) (hvalid : array < heap.arrays.length) :
    (heap.allocArray contents).2.readArray array = heap.readArray array := by
  simp [PanelHeap.readArray, PanelHeap.allocArray, List.getElem?_append_left hvalid]

theorem addGroupsAfter_objects {Item : Type} (id : String) (groups : Nat) (groupsToAdd : List Nat)
    (heap : PanelHeap Item) :
    (addGroupsAfter id groups groupsToAdd heap).objects = heap.objects := by
  unfold addGroupsAfter
  cases findIndex (heap.hasId id) (heap.readArray groups) <;> rfl

theorem addGroupsAfter_readArray_ne {Item : Type} (id : String) (groups other : Nat)
    (groupsToAdd : List Nat) (heap : PanelHeap Item) (hne : groups ≠ other) :
    (addGroupsAfter id groups groupsToAdd heap).readArray other = heap.readArray other := by
  unfold addGroupsAfter
  cases findIndex (heap.hasId id) (heap.readArray groups) <;>
    exact PanelHeap.readArray_writeArray_ne heap groups other _ hne

theorem updateInputGroup_arrays {Item : Type} (services : ProviderServices Item) (groups : Nat)
    (element : Element) (elementTemplate : ElementTemplate) (heap : PanelHeap Item) :
    (updateInputGroup services groups element elementTemplate heap).arrays = heap.arrays := by
  unfold updateInputGroup
  split
  · rfl
  · split <;> rfl

/-- What `addGroupsAfter` does when the array holds a group with the id: the groups to add
are placed, in their given order, immediately before the first such group, and the
groups that were there keep their order. -/
theorem addGroupsAfter_found {Item : Type} (id : String) (groups : Nat) (groupsToAdd : List Nat)
    (heap : PanelHeap Item) (before : List Nat) (found : Nat) (after : List Nat)
    (hvalid : groups < heap.arrays.length)
    (hcontents : heap.readArray groups = before ++ found :: after)
    (hfound : heap.hasId id found = true)
    (hbefore : ∀ ref ∈ before, heap.hasId id ref = false) :
    (addGroupsAfter id groups groupsToAdd heap).readArray groups
      = before ++ groupsToAdd ++ found :: after := by
  unfold addGroupsAfter
  rw [hcontents, findIndex_of_first _ before found after hfound hbefore]
  simp only
  rw [PanelHeap.readArray_writeArray_same heap groups _ hvalid, splice_insert]

/-! ## The properties provider (`addGroupsAfter`, `getGroups`) -/

/-- C18, the code at a failing input: asked to add the template group after `documentation`
in `general, documentation, CamundaPlatform__Input`, `addGroupsAfter` places it before
`documentation`; and `getGroups` puts the template group directly before `documentation`
and the custom-properties group directly before `template`. -/
theorem addGroupsAfter_places_before_found_group :
    (addGroupsAfter "documentation" 0 [ 3 ] panelHeapWithTemplateGroup).groupIds 0
      = [ "general", "template", "documentation", "CamundaPlatform__Input" ]
    ∧ (getGroups (panelServices none) (taskNamed "") 0 panelHeap).2.groupIds
        (getGroups (panelServices none) (taskNamed "") 0 panelHeap).1
      = [ "general", "template", "documentation", "CamundaPlatform__Input" ]
    ∧ (getGroups (panelServices (some inputTemplate)) (taskNamed "") 0 panelHeap).2.groupIds
        (getGroups (panelServices (some inputTemplate)) (taskNamed "") 0 panelHeap).1
      = [ "general", "ElementTemplates__CustomProperties", "template", "documentation",
          "CamundaPlatform__Input" ] := by
  decide

/-- C19: when the array holds no group with the given id, `addGroupsAfter` adds the groups at
the beginning: afterwards the array holds the groups to add, in their given order,
followed by the groups it held, in their order; no group object is changed. -/
theorem addGroupsAfter_missing_id {Item : Type} (id : String) (groups : Nat)
    (groupsToAdd : List Nat) (heap : PanelHeap Item)
    (hvalid : groups < heap.arrays.length)
    (hmissing : ∀ ref ∈ heap.readArray groups, heap.hasId id ref = false) :
    (addGroupsAfter id groups groupsToAdd heap).readArray groups
        = groupsToAdd ++ heap.readArray groups
    ∧ (addGroupsAfter id groups groupsToAdd heap).objects = heap.objects := by
  refine ⟨?_, addGroupsAfter_objects id groups groupsToAdd heap⟩
  unfold addGroupsAfter
  rw [(findIndex_eq_none_iff _ _).2 hmissing]
  simp only
  rw [PanelHeap.readArray_writeArray_same heap groups _ hvalid]
  rfl

/-- C19, witness: no group of the panel has the id `template`; two groups added after it
come first, in their order. -/
theorem addGroupsAfter_missing_id_witness :
    (addGroupsAfter "template" 0 [ 3, 1 ] panelHeapWithTemplateGroup).readArray 0
      = [ 3, 1, 0, 1, 2 ] :=
  (addGroupsAfter_missing_id "template" 0 [ 3, 1 ] panelHeapWithTemplateGroup
    (by decide) (by decide)).1

theorem updateInputGroup_readArray {Item : Type} (services : ProviderServices Item)
    (groups : Nat) (element : Element) (elementTemplate : ElementTemplate)
    (heap : PanelHeap Item) (array : Nat) :
    (updateInputGroup services groups element elementTemplate heap).readArray array
      = heap.readArray array := by
  simp only [PanelHeap.readArray, updateInputGroup_arrays]

theorem PanelHeap.readArray_allocGroups {Item : Type} (heap : PanelHeap Item)
    (newGroups : List (PanelGroup Item)) (array : Nat) :
    (heap.allocGroups newGroups).2.readArray array = heap.readArray array :=
  rfl

/-- C20: the function returned by `getGroups(element)` works on a copy: it returns another
array than the one provided, and after the call the provided array holds the same group
references in the same order as before, whether or not a template is applied. -/
theorem getGroups_leaves_provided_array {Item : Type} (services : ProviderServices Item)
    (element : Element) (groups : Nat) (heap : PanelHeap Item)
    (hvalid : groups < heap.arrays.length) :
    (getGroups services element groups heap).2.readArray groups = heap.readArray groups
    ∧ ((getGroups services element groups heap).2.readArray groups).length
        = (heap.readArray groups).length
    ∧ (getGroups services element groups heap).1 ≠ groups := by
  have hne : (heap.allocArray (heap.readArray groups)).1 ≠ groups := Nat.ne_of_gt hvalid
  have hcopy : (heap.allocArray (heap.readArray groups)).2.readArray groups
      = heap.readArray groups :=
    PanelHeap.readArray_allocArray heap _ groups hvalid
  have hread : (getGroups services element groups heap).2.readArray groups
      = heap.readArray groups := by
    unfold getGroups
    cases services.getTemplate element with
    | none =>
      exact (addGroupsAfter_readArray_ne _ _ _ _ _ hne).trans
        ((PanelHeap.readArray_allocGroups _ _ _).trans hcopy)
    | some elementTemplate =>
      exact (updateInputGroup_readArray _ _ _ _ _ _).trans
        ((addGroupsAfter_readArray_ne _ _ _ _ _ hne).trans
          ((PanelHeap.readArray_allocGroups _ _ _).trans
            ((addGroupsAfter_readArray_ne _ _ _ _ _ hne).trans
              ((PanelHeap.readArray_allocGroups _ _ _).trans hcopy))))
  refine ⟨hread, by rw [hread], ?_⟩
  unfold getGroups
  cases services.getTemplate element <;> exact hne

/-- C20, witness: with and without an applied template the provided array `0` still holds
`general`, `documentation` and the input group, in this order. -/
theorem getGroups_leaves_provided_array_witness :
    (getGroups (panelServices (some inputTemplate)) (taskNamed "") 0 panelHeap).2.readArray 0
      = [ 0, 1, 2 ]
    ∧ (getGroups (panelServices none) (taskNamed "") 0 panelHeap).2.readArray 0 = [ 0, 1, 2 ] :=
  ⟨(getGroups_leaves_provided_array (panelServices (some inputTemplate)) (taskNamed "") 0
      panelHeap (by decide)).1,
   (getGroups_leaves_provided_array (panelServices none) (taskNamed "") 0
      panelHeap (by decide)).1⟩

/-! ## Which properties are rendered (`createCustomEntry`, `getDefaultType`) -/

theorem getDefaultType_eq_some_iff (bt : BindingTypes) (property : PropertyDescriptor) :
    getDefaultType bt property = some "String" ↔
      property.binding.type ∈
        [ bt.PROPERTY_TYPE, bt.ZEEBE_TASK_DEFINITION_TYPE_TYPE, bt.ZEEBE_TASK_DEFINITION,
          bt.ZEBBE_INPUT_TYPE, bt.ZEEBE_OUTPUT_TYPE, bt.ZEEBE_PROPERTY_TYPE,
          bt.ZEEBE_TASK_HEADER_TYPE ] := by
  simp only [getDefaultType]
  split_ifs with h
  · exact ⟨fun _ => List.elem_iff.1 h, fun _ => rfl⟩
  · exact ⟨fun h0 => absurd h0 (by simp), fun hm => absurd (List.elem_iff.2 hm) h⟩

theorem getDefaultType_eq_none_iff (bt : BindingTypes) (property : PropertyDescriptor) :
    getDefaultType bt property = none ↔
      property.binding.type ∉
        [ bt.PROPERTY_TYPE, bt.ZEEBE_TASK_DEFINITION_TYPE_TYPE, bt.ZEEBE_TASK_DEFINITION,
          bt.ZEBBE_INPUT_TYPE, bt.ZEEBE_OUTPUT_TYPE, bt.ZEEBE_PROPERTY_TYPE,
          bt.ZEEBE_TASK_HEADER_TYPE ] := by
  simp only [getDefaultType]
  split_ifs with h
  · exact ⟨fun h0 => absurd h0 (by simp), fun hm => absurd (List.elem_iff.1 h) hm⟩
  · exact ⟨fun _ hm => h (List.elem_iff.2 hm), fun _ => rfl⟩

theorem createCustomEntry_isSome_iff (bt : BindingTypes) (id : String)
    (property : PropertyDescriptor) :
    (createCustomEntry bt id property).isSome = true ↔
      effectiveType bt property ∈
        [ some "Boolean", some "Dropdown", some "String", some "Text" ] := by
  simp only [createCustomEntry]
  split_ifs with h1 h2 h3 h4 h5 h6 <;> simp_all

/-- C28: `createCustomEntry` yields an entry if and only if the property's effective type is one
of `Boolean`, `Dropdown`, `String`, `Text`. The effective type is the declared `type`; when
none is declared (the `type` is `undefined` or empty) it is `String` exactly for the
binding types `PROPERTY_TYPE`, `ZEEBE_TASK_DEFINITION_TYPE_TYPE`, `ZEEBE_TASK_DEFINITION`,
`ZEBBE_INPUT_TYPE`, `ZEEBE_OUTPUT_TYPE`, `ZEEBE_PROPERTY_TYPE` and `ZEEBE_TASK_HEADER_TYPE`
and `undefined` for every other binding type. A `Hidden` property, and an untyped
property with another binding type, yields no entry. -/
theorem createCustomEntry_iff_effective_type (bt : BindingTypes) (id : String)
    (property : PropertyDescriptor) :
    ((∃ entry, createCustomEntry bt id property = some entry) ↔
        effectiveType bt property ∈
          [ some "Boolean", some "Dropdown", some "String", some "Text" ])
    ∧ (strTruthy property.type = true → effectiveType bt property = property.type)
    ∧ (strTruthy property.type = false →
        (effectiveType bt property = some "String" ↔
          property.binding.type ∈
            [ bt.PROPERTY_TYPE, bt.ZEEBE_TASK_DEFINITION_TYPE_TYPE, bt.ZEEBE_TASK_DEFINITION,
              bt.ZEBBE_INPUT_TYPE, bt.ZEEBE_OUTPUT_TYPE, bt.ZEEBE_PROPERTY_TYPE,
              bt.ZEEBE_TASK_HEADER_TYPE ])
        ∧ (effectiveType bt property = none ↔
          property.binding.type ∉
            [ bt.PROPERTY_TYPE, bt.ZEEBE_TASK_DEFINITION_TYPE_TYPE, bt.ZEEBE_TASK_DEFINITION,
              bt.ZEBBE_INPUT_TYPE, bt.ZEEBE_OUTPUT_TYPE, bt.ZEEBE_PROPERTY_TYPE,
              bt.ZEEBE_TASK_HEADER_TYPE ]))
    ∧ (property.type = some "Hidden" → createCustomEntry bt id property = none)
    ∧ (strTruthy property.type = false →
        property.binding.type ∉
          [ bt.PROPERTY_TYPE, bt.ZEEBE_TASK_DEFINITION_TYPE_TYPE, bt.ZEEBE_TASK_DEFINITION,
            bt.ZEBBE_INPUT_TYPE, bt.ZEEBE_OUTPUT_TYPE, bt.ZEEBE_PROPERTY_TYPE,
            bt.ZEEBE_TASK_HEADER_TYPE ] →
        createCustomEntry bt id property = none) := by
  have hnone : effectiveType bt property ∉
      [ some "Boolean", some "Dropdown", some "String", some "Text" ] →
      createCustomEntry bt id property = none := by
    intro h
    have := (createCustomEntry_isSome_iff bt id property).not.2 h
    simpa using this
  refine ⟨?_, ?_, ?_, ?_, ?_⟩
  · rw [← Option.isSome_iff_exists]
    exact createCustomEntry_isSome_iff bt id property
  · intro h
    simp [effectiveType, h]
  · intro h
    have heff : effectiveType bt property = getDefaultType bt property := by
      simp [effectiveType, h]
    rw [heff]
    exact ⟨getDefaultType_eq_some_iff bt property, getDefaultType_eq_none_iff bt property⟩
  · intro h
    apply hnone
    have heff : effectiveType bt property = some "Hidden" := by
      simp [effectiveType, h, strTruthy]
    rw [heff]
    decide
  · intro h hbinding
    apply hnone
    have heff : effectiveType bt property = none := by
      simp only [effectiveType, h]
      exact (getDefaultType_eq_none_iff bt property).2 hbinding
    rw [heff]
    decide

/-- C28, witness: under the binding types of the specification an untyped `zeebe:input`
property is rendered (as a `String`), an untyped message property and a `Hidden`
property are not. -/
theorem createCustomEntry_iff_effective_type_witness :
    (∃ entry, createCustomEntry bindingTypes "id"
        { binding := { type := "zeebe:input", name := some "url" } } = some entry)
    ∧ createCustomEntry bindingTypes "id"
        { binding := { type := "bpmn:Message#property", name := some "name" } } = none
    ∧ createCustomEntry bindingTypes "id"
        { type := some "Hidden", binding := { type := "zeebe:input", name := some "url" } }
        = none :=
  ⟨(createCustomEntry_iff_effective_type bindingTypes "id"
      { binding := { type := "zeebe:input", name := some "url" } }).1.2 (by decide),
   (createCustomEntry_iff_effective_type bindingTypes "id"
      { binding := { type := "bpmn:Message#property", name := some "name" } }).2.2.2.2
      (by decide) (by decide),
   (createCustomEntry_iff_effective_type bindingTypes "id"
      { type := some "Hidden", binding := { type := "zeebe:input", name := some "url" } }).2.2.2.1
      rfl⟩

/-! ## The input group (`updateInputGroup`) -/

theorem inputItems_eq_filterMap {Item : Type} (services : ProviderServices Item)
    (element : Element) :
    ∀ (properties : List PropertyDescriptor) (start : Nat),
      inputItems services element properties start
        = (properties.enumFrom start).filterMap
            (fun ip => services.inputProperties element ip.1 ip.2) := by
  intro properties
  induction properties with
  | nil => intro start; rfl
  | cons p rest ih =>
    intro start
    simp only [inputItems, List.enumFrom_cons, List.filterMap_cons]
    cases services.inputProperties element start p with
    | none => exact ih (start + 1)
    | some item => simp only [ih (start + 1)]

theorem PanelHeap.deref_updateGroup {Item : Type} (heap : PanelHeap Item) (ref other : Nat)
    (group : PanelGroup Item) :
    (heap.updateGroup ref group).deref other
      = if ref = other then (if ref < heap.objects.length then some group else none)
        else heap.deref other := by
  simp only [PanelHeap.deref, PanelHeap.updateGroup, List.getElem?_set]

theorem findGroup_eq_some {Item : Type} {groups : Nat} {id : String} {heap : PanelHeap Item}
    {ref : Nat} (h : findGroup groups id heap = some ref) :
    (∃ group, heap.deref ref = some group ∧ group.id = id)
    ∧ ∃ before after, heap.readArray groups = before ++ ref :: after
        ∧ ∀ r ∈ before, heap.hasId id r = false := by
  obtain ⟨before, after, hcontents, hid, hbefore⟩ := (arrayFind_eq_some_iff _ _ _).1 h
  refine ⟨?_, before, after, hcontents, hbefore⟩
  unfold PanelHeap.hasId at hid
  cases hd : heap.deref ref with
  | none => rw [hd] at hid; cases hid
  | some group =>
    rw [hd] at hid
    exact ⟨group, rfl, by simpa using hid⟩

/-- C30: when the array holds a group with the id `CamundaPlatform__Input`, `updateInputGroup`
changes the first such group only: it removes its `add` handler and sets its `items` to
the items built, in declaration order, for the template properties that declare no
`type` and whose binding type is `camunda:inputParameter`, each built with its position
in that filtered list as index; every other group and every array is as before. When
the array holds no such group, nothing is changed. -/
theorem updateInputGroup_replaces_items {Item : Type} (services : ProviderServices Item)
    (groups : Nat) (element : Element) (elementTemplate : ElementTemplate)
    (heap : PanelHeap Item) :
    (∀ inputGroup, findGroup groups "CamundaPlatform__Input" heap = some inputGroup →
      ∃ group, heap.deref inputGroup = some group
        ∧ group.id = "CamundaPlatform__Input"
        ∧ (updateInputGroup services groups element elementTemplate heap).deref inputGroup
            = some { group with
                add := none
                items := some (((elementTemplate.properties.filter
                    (fun property => !strTruthy property.type
                      && decide (property.binding.type = "camunda:inputParameter"))).enumFrom
                    0).filterMap
                  (fun ip => services.inputProperties element ip.1 ip.2)) }
        ∧ (∀ other, other ≠ inputGroup →
            (updateInputGroup services groups element elementTemplate heap).deref other
              = heap.deref other)
        ∧ (updateInputGroup services groups element elementTemplate heap).arrays = heap.arrays)
    ∧ (findGroup groups "CamundaPlatform__Input" heap = none →
        updateInputGroup services groups element elementTemplate heap = heap) := by
  constructor
  · intro inputGroup hfind
    obtain ⟨⟨group, hderef, hid⟩, _⟩ := findGroup_eq_some hfind
    have hlt : inputGroup < heap.objects.length := by
      unfold PanelHeap.deref at hderef
      by_contra hge
      rw [List.getElem?_eq_none (Nat.le_of_not_lt hge)] at hderef
      cases hderef
    have hupdate : updateInputGroup services groups element elementTemplate heap
        = heap.updateGroup inputGroup
            { group with
              add := none
              items := some (inputItems services element
                (arrayFilter (fun property => !strTruthy property.type
                    && decide (property.binding.type = CAMUNDA_INPUT_PARAMETER_TYPE))
                  elementTemplate.properties) 0) } := by
      simp only [updateInputGroup, hfind, hderef]
    refine ⟨group, hderef, hid, ?_, ?_, updateInputGroup_arrays _ _ _ _ _⟩
    · rw [hupdate, PanelHeap.deref_updateGroup, if_pos rfl, if_pos hlt,
        inputItems_eq_filterMap, arrayFilter_eq_filter]
      rfl
    · intro other hother
      rw [hupdate, PanelHeap.deref_updateGroup, if_neg (Ne.symm hother)]
  · intro hnone
    simp only [updateInputGroup, hnone]

/-- C30, witness: the panel's input group loses its `add` handler and gets the items of the
first and the third property of the template (the second declares a type), built
with the indices 0 and 1; a panel without input group is left as it is. -/
theorem updateInputGroup_replaces_items_witness :
    (updateInputGroup (panelServices (some inputTemplate)) 0 (taskNamed "") inputTemplate
        panelHeap).deref 2
      = some { id := "CamundaPlatform__Input", label := some "Inputs", add := none,
               items := some [ "0:first", "1:second" ] }
    ∧ updateInputGroup (panelServices (some inputTemplate)) 0 (taskNamed "") inputTemplate
        { objects := [ { id := "general" } ], arrays := [ [ 0 ] ] }
      = { objects := [ { id := "general" } ], arrays := [ [ 0 ] ] } :=
  ⟨by decide,
   (updateInputGroup_replaces_items (panelServices (some inputTemplate)) 0 (taskNamed "")
      inputTemplate { objects := [ { id := "general" } ], arrays := [ [ 0 ] ] }).2 (by decide)⟩

/-! ## The groups `getGroups` returns -/

theorem addGroupsAfter_readArray_insert {Item : Type} (id : String) (groups : Nat)
    (groupsToAdd : List Nat) (heap : PanelHeap Item) (hvalid : groups < heap.arrays.length) :
    ∃ i, (addGroupsAfter id groups groupsToAdd heap).readArray groups
      = (heap.readArray groups).take i ++ groupsToAdd ++ (heap.readArray groups).drop i := by
  unfold addGroupsAfter
  cases findIndex (heap.hasId id) (heap.readArray groups) with
  | none =>
    refine ⟨0, ?_⟩
    simp only
    rw [PanelHeap.readArray_writeArray_same heap groups _ hvalid]
    simp [unshift]
  | some index =>
    refine ⟨index, ?_⟩
    simp only
    rw [PanelHeap.readArray_writeArray_same heap groups _ hvalid]
    simp [splice]

theorem filter_insert {α : Type} (p : α → Bool) (l xs : List α) (i : Nat) :
    (l.take i ++ xs ++ l.drop i).filter p
      = (l.take i).filter p ++ xs.filter p ++ (l.drop i).filter p := by
  simp only [List.filter_append]

theorem filter_insert_of_none {α : Type} (p : α → Bool) (l xs : List α) (i : Nat)
    (hxs : xs.filter p = []) :
    (l.take i ++ xs ++ l.drop i).filter p = l.filter p := by
  rw [filter_insert, hxs, List.append_nil, ← List.filter_append, List.take_append_drop]

theorem length_insert {α : Type} (l xs : List α) (i : Nat) :
    (l.take i ++ xs ++ l.drop i).length = l.length + xs.length := by
  have h := congrArg List.length (List.take_append_drop i l)
  simp only [List.length_append] at h ⊢
  omega

theorem PanelHeap.hasId_eq_ids {Item : Type} (heap : PanelHeap Item) (id : String) (ref : Nat) :
    heap.hasId id ref = decide ((heap.objects.map (fun g => g.id))[ref]? = some id) := by
  unfold PanelHeap.hasId PanelHeap.deref
  rw [List.getElem?_map]
  cases heap.objects[ref]? <;> simp

theorem set_eq_self_of_getElem? {α : Type} (l : List α) (r : Nat) (a : α)
    (h : l[r]? = some a) : l.set r a = l := by
  apply List.ext_getElem?
  intro n
  rw [List.getElem?_set]
  by_cases hn : r = n
  · subst hn
    have hlt : r < l.length := by
      by_contra hge
      rw [List.getElem?_eq_none (Nat.le_of_not_lt hge)] at h
      cases h
    rw [if_pos rfl, if_pos hlt, h]
  · rw [if_neg hn]

theorem updateInputGroup_ids {Item : Type} (services : ProviderServices Item) (groups : Nat)
    (element : Element) (elementTemplate : ElementTemplate) (heap : PanelHeap Item) :
    (updateInputGroup services groups element elementTemplate heap).objects.map (fun g => g.id)
      = heap.objects.map (fun g => g.id) := by
  unfold updateInputGroup
  split
  · rfl
  · split
    · rfl
    · rename_i inputGroup _ group hderef
      simp only [PanelHeap.updateGroup, List.map_set]
      apply set_eq_self_of_getElem?
      rw [List.getElem?_map]
      unfold PanelHeap.deref at hderef
      rw [hderef]
      rfl

theorem getGroups_of_no_template {Item : Type} (services : ProviderServices Item)
    (element : Element) (groups : Nat) (heap : PanelHeap Item)
    (h : services.getTemplate element = none) :
    getGroups services element groups heap
      = (heap.arrays.length, heapWithTemplateGroup groups heap) := by
  simp only [getGroups, h]
  rfl

theorem getGroups_of_template {Item : Type} (services : ProviderServices Item)
    (element : Element) (groups : Nat) (heap : PanelHeap Item) (elementTemplate : ElementTemplate)
    (h : services.getTemplate element = some elementTemplate) :
    getGroups services element groups heap
      = (heap.arrays.length,
         updateInputGroup services heap.arrays.length element elementTemplate
          (addGroupsAfter "template" heap.arrays.length
            ((List.range (services.customProperties element elementTemplate).length).map
              (fun i => (heapWithTemplateGroup groups heap).objects.length + i))
            (heapWithCustomGroups (services.customProperties element elementTemplate)
              groups heap))) := by
  simp only [getGroups, h]
  rfl

theorem heapWithTemplateGroup_objects {Item : Type} (groups : Nat) (heap : PanelHeap Item) :
    (heapWithTemplateGroup groups heap).objects = heap.objects ++ [ templatesGroup ] :=
  addGroupsAfter_objects _ _ _ _

theorem heapWithTemplateGroup_arrays_length {Item : Type} (groups : Nat)
    (heap : PanelHeap Item) :
    (heapWithTemplateGroup groups heap).arrays.length = heap.arrays.length + 1 := by
  unfold heapWithTemplateGroup addGroupsAfter
  split <;> simp [PanelHeap.writeArray, copiedHeap]

theorem heapWithTemplateGroup_readArray {Item : Type} (groups : Nat) (heap : PanelHeap Item) :
    ∃ i, (heapWithTemplateGroup groups heap).readArray heap.arrays.length
      = (heap.readArray groups).take i ++ [ heap.objects.length ]
          ++ (heap.readArray groups).drop i := by
  have hvalid : heap.arrays.length < (copiedHeap groups heap).arrays.length := by
    simp [copiedHeap]
  obtain ⟨i, hi⟩ := addGroupsAfter_readArray_insert "documentation" heap.arrays.length
    [ heap.objects.length ] (copiedHeap groups heap) hvalid
  refine ⟨i, ?_⟩
  have hread : (copiedHeap groups heap).readArray heap.arrays.length
      = heap.readArray groups := by
    simp [PanelHeap.readArray, copiedHeap]
  rw [hread] at hi
  exact hi

theorem filter_eq_nil_of_forall {α : Type} (p : α → Bool) (l : List α)
    (h : ∀ x ∈ l, p x = false) : l.filter p = [] := by
  induction l with
  | nil => rfl
  | cons x xs ih =>
    have hx : p x = false := h x (List.mem_cons_self _ _)
    rw [List.filter_cons, hx]
    exact ih (fun y hy => h y (List.mem_cons_of_mem _ hy))

theorem filter_eq_self_of_forall {α : Type} (p : α → Bool) (l : List α)
    (h : ∀ x ∈ l, p x = true) : l.filter p = l := by
  induction l with
  | nil => rfl
  | cons x xs ih =>
    have hx : p x = true := h x (List.mem_cons_self _ _)
    rw [List.filter_cons, hx]
    simp only [if_true]
    rw [ih (fun y hy => h y (List.mem_cons_of_mem _ hy))]

/-- Filtering an array into which one reference and then further references were inserted:
a predicate that holds of the first inserted reference only selects it alone, and a
predicate that holds of the original references only selects the original array. -/
theorem filter_inserted (p : Nat → Bool) (c : List Nat) (n : Nat) (added : List Nat) (i j : Nat) :
    ((∀ r ∈ c, p r = false) → p n = true → (∀ r ∈ added, p r = false) →
      (((c.take i ++ [ n ] ++ c.drop i).take j ++ added
          ++ (c.take i ++ [ n ] ++ c.drop i).drop j).filter p = [ n ]))
    ∧ ((∀ r ∈ c, p r = true) → p n = false → (∀ r ∈ added, p r = false) →
      (((c.take i ++ [ n ] ++ c.drop i).take j ++ added
          ++ (c.take i ++ [ n ] ++ c.drop i).drop j).filter p = c)) := by
  constructor
  · intro hc hn hadded
    rw [filter_insert_of_none p _ added j (filter_eq_nil_of_forall p added hadded),
      filter_insert,
      filter_eq_nil_of_forall p _ (fun r hr => hc r (List.mem_of_mem_take hr)),
      filter_eq_nil_of_forall p _ (fun r hr => hc r (List.mem_of_mem_drop hr))]
    simp [hn]
  · intro hc hn hadded
    rw [filter_insert_of_none p _ added j (filter_eq_nil_of_forall p added hadded),
      filter_insert_of_none p c [ n ] i (by simp [hn])]
    exact filter_eq_self_of_forall p c hc

theorem getGroups_result {Item : Type} (services : ProviderServices Item) (element : Element)
    (groups : Nat) (heap : PanelHeap Item) :
    ∃ (i j : Nat) (customs : List (PanelGroup Item)),
      (getGroups services element groups heap).2.readArray
          (getGroups services element groups heap).1
        = ((heap.readArray groups).take i ++ [ heap.objects.length ]
              ++ (heap.readArray groups).drop i).take j
            ++ (List.range customs.length).map (fun k => heap.objects.length + 1 + k)
            ++ ((heap.readArray groups).take i ++ [ heap.objects.length ]
              ++ (heap.readArray groups).drop i).drop j
      ∧ (getGroups services element groups heap).2.objects.map (fun g => g.id)
        = heap.objects.map (fun g => g.id) ++ [ "template" ] ++ customs.map (fun g => g.id)
      ∧ (services.getTemplate element = none → customs = []
          ∧ (getGroups services element groups heap).2.objects
              = heap.objects ++ [ templatesGroup ])
      ∧ (∀ elementTemplate, services.getTemplate element = some elementTemplate →
          customs = services.customProperties element elementTemplate) := by
  obtain ⟨i, hi⟩ := heapWithTemplateGroup_readArray groups heap
  cases h : services.getTemplate element with
  | none =>
    refine ⟨i, 0, [], ?_, ?_, ?_, ?_⟩
    · rw [getGroups_of_no_template services element groups heap h]
      simp only [hi, List.take_zero, List.drop_zero, List.length_nil, List.range_zero,
        List.map_nil, List.nil_append, List.append_nil]
    · rw [getGroups_of_no_template services element groups heap h]
      simp only [heapWithTemplateGroup_objects, List.map_append, List.map_nil, List.append_nil]
      rfl
    · intro _
      rw [getGroups_of_no_template services element groups heap h]
      exact ⟨rfl, heapWithTemplateGroup_objects groups heap⟩
    · intro t ht
      cases ht
  | some elementTemplate =>
    have hvalid : heap.arrays.length
        < (heapWithCustomGroups (services.customProperties element elementTemplate)
            groups heap).arrays.length := by
      simp [heapWithCustomGroups, heapWithTemplateGroup_arrays_length]
    obtain ⟨j, hj⟩ := addGroupsAfter_readArray_insert "template" heap.arrays.length
      ((List.range (services.customProperties element elementTemplate).length).map
        (fun k => (heapWithTemplateGroup groups heap).objects.length + k))
      (heapWithCustomGroups (services.customProperties element elementTemplate) groups heap)
      hvalid
    have hlen : (heapWithTemplateGroup groups heap).objects.length = heap.objects.length + 1 := by
      simp [heapWithTemplateGroup_objects]
    have hread : (heapWithCustomGroups (services.customProperties element elementTemplate)
          groups heap).readArray heap.arrays.length
        = (heapWithTemplateGroup groups heap).readArray heap.arrays.length := rfl
    refine ⟨i, j, services.customProperties element elementTemplate, ?_, ?_, ?_, ?_⟩
    · rw [getGroups_of_template services element groups heap elementTemplate h]
      simp only [updateInputGroup_readArray]
      rw [hj, hlen, hread, hi]
    · rw [getGroups_of_template services element groups heap elementTemplate h]
      simp only [updateInputGroup_ids, addGroupsAfter_objects, heapWithCustomGroups,
        heapWithTemplateGroup_objects, List.map_append]
      rfl
    · intro hnone
      cases hnone
    · intro t ht
      cases ht
      rfl

theorem getElem?_append_singleton_append {α : Type} (A B : List α) (x : α) :
    (∀ r, r < A.length → (A ++ [ x ] ++ B)[r]? = A[r]?)
    ∧ (A ++ [ x ] ++ B)[A.length]? = some x
    ∧ (∀ k, (A ++ [ x ] ++ B)[A.length + 1 + k]? = B[k]?) := by
  refine ⟨?_, ?_, ?_⟩
  · intro r hr
    rw [List.append_assoc, List.getElem?_append_left hr]
  · rw [List.append_assoc, List.getElem?_append_right (Nat.le_refl _)]
    simp
  · intro k
    rw [List.getElem?_append_right (by simp)]
    congr 1
    simp

/-- C29: for a provided array of groups none of which has the id `template` (the groups of
`./properties` having other ids as well), the array `getGroups` returns holds every
provided group as often and in the same order as the provided array, all other groups
in it are new, and exactly one of its groups has the id `template`, the new template
group. When no template is applied to the element the returned array is one longer
than the provided one and every provided group object is as before. -/
theorem getGroups_keeps_provided_groups {Item : Type} (services : ProviderServices Item)
    (element : Element) (groups : Nat) (heap : PanelHeap Item)
    (hrefs : ∀ ref ∈ heap.readArray groups, ref < heap.objects.length)
    (hnoTemplate : ∀ ref ∈ heap.readArray groups, heap.hasId "template" ref = false)
    (hcustom : ∀ elementTemplate, ∀ g ∈ services.customProperties element elementTemplate,
      g.id ≠ "template") :
    ((getGroups services element groups heap).2.readArray
        (getGroups services element groups heap).1).filter
        (fun ref => decide (ref < heap.objects.length))
      = heap.readArray groups
    ∧ ((getGroups services element groups heap).2.readArray
        (getGroups services element groups heap).1).filter
        ((getGroups services element groups heap).2.hasId "template")
      = [ heap.objects.length ]
    ∧ (services.getTemplate element = none →
        ((getGroups services element groups heap).2.readArray
          (getGroups services element groups heap).1).length
          = (heap.readArray groups).length + 1
        ∧ ∀ ref, ref < heap.objects.length →
            (getGroups services element groups heap).2.deref ref = heap.deref ref) := by
  obtain ⟨i, j, customs, hout, hids, hnone, hsome⟩ :=
    getGroups_result services element groups heap
  have hcustoms : ∀ g ∈ customs, g.id ≠ "template" := by
    cases h : services.getTemplate element with
    | none =>
      rw [(hnone h).1]
      intro g hg
      simp at hg
    | some elementTemplate =>
      rw [hsome elementTemplate h]
      exact hcustom elementTemplate
  obtain ⟨hleft, hmid, hright⟩ := getElem?_append_singleton_append
    (heap.objects.map (fun g => g.id)) (customs.map (fun g => g.id)) "template"
  simp only [List.length_map] at hleft hmid hright
  refine ⟨?_, ?_, ?_⟩
  · rw [hout]
    apply (filter_inserted _ _ _ _ i j).2
    · intro r hr
      simpa using hrefs r hr
    · simp
    · intro r hr
      obtain ⟨k, _, rfl⟩ := List.mem_map.1 hr
      simp
      omega
  · rw [hout]
    apply (filter_inserted _ _ _ _ i j).1
    · intro r hr
      rw [PanelHeap.hasId_eq_ids, hids, hleft r (hrefs r hr), ← PanelHeap.hasId_eq_ids]
      exact hnoTemplate r hr
    · rw [PanelHeap.hasId_eq_ids, hids, hmid]
      simp
    · intro r hr
      obtain ⟨k, hk, rfl⟩ := List.mem_map.1 hr
      rw [PanelHeap.hasId_eq_ids, hids, hright k, List.getElem?_map]
      have hklt : k < customs.length := List.mem_range.1 hk
      rw [List.getElem?_eq_getElem hklt]
      have hne := hcustoms customs[k] (List.getElem_mem hklt)
      simpa using hne
  · intro h
    constructor
    · rw [hout, (hnone h).1]
      simp only [List.length_nil, List.range_zero, List.map_nil, List.append_nil]
      rw [List.take_append_drop, length_insert]
      rfl
    · intro ref hlt
      rw [PanelHeap.deref, (hnone h).2, List.getElem?_append_left hlt]
      rfl

theorem panelServices_custom_ids (applied : Option ElementTemplate) (element : Element)
    (elementTemplate : ElementTemplate) :
    ∀ g ∈ (panelServices applied).customProperties element elementTemplate,
      g.id ≠ "template" := by
  intro g hg
  simp only [panelServices, List.mem_singleton] at hg
  subst hg
  intro hid
  have hne : "ElementTemplates__CustomProperties" ≠ "template" := by decide
  exact hne hid

/-- C29, witness: for the panel `general, documentation, CamundaPlatform__Input` and an applied
template, the returned array without its new groups is the provided array, and its
only group with the id `template` is the new object `3`. -/
theorem getGroups_keeps_provided_groups_witness :
    ((getGroups (panelServices (some inputTemplate)) (taskNamed "") 0 panelHeap).2.readArray
        (getGroups (panelServices (some inputTemplate)) (taskNamed "") 0 panelHeap).1).filter
        (fun ref => decide (ref < panelHeap.objects.length))
      = [ 0, 1, 2 ]
    ∧ ((getGroups (panelServices (some inputTemplate)) (taskNamed "") 0 panelHeap).2.readArray
        (getGroups (panelServices (some inputTemplate)) (taskNamed "") 0 panelHeap).1).filter
        ((getGroups (panelServices (some inputTemplate)) (taskNamed "") 0 panelHeap).2.hasId
          "template")
      = [ 3 ] :=
  ⟨(getGroups_keeps_provided_groups (panelServices (some inputTemplate)) (taskNamed "") 0
      panelHeap (by decide) (by decide)
      (panelServices_custom_ids (some inputTemplate) (taskNamed ""))).1,
   (getGroups_keeps_provided_groups (panelServices (some inputTemplate)) (taskNamed "") 0
      panelHeap (by decide) (by decide)
      (panelServices_custom_ids (some inputTemplate) (taskNamed ""))).2.1⟩

/-! ## The grouped properties, key by key -/

theorem pushTo_keys (key : String) (val : PropertyDescriptor) :
    ∀ grouped : Grouped,
      (pushTo key val grouped).map Prod.fst
        = if key ∈ grouped.map Prod.fst then grouped.map Prod.fst
          else grouped.map Prod.fst ++ [ key ] := by
  intro grouped
  induction grouped with
  | nil => simp [pushTo]
  | cons kv rest ih =>
    obtain ⟨k, vals⟩ := kv
    by_cases hk : k = key
    · simp [pushTo, hk]
    · have hk' : ¬ key = k := fun h => hk h.symm
      simp only [pushTo, hk, if_false, List.map_cons, ih, List.mem_cons, hk', false_or]
      split_ifs <;> simp

theorem pushTo_keys_nodup (key : String) (val : PropertyDescriptor) (grouped : Grouped)
    (h : (grouped.map Prod.fst).Nodup) : ((pushTo key val grouped).map Prod.fst).Nodup := by
  rw [pushTo_keys]
  split_ifs with hmem
  · exact h
  · exact List.nodup_append.2 ⟨h, List.nodup_singleton _, by
      intro a ha hb
      rw [List.mem_singleton] at hb
      exact hmem (hb ▸ ha)⟩

theorem groupByLoop_keys_nodup :
    ∀ (properties : List PropertyDescriptor) (grouped result : Grouped),
      groupByLoop properties grouped = some result →
      (grouped.map Prod.fst).Nodup → (result.map Prod.fst).Nodup := by
  intro properties
  induction properties with
  | nil =>
    intro grouped result h hnodup
    simp only [groupByLoop, Option.some.injEq] at h
    exact h ▸ hnodup
  | cons p rest ih =>
    intro grouped result h hnodup
    simp only [groupByLoop] at h
    cases hs : groupByStep grouped p with
    | none => rw [hs] at h; cases h
    | some g' =>
      rw [hs] at h
      refine ih g' result h ?_
      rw [groupByStep_eq_some hs]
      exact pushTo_keys_nodup _ _ _ hnodup

theorem valuesAt_pushTo (key : String) (val : PropertyDescriptor) (k : String) :
    ∀ grouped : Grouped,
      valuesAt (pushTo key val grouped) k
        = if k = key then valuesAt grouped k ++ [ val ] else valuesAt grouped k := by
  intro grouped
  induction grouped with
  | nil =>
    by_cases hk : k = key
    · simp [pushTo, valuesAt, hk]
    · have hk' : ¬ key = k := fun h => hk h.symm
      simp [pushTo, valuesAt, hk, hk']
  | cons kv rest ih =>
    obtain ⟨k0, vals⟩ := kv
    by_cases h0 : k0 = key
    · by_cases hk : k = key
      · simp [pushTo, valuesAt, h0, hk]
      · have hk' : ¬ key = k := fun h => hk h.symm
        simp [pushTo, valuesAt, h0, hk, hk']
    · by_cases hk0 : k0 = k
      · have hk : ¬ k = key := fun h => h0 (hk0.trans h)
        simp [pushTo, valuesAt, h0, hk0, hk]
      · simp only [pushTo, h0, if_false, valuesAt, hk0, ih]

theorem valuesAt_groupByLoop (k : String) :
    ∀ (properties : List PropertyDescriptor) (grouped result : Grouped),
      groupByLoop properties grouped = some result →
      valuesAt result k
        = valuesAt grouped k ++ properties.filter (fun p => decide (groupKey p = k)) := by
  intro properties
  induction properties with
  | nil =>
    intro grouped result h
    simp only [groupByLoop, Option.some.injEq] at h
    simp [h]
  | cons p rest ih =>
    intro grouped result h
    simp only [groupByLoop] at h
    cases hs : groupByStep grouped p with
    | none => rw [hs] at h; cases h
    | some g' =>
      rw [hs] at h
      rw [ih g' result h, groupByStep_eq_some hs, valuesAt_pushTo, List.filter_cons]
      by_cases hk : groupKey p = k
      · simp [hk]
      · have hk' : ¬ k = groupKey p := fun h => hk h.symm
        simp [hk, hk']

theorem valuesAt_of_mem :
    ∀ (grouped : Grouped) (k : String) (vals : List PropertyDescriptor),
      (grouped.map Prod.fst).Nodup → (k, vals) ∈ grouped → valuesAt grouped k = vals := by
  intro grouped
  induction grouped with
  | nil => intro k vals _ h; simp at h
  | cons kv rest ih =>
    obtain ⟨k0, vals0⟩ := kv
    intro k vals hnodup hmem
    simp only [List.map_cons, List.nodup_cons] at hnodup
    rcases List.mem_cons.1 hmem with heq | hrest
    · cases heq
      simp [valuesAt]
    · have hne : k0 ≠ k := by
        intro h
        apply hnodup.1
        rw [h]
        exact List.mem_map.2 ⟨(k, vals), hrest, rfl⟩
      simp only [valuesAt, hne, if_false]
      exact ih k vals hnodup.2 hrest

/-- The array filed under a key holds the properties with that group key, in the order of
the template. -/
theorem grouped_values_eq_filter {properties : List PropertyDescriptor} {grouped : Grouped}
    (h : groupByGroupId properties = some grouped) {k : String}
    {vals : List PropertyDescriptor} (hmem : (k, vals) ∈ grouped) :
    vals = properties.filter (fun p => decide (groupKey p = k)) := by
  have hnodup := groupByLoop_keys_nodup properties [] grouped h (by simp)
  have hvalues := valuesAt_groupByLoop k properties [] grouped h
  rw [valuesAt_of_mem grouped k vals hnodup hmem] at hvalues
  simpa [valuesAt] using hvalues

theorem pushTo_flatMap_perm (key : String) (val : PropertyDescriptor) :
    ∀ grouped : Grouped,
      ((pushTo key val grouped).flatMap Prod.snd).Perm (grouped.flatMap Prod.snd ++ [ val ]) := by
  intro grouped
  induction grouped with
  | nil => simp [pushTo]
  | cons kv rest ih =>
    obtain ⟨k, vals⟩ := kv
    by_cases hk : k = key
    · simp only [pushTo, hk, if_true, List.flatMap_cons, List.append_assoc]
      exact List.Perm.append_left _ List.perm_append_comm
    · simp only [pushTo, hk, if_false, List.flatMap_cons, List.append_assoc]
      exact List.Perm.append_left _ ih

theorem groupByLoop_flatMap_perm :
    ∀ (properties : List PropertyDescriptor) (grouped result : Grouped),
      groupByLoop properties grouped = some result →
      (result.flatMap Prod.snd).Perm (grouped.flatMap Prod.snd ++ properties) := by
  intro properties
  induction properties with
  | nil =>
    intro grouped result h
    simp only [groupByLoop, Option.some.injEq] at h
    simp [h]
  | cons p rest ih =>
    intro grouped result h
    simp only [groupByLoop] at h
    cases hs : groupByStep grouped p with
    | none => rw [hs] at h; cases h
    | some g' =>
      rw [hs] at h
      refine (ih g' result h).trans ?_
      rw [groupByStep_eq_some hs]
      refine ((pushTo_flatMap_perm _ _ grouped).append_right rest).trans ?_
      simp

/-! ## Every rendered property once: the entries over all groups -/

theorem ownKeysOrder_perm {β : Type} (object : List (String × β)) :
    (ownKeysOrder object).Perm object := by
  have hmap : ∀ l : List (String × β),
      (l.filterMap (fun kv => (arrayIndex? kv.1).map (fun n => (n, kv)))).map (fun nkv => nkv.2)
        = l.filter (fun kv => (arrayIndex? kv.1).isSome) := by
    intro l
    induction l with
    | nil => rfl
    | cons kv rest ih =>
      cases hidx : arrayIndex? kv.1 with
      | none => simp [List.filterMap_cons, List.filter_cons, hidx, ih]
      | some n => simp [List.filterMap_cons, List.filter_cons, hidx, ih]
  have hsplit : ∀ l : List (String × β),
      (l.filter (fun kv => (arrayIndex? kv.1).isSome)
        ++ l.filter (fun kv => (arrayIndex? kv.1).isNone)).Perm l := by
    intro l
    induction l with
    | nil => simp
    | cons kv rest ih =>
      cases hidx : arrayIndex? kv.1 with
      | none =>
        simp only [List.filter_cons, hidx, Option.isSome_none, Option.isNone_none, if_true,
          Bool.false_eq_true, if_false]
        exact List.perm_middle.trans (ih.cons kv)
      | some n =>
        simp only [List.filter_cons, hidx, Option.isSome_some, Option.isNone_some, if_true,
          Bool.false_eq_true, if_false, List.cons_append]
        exact ih.cons kv
  unfold ownKeysOrder
  refine (List.Perm.append_right _ ?_).trans (hsplit object)
  rw [← hmap]
  exact (List.perm_insertionSort _ _).map _

theorem customEntries_map_property (bt : BindingTypes) (templateId id : String) :
    ∀ (properties : List PropertyDescriptor) (index : Nat),
      (customEntries bt templateId properties index).map (fun e => e.property)
        = properties.filter (fun p => (createCustomEntry bt id p).isSome) := by
  intro properties
  induction properties with
  | nil => intro index; rfl
  | cons p rest ih =>
    intro index
    have hcongr := createCustomEntry_isSome_congr bt (entryId templateId index) id p
    cases hc : createCustomEntry bt (entryId templateId index) p with
    | none =>
      rw [hc] at hcongr
      simp only [customEntries, hc, List.filter_cons, ← hcongr, Option.isSome_none,
        Bool.false_eq_true, if_false]
      exact ih (index + 1)
    | some e =>
      rw [hc] at hcongr
      simp only [customEntries, hc, List.filter_cons, ← hcongr, Option.isSome_some, if_true,
        List.map_cons, (createCustomEntry_eq_some hc).2]
      rw [ih (index + 1)]

theorem groupsOf_flatMap_entries {β : Type} (f : Entry → β) (bt : BindingTypes)
    (elementTemplate : ElementTemplate) (grouped : Grouped) :
    (groupsOf bt elementTemplate grouped).flatMap (fun G => G.entries.map f)
      = (ownKeysOrder grouped).flatMap
          (fun kv =>
            if (findCustomGroup elementTemplate.groups kv.1).isSome then
              (customEntries bt (elementTemplate.id ++ "-" ++ kv.1) kv.2 0).map f
            else [])
        ++ (customEntries bt elementTemplate.id (defaultPropsOf elementTemplate grouped) 0).map f := by
  have hkeys : ∀ keys : List (String × List PropertyDescriptor),
      (keys.filterMap (renderedGroup? bt elementTemplate)).flatMap (fun G => G.entries.map f)
        = keys.flatMap
            (fun kv =>
              if (findCustomGroup elementTemplate.groups kv.1).isSome then
                (customEntries bt (elementTemplate.id ++ "-" ++ kv.1) kv.2 0).map f
              else []) := by
    intro keys
    induction keys with
    | nil => rfl
    | cons kv rest ih =>
      cases hf : findCustomGroup elementTemplate.groups kv.1 with
      | none => simp [List.filterMap_cons, renderedGroup?, hf, ih]
      | some d =>
        by_cases he : (customEntries bt (elementTemplate.id ++ "-" ++ kv.1) kv.2 0).length = 0
        · have hnil := List.length_eq_zero.1 he
          simp [List.filterMap_cons, renderedGroup?, hf, declaredGroup, hnil, ih]
        · simp [List.filterMap_cons, renderedGroup?, hf, declaredGroup, he, ih]
  unfold groupsOf
  rw [List.flatMap_append, hkeys]
  congr 1
  by_cases he : (customEntries bt elementTemplate.id
      (defaultPropsOf elementTemplate grouped) 0).length = 0
  · have hnil := List.length_eq_zero.1 he
    simp [defaultGroup, hnil]
  · simp [defaultGroup, he]

theorem mem_groupsOf_entries_ne_nil (bt : BindingTypes) (elementTemplate : ElementTemplate)
    (grouped : Grouped) : ∀ G ∈ groupsOf bt elementTemplate grouped, G.entries ≠ [] := by
  intro G hG
  simp only [groupsOf, List.mem_append, List.mem_filterMap] at hG
  rcases hG with ⟨kv, _, hr⟩ | hdefault
  · simp only [renderedGroup?] at hr
    cases hf : findCustomGroup elementTemplate.groups kv.1 with
    | none => rw [hf] at hr; cases hr
    | some d =>
      rw [hf] at hr
      simp only at hr
      split_ifs at hr with hlen
      cases hr
      intro hnil
      exact hlen (by rw [hnil]; rfl)
  · split_ifs at hdefault with hlen
    · rw [List.mem_singleton] at hdefault
      subst hdefault
      intro hnil
      exact hlen (by rw [hnil]; rfl)
    · simp at hdefault

theorem declared_and_default_perm (declared : String → Bool) (yields : PropertyDescriptor → Bool) :
    ∀ keys : List (String × List PropertyDescriptor),
      (keys.flatMap (fun kv => if declared kv.1 then kv.2.filter yields else [])
        ++ ((keys.filter (fun kv => !declared kv.1)).flatMap (fun kv => kv.2)).filter yields).Perm
      ((keys.flatMap (fun kv => kv.2)).filter yields) := by
  intro keys
  induction keys with
  | nil => simp
  | cons kv rest ih =>
    cases hd : declared kv.1 with
    | true =>
      simp only [List.flatMap_cons, hd, if_true, List.filter_cons, Bool.not_true,
        Bool.false_eq_true, if_false, List.filter_append, List.append_assoc]
      exact List.Perm.append_left _ ih
    | false =>
      simp only [List.flatMap_cons, hd, Bool.false_eq_true, if_false, List.filter_cons,
        Bool.not_false, if_true, List.filter_append, List.nil_append]
      refine List.perm_append_comm_assoc _ _ _ |>.trans ?_
      exact List.Perm.append_left _ ih

theorem groupsOf_properties_perm (bt : BindingTypes) (id : String)
    (elementTemplate : ElementTemplate) (grouped : Grouped)
    (hg : groupByGroupId elementTemplate.properties = some grouped) :
    ((groupsOf bt elementTemplate grouped).flatMap
        (fun G => G.entries.map (fun e => e.property))).Perm
      (elementTemplate.properties.filter (fun p => (createCustomEntry bt id p).isSome)) := by
  rw [groupsOf_flatMap_entries]
  simp only [customEntries_map_property bt _ id]
  have hdefault : defaultPropsOf elementTemplate grouped
      = ((ownKeysOrder grouped).filter
          (fun kv => !(findCustomGroup elementTemplate.groups kv.1).isSome)).flatMap
            (fun kv => kv.2) := by
    unfold defaultPropsOf
    congr 2
    funext kv
    cases findCustomGroup elementTemplate.groups kv.1 <;> rfl
  rw [hdefault]
  refine (declared_and_default_perm
    (fun k => (findCustomGroup elementTemplate.groups k).isSome) _ (ownKeysOrder grouped)).trans ?_
  apply List.Perm.filter
  refine ((ownKeysOrder_perm grouped).flatMap_right _).trans ?_
  simpa using groupByLoop_flatMap_perm elementTemplate.properties [] grouped hg

/-! ## Decimal numerals and the entry identifiers -/

theorem digitChar_value (d : Nat) (h : d < 10) :
    (Nat.digitChar d).toNat - 48 = d ∧ Nat.digitChar d ≠ '-' := by
  interval_cases d <;> exact ⟨rfl, by decide⟩

theorem toDigitsCore_value :
    ∀ (fuel n : Nat) (ds : List Char), n < fuel →
      digitsValue (Nat.toDigitsCore 10 fuel n ds) 0 = digitsValue ds n := by
  intro fuel
  induction fuel with
  | zero => intro n ds h; omega
  | succ fuel ih =>
    intro n ds h
    have hd := (digitChar_value (n % 10) (Nat.mod_lt _ (by decide))).1
    simp only [Nat.toDigitsCore]
    split_ifs with h0
    · simp only [digitsValue, hd]
      congr 1
      omega
    · rw [ih (n / 10) _ (by omega)]
      simp only [digitsValue, hd]
      congr 1
      omega

theorem toDigitsCore_no_dash :
    ∀ (fuel n : Nat) (ds : List Char), '-' ∉ ds → '-' ∉ Nat.toDigitsCore 10 fuel n ds := by
  intro fuel
  induction fuel with
  | zero => intro n ds h; simpa [Nat.toDigitsCore] using h
  | succ fuel ih =>
    intro n ds h
    have hd := (digitChar_value (n % 10) (Nat.mod_lt _ (by decide))).2
    have hcons : '-' ∉ Nat.digitChar (n % 10) :: ds := by
      intro hmem
      rcases List.mem_cons.1 hmem with heq | hmem
      · exact hd heq.symm
      · exact h hmem
    simp only [Nat.toDigitsCore]
    split_ifs with h0
    · exact hcons
    · exact ih _ _ hcons

theorem toString_data (n : Nat) : (toString n).data = Nat.toDigits 10 n := rfl

theorem toDigits_injective {n m : Nat} (h : Nat.toDigits 10 n = Nat.toDigits 10 m) : n = m := by
  have hn := toDigitsCore_value (n + 1) n [] (Nat.lt_succ_self n)
  have hm := toDigitsCore_value (m + 1) m [] (Nat.lt_succ_self m)
  simp only [digitsValue] at hn hm
  unfold Nat.toDigits at h
  rw [← hn, ← hm, h]

theorem toDigits_no_dash (n : Nat) : '-' ∉ Nat.toDigits 10 n :=
  toDigitsCore_no_dash (n + 1) n [] (by simp)

theorem split_at_last_separator {α : Type} (c : α) :
    ∀ (xs xs' ds ds' : List α), c ∉ ds → c ∉ ds' →
      xs ++ c :: ds = xs' ++ c :: ds' → xs = xs' ∧ ds = ds' := by
  intro xs
  induction xs with
  | nil =>
    intro xs' ds ds' hds hds' h
    cases xs' with
    | nil => simpa using h
    | cons a rest =>
      simp only [List.nil_append, List.cons_append, List.cons.injEq] at h
      exact absurd (h.2 ▸ (by simp : c ∈ rest ++ c :: ds')) hds
  | cons x rest ih =>
    intro xs' ds ds' hds hds' h
    cases xs' with
    | nil =>
      simp only [List.nil_append, List.cons_append, List.cons.injEq] at h
      exact absurd (h.2 ▸ (by simp : c ∈ rest ++ c :: ds)) hds'
    | cons a rest' =>
      simp only [List.cons_append, List.cons.injEq] at h
      obtain ⟨hrest, hdigits⟩ := ih rest' ds ds' hds hds' h.2
      exact ⟨by rw [h.1, hrest], hdigits⟩

theorem entryId_data (templateId : String) (index : Nat) :
    (entryId templateId index).data
      = "custom-entry-".data ++ (templateId.data ++ '-' :: Nat.toDigits 10 index) := by
  simp only [entryId, String.data_append, toString_data, List.append_assoc]
  rfl

/-- The identifier determines the template id and the index it was built from: the index
is the numeral after the last `-`. -/
theorem entryId_injective {templateId templateId' : String} {index index' : Nat}
    (h : entryId templateId index = entryId templateId' index') :
    templateId = templateId' ∧ index = index' := by
  have hdata := congrArg String.data h
  rw [entryId_data, entryId_data] at hdata
  obtain ⟨hid, hdigits⟩ := split_at_last_separator '-' _ _ _ _ (toDigits_no_dash index)
    (toDigits_no_dash index') (List.append_cancel_left hdata)
  exact ⟨String.ext hid, toDigits_injective hdigits⟩

theorem append_group_ne_self (templateId groupId : String) :
    templateId ++ "-" ++ groupId ≠ templateId := by
  intro h
  have hdata := congrArg String.data h
  simp only [String.data_append, List.append_assoc] at hdata
  have hlen := congrArg List.length hdata
  simp only [List.length_append, List.length_cons, List.length_nil] at hlen
  omega

theorem append_group_injective {templateId groupId groupId' : String}
    (h : templateId ++ "-" ++ groupId = templateId ++ "-" ++ groupId') : groupId = groupId' := by
  have hdata := congrArg String.data h
  simp only [String.data_append, List.append_assoc] at hdata
  exact String.ext (List.append_cancel_left (List.append_cancel_left hdata))

theorem customEntries_id_mem (bt : BindingTypes) (templateId : String) (x : String) :
    ∀ (properties : List PropertyDescriptor) (start : Nat),
      x ∈ (customEntries bt templateId properties start).map (fun e => e.id) →
        ∃ j, start ≤ j ∧ x = entryId templateId j := by
  intro properties start hx
  obtain ⟨e, he, rfl⟩ := List.mem_map.1 hx
  obtain ⟨i, p, _, hc⟩ := (mem_customEntries bt templateId e properties start).1 he
  exact ⟨start + i, Nat.le_add_right _ _, (createCustomEntry_eq_some hc).1⟩

theorem customEntries_ids_nodup (bt : BindingTypes) (templateId : String) :
    ∀ (properties : List PropertyDescriptor) (start : Nat),
      ((customEntries bt templateId properties start).map (fun e => e.id)).Nodup := by
  intro properties
  induction properties with
  | nil => intro start; simp [customEntries]
  | cons p rest ih =>
    intro start
    simp only [customEntries]
    cases hc : createCustomEntry bt (entryId templateId start) p with
    | none => exact ih (start + 1)
    | some e =>
      simp only [List.map_cons, List.nodup_cons]
      refine ⟨?_, ih (start + 1)⟩
      intro hmem
      obtain ⟨j, hj, heq⟩ := customEntries_id_mem bt templateId e.id rest (start + 1) hmem
      rw [(createCustomEntry_eq_some hc).1] at heq
      have := (entryId_injective heq).2
      omega

theorem groupsOf_ids_nodup (bt : BindingTypes) (elementTemplate : ElementTemplate)
    (grouped : Grouped) (hnodup : (grouped.map Prod.fst).Nodup) :
    ((groupsOf bt elementTemplate grouped).flatMap
        (fun G => G.entries.map (fun e => e.id))).Nodup := by
  rw [groupsOf_flatMap_entries]
  have hkeys : ((ownKeysOrder grouped).map Prod.fst).Nodup :=
    (((ownKeysOrder_perm grouped).map Prod.fst).nodup_iff).2 hnodup
  have hdeclared : ∀ kv : String × List PropertyDescriptor, ∀ x,
      x ∈ (if (findCustomGroup elementTemplate.groups kv.1).isSome then
            (customEntries bt (elementTemplate.id ++ "-" ++ kv.1) kv.2 0).map (fun e => e.id)
          else []) →
        ∃ j, x = entryId (elementTemplate.id ++ "-" ++ kv.1) j := by
    intro kv x hx
    split_ifs at hx
    · obtain ⟨j, _, hj⟩ := customEntries_id_mem bt _ x _ _ hx
      exact ⟨j, hj⟩
    · simp at hx
  refine List.nodup_append.2 ⟨?_, customEntries_ids_nodup bt _ _ _, ?_⟩
  · refine List.nodup_flatMap.2 ⟨?_, ?_⟩
    · intro kv _
      split_ifs
      · exact customEntries_ids_nodup bt _ _ _
      · exact List.nodup_nil
    · have hpair : (ownKeysOrder grouped).Pairwise (fun a b => a.1 ≠ b.1) :=
        List.pairwise_map.1 hkeys
      refine hpair.imp ?_
      intro a b hne x hxa hxb
      obtain ⟨j, hj⟩ := hdeclared a x hxa
      obtain ⟨j', hj'⟩ := hdeclared b x hxb
      exact hne (append_group_injective (entryId_injective (hj.symm.trans hj')).1)
  · intro x hx hx'
    obtain ⟨kv, _, hxkv⟩ := List.mem_flatMap.1 hx
    obtain ⟨j, hj⟩ := hdeclared kv x hxkv
    obtain ⟨j', _, hj'⟩ := customEntries_id_mem bt _ x _ _ hx'
    exact append_group_ne_self _ _ (entryId_injective (hj.symm.trans hj')).1

/-! ## The order of the entries -/

theorem filter_key_flatMap_sublist (properties : List PropertyDescriptor) (k : String) :
    ∀ keys : List (String × List PropertyDescriptor),
      (∀ kv ∈ keys, kv.2 = properties.filter (fun p => decide (groupKey p = kv.1))) →
      (keys.map Prod.fst).Nodup →
      ((keys.flatMap (fun kv => kv.2)).filter (fun p => decide (groupKey p = k))).Sublist
        properties := by
  intro keys
  induction keys with
  | nil => intro _ _; simp
  | cons kv rest ih =>
    intro hvals hnodup
    simp only [List.map_cons, List.nodup_cons] at hnodup
    have hrest : ∀ kv' ∈ rest, kv'.2 = properties.filter (fun p => decide (groupKey p = kv'.1)) :=
      fun kv' h => hvals kv' (List.mem_cons_of_mem _ h)
    have hhead := hvals kv (List.mem_cons_self _ _)
    simp only [List.flatMap_cons, List.filter_append]
    by_cases hk : kv.1 = k
    · have hnil : (rest.flatMap (fun kv => kv.2)).filter (fun p => decide (groupKey p = k))
          = [] := by
        rw [List.filter_eq_nil_iff]
        intro p hp
        obtain ⟨kv', hkv', hpkv'⟩ := List.mem_flatMap.1 hp
        rw [hrest kv' hkv', List.mem_filter] at hpkv'
        have hkey : groupKey p = kv'.1 := by simpa using hpkv'.2
        have hne : kv'.1 ≠ k := by
          intro heq
          apply hnodup.1
          rw [hk, ← heq]
          exact List.mem_map.2 ⟨kv', hkv', rfl⟩
        simpa [hkey] using hne
      rw [hnil, List.append_nil, hhead]
      exact (List.filter_sublist _).trans (List.filter_sublist _)
    · have hnil : kv.2.filter (fun p => decide (groupKey p = k)) = [] := by
        rw [List.filter_eq_nil_iff]
        intro p hp
        rw [hhead, List.mem_filter] at hp
        have hkey : groupKey p = kv.1 := by simpa using hp.2
        simpa [hkey] using hk
      rw [hnil, List.nil_append]
      exact ih hrest hnodup.2

theorem declared_id_ne_default (groupId : String) :
    "ElementTemplates__CustomProperties-" ++ groupId ≠ DEFAULT_CUSTOM_GROUP_id := by
  intro h
  have hdata := congrArg String.data h
  simp [DEFAULT_CUSTOM_GROUP_id] at hdata

theorem mem_groupsOf (bt : BindingTypes) (elementTemplate : ElementTemplate) (grouped : Grouped)
    (G : Group) (hG : G ∈ groupsOf bt elementTemplate grouped) :
    (G.id ≠ DEFAULT_CUSTOM_GROUP_id
      ∧ ∃ k vals, (k, vals) ∈ grouped
        ∧ G.entries = customEntries bt (elementTemplate.id ++ "-" ++ k) vals 0)
    ∨ (G.id = DEFAULT_CUSTOM_GROUP_id
      ∧ G = defaultGroup bt elementTemplate (defaultPropsOf elementTemplate grouped)
      ∧ (groupsOf bt elementTemplate grouped).getLast? = some G) := by
  simp only [groupsOf, List.mem_append, List.mem_filterMap] at hG
  rcases hG with ⟨kv, hkv, hr⟩ | hdefault
  · left
    simp only [renderedGroup?] at hr
    cases hf : findCustomGroup elementTemplate.groups kv.1 with
    | none => rw [hf] at hr; cases hr
    | some d =>
      rw [hf] at hr
      simp only at hr
      split_ifs at hr
      cases hr
      exact ⟨declared_id_ne_default kv.1, kv.1, kv.2, (mem_ownKeysOrder grouped kv).1 hkv, rfl⟩
  · right
    split_ifs at hdefault with hlen
    · rw [List.mem_singleton] at hdefault
      subst hdefault
      refine ⟨rfl, rfl, ?_⟩
      simp only [groupsOf, if_pos hlen]
      simp
    · simp at hdefault

theorem groupsOf_order (bt : BindingTypes) (elementTemplate : ElementTemplate)
    (grouped : Grouped) (hg : groupByGroupId elementTemplate.properties = some grouped)
    (G : Group) (hG : G ∈ groupsOf bt elementTemplate grouped) :
    (G.id ≠ DEFAULT_CUSTOM_GROUP_id →
      (G.entries.map (fun e => e.property)).Sublist elementTemplate.properties)
    ∧ (G.id = DEFAULT_CUSTOM_GROUP_id →
      (∀ k, ((G.entries.map (fun e => e.property)).filter
          (fun p => decide (groupKey p = k))).Sublist elementTemplate.properties)
      ∧ (groupsOf bt elementTemplate grouped).getLast? = some G) := by
  have hnodup := groupByLoop_keys_nodup elementTemplate.properties [] grouped hg (by simp)
  rcases mem_groupsOf bt elementTemplate grouped G hG with
    ⟨hne, k, vals, hmem, hentries⟩ | ⟨hid, hdefault, hlast⟩
  · refine ⟨fun _ => ?_, fun hid => absurd hid hne⟩
    rw [hentries, customEntries_map_property bt _ "", grouped_values_eq_filter hg hmem]
    exact (List.filter_sublist _).trans (List.filter_sublist _)
  · refine ⟨fun hne => absurd hid hne, fun _ => ⟨?_, hlast⟩⟩
    intro k
    have hentries : G.entries
        = customEntries bt elementTemplate.id (defaultPropsOf elementTemplate grouped) 0 := by
      rw [hdefault]
      rfl
    rw [hentries, customEntries_map_property bt _ "", List.filter_filter]
    have hswap : (defaultPropsOf elementTemplate grouped).filter
          (fun a => decide (groupKey a = k) && (createCustomEntry bt "" a).isSome)
        = ((defaultPropsOf elementTemplate grouped).filter
            (fun p => decide (groupKey p = k))).filter
            (fun p => (createCustomEntry bt "" p).isSome) := by
      rw [List.filter_filter]
      congr 1
      funext a
      exact Bool.and_comm _ _
    rw [hswap]
    refine (List.filter_sublist _).trans ?_
    unfold defaultPropsOf
    apply filter_key_flatMap_sublist
    · intro kv hkv
      have hmem := (mem_ownKeysOrder grouped kv).1 (List.mem_filter.1 hkv).1
      exact grouped_values_eq_filter hg hmem
    · have hkeys : ((ownKeysOrder grouped).map Prod.fst).Nodup :=
        (((ownKeysOrder_perm grouped).map Prod.fst).nodup_iff).2 hnodup
      exact hkeys.sublist ((List.filter_sublist _).map _)

/-! ## Distinct identifiers, every rendered property once, and the order of the entries -/

/-- C25: all entry ids in the groups `CustomProperties` returns are pairwise distinct, across
groups as well as within one group, whatever characters the template id and the group
ids contain: the list of the ids of all entries of all returned groups has no
duplicate. `CustomProperties` returns groups for every template none of whose group
keys is a member name of `Object.prototype`. -/
theorem CustomProperties_entry_ids_distinct (bt : BindingTypes) (element : Element)
    (elementTemplate : ElementTemplate) :
    (∀ groups, CustomProperties bt element elementTemplate = some groups →
      (groups.flatMap (fun G => G.entries.map (fun e => e.id))).Nodup)
    ∧ ((∀ p ∈ elementTemplate.properties, groupKey p ∉ OBJECT_PROTOTYPE_KEYS) →
      ∃ groups, CustomProperties bt element elementTemplate = some groups) := by
  refine ⟨?_, CustomProperties_total bt element elementTemplate⟩
  intro groups h
  obtain ⟨grouped, hg, rfl⟩ := CustomProperties_eq_groupsOf h
  exact groupsOf_ids_nodup bt elementTemplate grouped
    (groupByLoop_keys_nodup elementTemplate.properties [] grouped hg (by simp))

/-- C25, witness: the template `a-1` with the groups `1` and `1-0` gets the three entry ids
`custom-entry-a-1-1-0`, `custom-entry-a-1-1-0-0` and `custom-entry-a-1-0`, which are
distinct. -/
theorem CustomProperties_entry_ids_distinct_witness :
    (CustomProperties bindingTypes (taskNamed "") dashTemplate).map
        (fun groups => groups.flatMap (fun G => G.entries.map (fun e => e.id)))
      = some [ "custom-entry-a-1-1-0", "custom-entry-a-1-1-0-0", "custom-entry-a-1-0" ]
    ∧ (((CustomProperties bindingTypes (taskNamed "") dashTemplate).getD []).flatMap
        (fun G => G.entries.map (fun e => e.id))).Nodup :=
  ⟨by decide,
   (CustomProperties_entry_ids_distinct bindingTypes (taskNamed "") dashTemplate).1 _
    (by decide)⟩

/-- C26: `CustomProperties` neither loses nor duplicates properties. The properties of the
entries of all returned groups, taken together, are the properties of the template for
which `createCustomEntry` yields an entry, each as often as the template lists it; and
every returned group has at least one entry. `CustomProperties` returns groups for
every template none of whose group keys is a member name of `Object.prototype`. -/
theorem CustomProperties_keeps_rendered_properties (bt : BindingTypes) (element : Element)
    (elementTemplate : ElementTemplate) (id : String) :
    (∀ groups, CustomProperties bt element elementTemplate = some groups →
      (groups.flatMap (fun G => G.entries.map (fun e => e.property))).Perm
          (elementTemplate.properties.filter (fun p => (createCustomEntry bt id p).isSome))
      ∧ ∀ G ∈ groups, G.entries ≠ [])
    ∧ ((∀ p ∈ elementTemplate.properties, groupKey p ∉ OBJECT_PROTOTYPE_KEYS) →
      ∃ groups, CustomProperties bt element elementTemplate = some groups) := by
  refine ⟨?_, CustomProperties_total bt element elementTemplate⟩
  intro groups h
  obtain ⟨grouped, hg, rfl⟩ := CustomProperties_eq_groupsOf h
  exact ⟨groupsOf_properties_perm bt id elementTemplate grouped hg,
    mem_groupsOf_entries_ne_nil bt elementTemplate grouped⟩

/-- C26, witness: the three properties of the template `grouped` all yield an entry; the
entries of its two groups carry exactly these three properties, and both groups have
an entry. -/
theorem CustomProperties_keeps_rendered_properties_witness :
    (((CustomProperties bindingTypes (taskNamed "") groupedTemplate).getD []).flatMap
        (fun G => G.entries.map (fun e => e.property))).Perm
      (groupedTemplate.properties.filter
        (fun p => (createCustomEntry bindingTypes "" p).isSome))
    ∧ ∀ G ∈ (CustomProperties bindingTypes (taskNamed "") groupedTemplate).getD [],
        G.entries ≠ [] :=
  (CustomProperties_keeps_rendered_properties bindingTypes (taskNamed "") groupedTemplate "").1 _
    (by decide)

/-- C27, counterexample: the template lists `first` (no group), `second` (group `zz`, which
is not declared) and `third` (no group); all three land in the default group, whose
entries are in the order `first`, `third`, `second`. -/
theorem default_group_not_in_template_order :
    orderTemplate.properties.map (fun p => (p.label, p.group))
      = [ (some "first", none), (some "second", some "zz"), (some "third", none) ]
    ∧ (CustomProperties bindingTypes (taskNamed "") orderTemplate).map
        (fun groups => groups.map
          (fun G => (G.id, G.entries.map (fun e => e.property.label))))
      = some [ ("ElementTemplates__CustomProperties",
                [ some "first", some "third", some "second" ]) ]
    ∧ ∃ G ∈ (CustomProperties bindingTypes (taskNamed "") orderTemplate).getD [],
        ¬ (G.entries.map (fun e => e.property)).Sublist orderTemplate.properties := by
  decide

/-- C27, amended: in every returned group of a declared group the entries are in the
relative order of their properties in the template's `properties` list. In the
default group the entries of properties filed under the same key (no group, or the same
undeclared group id) are in that relative order, so the whole default group is when
all its properties have the same key; and the default group, when present, is the last
group of the result. `CustomProperties` returns groups for every template none of whose
group keys is a member name of `Object.prototype`. -/
theorem CustomProperties_order_within_groups (bt : BindingTypes) (element : Element)
    (elementTemplate : ElementTemplate) :
    (∀ groups, CustomProperties bt element elementTemplate = some groups →
      ∀ G ∈ groups,
        (G.id ≠ "ElementTemplates__CustomProperties" →
          (G.entries.map (fun e => e.property)).Sublist elementTemplate.properties)
        ∧ (G.id = "ElementTemplates__CustomProperties" →
          (∀ k, ((G.entries.map (fun e => e.property)).filter
              (fun p => decide (groupKey p = k))).Sublist elementTemplate.properties)
          ∧ ((∀ e ∈ G.entries, ∀ e' ∈ G.entries,
                groupKey e.property = groupKey e'.property) →
              (G.entries.map (fun e => e.property)).Sublist elementTemplate.properties)
          ∧ groups.getLast? = some G))
    ∧ ((∀ p ∈ elementTemplate.properties, groupKey p ∉ OBJECT_PROTOTYPE_KEYS) →
      ∃ groups, CustomProperties bt element elementTemplate = some groups) := by
  refine ⟨?_, CustomProperties_total bt element elementTemplate⟩
  intro groups h
  obtain ⟨grouped, hg, rfl⟩ := CustomProperties_eq_groupsOf h
  intro G hG
  obtain ⟨hdeclared, hdefault⟩ := groupsOf_order bt elementTemplate grouped hg G hG
  refine ⟨hdeclared, fun hid => ?_⟩
  obtain ⟨hkey, hlast⟩ := hdefault hid
  refine ⟨hkey, ?_, hlast⟩
  intro hsame
  cases hentries : G.entries with
  | nil => simp
  | cons e0 rest =>
    have hall := hkey (groupKey e0.property)
    rw [List.filter_eq_self.2] at hall
    · rw [← hentries]
      exact hall
    · intro p hp
      obtain ⟨e, he, rfl⟩ := List.mem_map.1 hp
      have := hsame e he e0 (by rw [hentries]; exact List.mem_cons_self _ _)
      simpa using this

/-- C27, witness: in the template `grouped` the group of the declared group `headers` and the
default group, which is the last group, keep the order as stated. -/
theorem CustomProperties_order_within_groups_witness :
    ∀ G ∈ (CustomProperties bindingTypes (taskNamed "") groupedTemplate).getD [],
      (G.id ≠ "ElementTemplates__CustomProperties" →
        (G.entries.map (fun e => e.property)).Sublist groupedTemplate.properties)
      ∧ (G.id = "ElementTemplates__CustomProperties" →
        (∀ k, ((G.entries.map (fun e => e.property)).filter
            (fun p => decide (groupKey p = k))).Sublist groupedTemplate.properties)
        ∧ ((∀ e ∈ G.entries, ∀ e' ∈ G.entries,
              groupKey e.property = groupKey e'.property) →
            (G.entries.map (fun e => e.property)).Sublist groupedTemplate.properties)
        ∧ ((CustomProperties bindingTypes (taskNamed "") groupedTemplate).getD []).getLast?
            = some G) :=
  (CustomProperties_order_within_groups bindingTypes (taskNamed "") groupedTemplate).1 _
    (by decide)

/-! ## The registry: latest members and filter arguments -/

theorem newerVersion_trans {a b c : Option Int} (hab : newerVersion a b = true)
    (hac : newerVersion a c = false) : newerVersion b c = false := by
  cases a <;> cases b <;> cases c <;> simp_all [newerVersion]
  omega

theorem newerVersion_of_not {a b c : Option Int} (hab : newerVersion a b = false)
    (hbc : newerVersion b c = false) : newerVersion a c = false := by
  cases a <;> cases b <;> cases c <;> simp_all [newerVersion]
  omega

theorem latest_foldl :
    ∀ (rest : List ElementTemplate) (first : ElementTemplate),
      rest.foldl
          (fun latest candidate =>
            if newerVersion candidate.version latest.version then candidate else latest)
          first ∈ first :: rest
      ∧ ∀ m ∈ first :: rest,
          newerVersion m.version
            (rest.foldl
              (fun latest candidate =>
                if newerVersion candidate.version latest.version then candidate else latest)
              first).version = false := by
  intro rest
  induction rest with
  | nil =>
    intro first
    refine ⟨by simp, ?_⟩
    intro m hm
    simp only [List.mem_singleton] at hm
    subst hm
    simp only [List.foldl_nil]
    cases m.version <;> simp [newerVersion]
  | cons c rest ih =>
    intro first
    simp only [List.foldl_cons]
    by_cases hnew : newerVersion c.version first.version = true
    · rw [if_pos hnew]
      obtain ⟨hmem, hmax⟩ := ih c
      refine ⟨List.mem_cons_of_mem _ hmem, ?_⟩
      intro m hm
      rcases List.mem_cons.1 hm with rfl | hm
      · exact newerVersion_trans hnew (hmax c (List.mem_cons_self _ _))
      · exact hmax m hm
    · rw [if_neg hnew]
      have hnew' : newerVersion c.version first.version = false := by
        simpa using hnew
      obtain ⟨hmem, hmax⟩ := ih first
      refine ⟨?_, ?_⟩
      · rcases List.mem_cons.1 hmem with h | h
        · rw [h]; exact List.mem_cons_self _ _
        · exact List.mem_cons_of_mem _ (List.mem_cons_of_mem _ h)
      · intro m hm
        rcases List.mem_cons.1 hm with rfl | hm
        · exact hmax m (List.mem_cons_self _ _)
        · rcases List.mem_cons.1 hm with rfl | hm
          · exact newerVersion_of_not hnew' (hmax first (List.mem_cons_self _ _))
          · exact hmax m (List.mem_cons_of_mem _ hm)

theorem latestOf_spec (members : List ElementTemplate) (h : members ≠ []) :
    ∃ t, latestOf members = some t ∧ t ∈ members
      ∧ ∀ m ∈ members, newerVersion m.version t.version = false := by
  cases members with
  | nil => exact absurd rfl h
  | cons first rest =>
    obtain ⟨hmem, hmax⟩ := latest_foldl rest first
    exact ⟨_, rfl, hmem, hmax⟩

theorem members_eq_singleton (templates members : List ElementTemplate) (familyId : String)
    (t : ElementTemplate)
    (hsub : members.Sublist templates)
    (hnodup : (templates.map (fun t => (t.id, t.version))).Nodup)
    (hid : ∀ m ∈ members, m.id = familyId) (hversion : ∀ m ∈ members, m.version = none)
    (ht : t ∈ members) : members = [ t ] := by
  have hn : (members.map (fun t => (t.id, t.version))).Nodup := hnodup.sublist (hsub.map _)
  match members, hn, hid, hversion, ht with
  | [ a ], _, _, _, ht =>
    simp only [List.mem_singleton] at ht
    rw [ht]
  | a :: b :: rest, hn, hid, hversion, _ =>
    exfalso
    simp only [List.map_cons, List.nodup_cons, List.mem_cons] at hn
    apply hn.1
    left
    rw [hid a (by simp), hid b (by simp), hversion a (by simp), hversion b (by simp)]

/-- C21: for every catalog, every family id and either setting of `deprecated`,
`getLatest(familyId)` returns a sequence and leaves the registry as it is. With the
members of the family that are not deprecated (all members when deprecated ones are
requested): if there is none the sequence is empty; if one of them is versioned the
sequence holds exactly one template, a member whose version is the maximum of the
members' versions; if none is versioned the sequence holds exactly one template, a
member, which is the sole member when the pairs of id and version in the catalog are
unique. -/
theorem getLatest_family_latest_member (registry : Registry) (familyId : String)
    (options : LatestOptions) :
    ∃ result,
      registry.getLatest (FilterArgument.value (JSVal.str familyId)) options
        = (RegistryResult.returns result, registry)
      ∧ (registry.templates.filter
            (fun t => decide (t.id = familyId)
              && (options.deprecated || t.deprecated.isNone)) = [] → result = [])
      ∧ ((∃ m ∈ registry.templates.filter
              (fun t => decide (t.id = familyId)
                && (options.deprecated || t.deprecated.isNone)), m.version ≠ none) →
          ∃ t v, result = [ t ]
            ∧ t ∈ registry.templates.filter
                (fun t => decide (t.id = familyId)
                  && (options.deprecated || t.deprecated.isNone))
            ∧ t.version = some v
            ∧ ∀ m ∈ registry.templates.filter
                (fun t => decide (t.id = familyId)
                  && (options.deprecated || t.deprecated.isNone)),
                ∀ w, m.version = some w → w ≤ v)
      ∧ (registry.templates.filter
            (fun t => decide (t.id = familyId)
              && (options.deprecated || t.deprecated.isNone)) ≠ [] →
          (∀ m ∈ registry.templates.filter
              (fun t => decide (t.id = familyId)
                && (options.deprecated || t.deprecated.isNone)), m.version = none) →
          ∃ t, result = [ t ]
            ∧ t ∈ registry.templates.filter
                (fun t => decide (t.id = familyId)
                  && (options.deprecated || t.deprecated.isNone))
            ∧ ((registry.templates.map (fun t => (t.id, t.version))).Nodup →
                registry.templates.filter
                  (fun t => decide (t.id = familyId)
                    && (options.deprecated || t.deprecated.isNone)) = [ t ])) := by
  have hcall : registry.getLatest (FilterArgument.value (JSVal.str familyId)) options
      = (RegistryResult.returns
          (latestOf (registry.templates.filter
            (fun t => decide (t.id = familyId)
              && (options.deprecated || t.deprecated.isNone)))).toList, registry) := by
    simp only [Registry.getLatest, classifyFilter, latestCandidates, List.filter_filter]
  refine ⟨_, hcall, ?_, ?_, ?_⟩
  · intro hnil
    rw [hnil]
    rfl
  · rintro ⟨m, hm, hversioned⟩
    obtain ⟨t, hlatest, hmem, hmax⟩ := latestOf_spec _ (List.ne_nil_of_mem hm)
    have hmt := hmax m hm
    cases hv : t.version with
    | none =>
      exfalso
      rw [hv] at hmt
      cases hmv : m.version with
      | none => exact hversioned hmv
      | some w => rw [hmv] at hmt; simp [newerVersion] at hmt
    | some v =>
      refine ⟨t, v, by rw [hlatest]; rfl, hmem, hv, ?_⟩
      intro m' hm' w hw
      have := hmax m' hm'
      rw [hw, hv] at this
      simpa [newerVersion] using this
  · intro hne hunversioned
    obtain ⟨t, hlatest, hmem, _⟩ := latestOf_spec _ hne
    refine ⟨t, by rw [hlatest]; rfl, hmem, ?_⟩
    intro hnodup
    refine members_eq_singleton registry.templates _ familyId t (List.filter_sublist _) hnodup
      ?_ hunversioned hmem
    intro m hm
    have := (List.mem_filter.1 hm).2
    simp only [Bool.and_eq_true, decide_eq_true_eq] at this
    exact this.1

/-- C21, witness: in the catalog of the tests the family `foo` (unversioned, 1, 2, 3) gives
version 3, `bar` (1, 2) gives 2, the unversioned `baz` gives `baz`, and the
deprecated family `deprecated` gives nothing unless deprecated templates are requested. -/
theorem getLatest_family_latest_member_witness :
    (∃ result t v,
        testCatalog.getLatest (FilterArgument.value (JSVal.str "foo")) {}
          = (RegistryResult.returns result, testCatalog)
        ∧ result = [ t ] ∧ t.version = some v
        ∧ ∀ m ∈ testCatalog.templates.filter
            (fun t => decide (t.id = "foo") && (false || t.deprecated.isNone)),
            ∀ w, m.version = some w → w ≤ v)
    ∧ testCatalog.getLatest (FilterArgument.value (JSVal.str "foo")) {}
      = (RegistryResult.returns [ { id := "foo", version := some 3, properties := [] } ],
          testCatalog)
    ∧ testCatalog.getLatest (FilterArgument.value (JSVal.str "bar")) {}
      = (RegistryResult.returns [ { id := "bar", version := some 2, properties := [] } ],
          testCatalog)
    ∧ testCatalog.getLatest (FilterArgument.value (JSVal.str "baz")) {}
      = (RegistryResult.returns [ { id := "baz", properties := [] } ], testCatalog)
    ∧ testCatalog.getLatest (FilterArgument.value (JSVal.str "deprecated")) {}
      = (RegistryResult.returns [], testCatalog)
    ∧ testCatalog.getLatest (FilterArgument.value (JSVal.str "deprecated"))
        { deprecated := true }
      = (RegistryResult.returns
          [ { id := "deprecated", properties := [], deprecated := some {} } ], testCatalog) := by
  refine ⟨?_, by decide, by decide, by decide, by decide, by decide⟩
  obtain ⟨result, hcall, _, hversioned, _⟩ :=
    getLatest_family_latest_member testCatalog "foo" {}
  obtain ⟨t, v, hresult, _, hversion, hmax⟩ :=
    hversioned ⟨{ id := "foo", version := some 1, properties := [] }, by decide, by decide⟩
  exact ⟨result, t, v, hcall, hresult, hversion, hmax⟩

/-- The catalog of the tests: the latest templates without and with the deprecated ones, as
pairs of id and version. -/
theorem getLatest_of_test_catalog :
    (testCatalog.getLatest (FilterArgument.value JSVal.undefined) {}).1
      = RegistryResult.returns
          ((testCatalog.templates.filter (fun t =>
            (t.id, t.version) ∈
              [ ("my.mail.Task", none), ("default", some 1), ("foo", some 3), ("bar", some 2),
                ("baz", none), ("process-template", some 1),
                ("subprocess-template", some 1) ])))
    ∧ (testCatalog.getLatest (FilterArgument.value JSVal.null) { deprecated := true }).1
      = RegistryResult.returns
          ((testCatalog.templates.filter (fun t =>
            (t.id, t.version) ∈
              [ ("my.mail.Task", none), ("deprecated", none), ("default", some 1),
                ("foo", some 3), ("bar", some 2), ("baz", none), ("process-template", some 1),
                ("subprocess-template", some 1) ]))) := by
  decide

/-- C22: for every filter argument that is a value other than `undefined`, `null` and a
string (a diagram element being no such value), `getAll` and `getLatest` both throw the
error with the message `argument must be of type {string|djs.model.Base|undefined}`, and
the registry after the call is the registry before it. -/
theorem invalid_filter_argument_throws (registry : Registry) (v : JSVal)
    (options : LatestOptions) (hundefined : v ≠ JSVal.undefined) (hnull : v ≠ JSVal.null)
    (hstring : ∀ s, v ≠ JSVal.str s) :
    registry.getAll (FilterArgument.value v)
      = (RegistryResult.throws
          "argument must be of type \x7bstring|djs.model.Base|undefined\x7d", registry)
    ∧ registry.getLatest (FilterArgument.value v) options
      = (RegistryResult.throws
          "argument must be of type \x7bstring|djs.model.Base|undefined\x7d", registry) := by
  cases v with
  | undefined => exact absurd rfl hundefined
  | null => exact absurd rfl hnull
  | str s => exact absurd rfl (hstring s)
  | bool b => exact ⟨rfl, rfl⟩
  | num n => exact ⟨rfl, rfl⟩

/-- C22, witness: `getAll(false)` and `getLatest(false)` on the catalog of the tests. -/
theorem invalid_filter_argument_throws_witness :
    testCatalog.getAll (FilterArgument.value (JSVal.bool false))
      = (RegistryResult.throws
          "argument must be of type \x7bstring|djs.model.Base|undefined\x7d", testCatalog)
    ∧ testCatalog.getLatest (FilterArgument.value (JSVal.bool false)) {}
      = (RegistryResult.throws
          "argument must be of type \x7bstring|djs.model.Base|undefined\x7d", testCatalog) :=
  invalid_filter_argument_throws testCatalog (JSVal.bool false) {} (by decide) (by decide)
    (fun _ h => JSVal.noConfusion h)

/-! ## The application engine: values kept and values replaced -/

theorem arrayFind_updateFirst_same {α : Type} (p : α → Bool) (f : α → α)
    (hf : ∀ x, p x = true → p (f x) = true) :
    ∀ l : List α, arrayFind p (updateFirst p f l) = (arrayFind p l).map f := by
  intro l
  induction l with
  | nil => rfl
  | cons x xs ih =>
    by_cases hx : p x = true
    · simp [updateFirst, arrayFind, hx, hf x hx]
    · simp [updateFirst, arrayFind, hx, ih]

theorem arrayFind_updateFirst_other {α : Type} (p q : α → Bool) (f : α → α)
    (hdisjoint : ∀ x, p x = true → q x = false) (hf : ∀ x, p x = true → q (f x) = false) :
    ∀ l : List α, arrayFind q (updateFirst p f l) = arrayFind q l := by
  intro l
  induction l with
  | nil => rfl
  | cons x xs ih =>
    by_cases hx : p x = true
    · simp [updateFirst, arrayFind, hx, hf x hx, hdisjoint x hx]
    · simp [updateFirst, arrayFind, hx, ih]

theorem arrayFind_removeFirst_other {α : Type} (p q : α → Bool)
    (hdisjoint : ∀ x, p x = true → q x = false) :
    ∀ l : List α, arrayFind q (removeFirst p l) = arrayFind q l := by
  intro l
  induction l with
  | nil => rfl
  | cons x xs ih =>
    by_cases hx : p x = true
    · simp [removeFirst, arrayFind, hx, hdisjoint x hx]
    · simp [removeFirst, arrayFind, hx, ih]

theorem arrayFind_append_singleton {α : Type} (p : α → Bool) (x : α) :
    ∀ l : List α, arrayFind p (l ++ [ x ])
      = match arrayFind p l with
        | some y => some y
        | none => if p x then some x else none := by
  intro l
  induction l with
  | nil => simp [arrayFind]
  | cons y ys ih =>
    by_cases hy : p y = true
    · simp [arrayFind, hy]
    · simp [arrayFind, hy, ih]

theorem updateFirst_eq_self {α : Type} (p : α → Bool) (f : α → α) :
    ∀ l : List α, (∀ x, arrayFind p l = some x → f x = x) → updateFirst p f l = l := by
  intro l
  induction l with
  | nil => intro _; rfl
  | cons y ys ih =>
    intro h
    by_cases hy : p y = true
    · simp [updateFirst, hy, h y (by simp [arrayFind, hy])]
    · simp only [updateFirst, hy, if_false, Bool.false_eq_true]
      rw [ih (fun x hx => h x (by simpa [arrayFind, hy] using hx))]

theorem inputSource_setInput_same (ioMapping : IoMapping) (binding : Binding) (source : String) :
    inputSource (setInput ioMapping binding source) binding = some source := by
  unfold setInput
  cases hfind : findInputParameter ioMapping binding with
  | none =>
    simp only [findInputParameter] at hfind
    simp [inputSource, findInputParameter, arrayFind_append_singleton, hfind]
  | some parameter =>
    simp only [findInputParameter] at hfind
    simp only [inputSource, findInputParameter]
    rw [arrayFind_updateFirst_same _ _ (fun x hx => by simpa using hx), hfind]
    rfl

theorem inputSource_setInput_other (ioMapping : IoMapping) (binding other : Binding)
    (source : String) (h : other.name ≠ binding.name) :
    inputSource (setInput ioMapping binding source) other = inputSource ioMapping other := by
  unfold setInput
  cases hfind : findInputParameter ioMapping binding with
  | none =>
    simp only [inputSource, findInputParameter, arrayFind_append_singleton]
    cases arrayFind (fun parameter => decide (parameter.target = other.name))
        ioMapping.inputParameters with
    | none => simp [Ne.symm h]
    | some y => rfl
  | some parameter =>
    simp only [inputSource, findInputParameter]
    rw [arrayFind_updateFirst_other]
    · intro x hx
      have hx' : x.target = binding.name := by simpa using hx
      simpa [hx'] using Ne.symm h
    · intro x hx
      have hx' : x.target = binding.name := by simpa using hx
      simpa [hx'] using Ne.symm h

theorem inputSource_removeInput_other (ioMapping : IoMapping) (binding other : Binding)
    (h : other.name ≠ binding.name) :
    inputSource (removeInput ioMapping binding) other = inputSource ioMapping other := by
  simp only [inputSource, findInputParameter, removeInput]
  rw [arrayFind_removeFirst_other]
  intro x hx
  have hx' : x.target = binding.name := by simpa using hx
  simpa [hx'] using Ne.symm h

theorem setInput_eq_self (ioMapping : IoMapping) (binding : Binding) (source : String)
    (h : inputSource ioMapping binding = some source) :
    setInput ioMapping binding source = ioMapping := by
  unfold setInput
  cases hfind : findInputParameter ioMapping binding with
  | none => simp [inputSource, hfind] at h
  | some parameter =>
    simp only
    rw [updateFirst_eq_self]
    intro x hx
    simp only [findInputParameter] at hfind
    rw [hfind] at hx
    cases hx
    simp only [inputSource, findInputParameter, hfind, Option.some_bind] at h
    cases parameter
    simp_all

theorem inputSource_applyProperty_other (oldTemplate : Option ElementTemplate)
    (ioMapping : IoMapping) (property : PropertyDescriptor) (other : Binding)
    (h : property.binding.type = "zeebe:input" → other.name ≠ property.binding.name) :
    inputSource (applyProperty oldTemplate ioMapping property) other
      = inputSource ioMapping other := by
  unfold applyProperty
  split_ifs with hinput
  · split
    · exact inputSource_setInput_other _ _ _ _ (h hinput)
    · exact inputSource_removeInput_other _ _ _ (h hinput)
  · rfl

theorem inputSource_applyProperty_same (oldTemplate : Option ElementTemplate)
    (ioMapping : IoMapping) (property : PropertyDescriptor) (value : String)
    (hinput : property.binding.type = "zeebe:input")
    (hvalue : valueToApply (oldPropertyFor oldTemplate property) property
        (inputSource ioMapping property.binding) = some value) :
    inputSource (applyProperty oldTemplate ioMapping property) property.binding
      = some value := by
  unfold applyProperty
  rw [if_pos hinput, hvalue]
  exact inputSource_setInput_same _ _ _

theorem inputSource_foldl_applyProperty_other (oldTemplate : Option ElementTemplate)
    (other : Binding) :
    ∀ (properties : List PropertyDescriptor) (ioMapping : IoMapping),
      (∀ p ∈ properties, p.binding.type = "zeebe:input" → other.name ≠ p.binding.name) →
      inputSource (properties.foldl (applyProperty oldTemplate) ioMapping) other
        = inputSource ioMapping other := by
  intro properties
  induction properties with
  | nil => intro _ _; rfl
  | cons p rest ih =>
    intro ioMapping h
    simp only [List.foldl_cons]
    rw [ih _ (fun p' hp' => h p' (List.mem_cons_of_mem _ hp')),
      inputSource_applyProperty_other _ _ _ _ (h p (List.mem_cons_self _ _))]

theorem inputSource_foldl_removeInput_other (other : Binding) :
    ∀ (properties : List PropertyDescriptor) (ioMapping : IoMapping),
      (∀ q ∈ properties, other.name ≠ q.binding.name) →
      inputSource (properties.foldl (fun io q => removeInput io q.binding) ioMapping) other
        = inputSource ioMapping other := by
  intro properties
  induction properties with
  | nil => intro _ _; rfl
  | cons q rest ih =>
    intro ioMapping h
    simp only [List.foldl_cons]
    rw [ih _ (fun q' hq' => h q' (List.mem_cons_of_mem _ hq')),
      inputSource_removeInput_other _ _ _ (h q (List.mem_cons_self _ _))]

theorem name_ne_of_not_sameBinding {a b : PropertyDescriptor}
    (h : sameBinding a b = false) (ha : a.binding.type = "zeebe:input")
    (hb : b.binding.type = "zeebe:input") : a.binding.name ≠ b.binding.name := by
  intro hname
  simp [sameBinding, ha, hb, hname] at h

theorem inputSource_clearOldBindings (oldTemplate : Option ElementTemplate)
    (newTemplate : ElementTemplate) (ioMapping : IoMapping) (p : PropertyDescriptor)
    (hp : p ∈ newTemplate.properties) (hinput : p.binding.type = "zeebe:input") :
    inputSource (clearOldBindings oldTemplate newTemplate ioMapping) p.binding
      = inputSource ioMapping p.binding := by
  unfold clearOldBindings
  cases oldTemplate with
  | none => rfl
  | some template =>
    apply inputSource_foldl_removeInput_other
    intro q hq
    obtain ⟨_, hcond⟩ := List.mem_filter.1 hq
    simp only [Bool.and_eq_true, decide_eq_true_eq, Bool.not_eq_true', List.any_eq_false] at hcond
    have hsame : sameBinding q p = false := by
      simpa using hcond.2 p hp
    exact (name_ne_of_not_sameBinding hsame hcond.1 hinput).symm

/-- The value of a binding after `applyTemplate`, for a template whose properties have
distinct bindings: the value `valueToApply` computes from the value before. -/
theorem inputSource_applyTemplate (registry : Registry) (element : TemplatedElement)
    (newTemplate : ElementTemplate) (p : PropertyDescriptor) (value : String)
    (hdistinct : newTemplate.properties.Pairwise (fun a b => sameBinding a b = false))
    (hp : p ∈ newTemplate.properties) (hinput : p.binding.type = "zeebe:input")
    (hvalue : valueToApply
        (oldPropertyFor (registry.getApplied (Element.shape element.businessObject)) p) p
        (inputSource element.ioMapping p.binding) = some value) :
    inputSource (applyTemplate registry element (some newTemplate)).ioMapping p.binding
      = some value := by
  obtain ⟨before, after, hsplit⟩ := List.append_of_mem hp
  rw [hsplit, List.pairwise_append] at hdistinct
  obtain ⟨_, htail, hcross⟩ := hdistinct
  have hbefore : ∀ a ∈ before, a.binding.type = "zeebe:input" →
      p.binding.name ≠ a.binding.name := fun a ha hatype =>
    (name_ne_of_not_sameBinding (hcross a ha p (List.mem_cons_self _ _)) hatype hinput).symm
  have hafter : ∀ b ∈ after, b.binding.type = "zeebe:input" →
      p.binding.name ≠ b.binding.name := fun b hb hbtype =>
    name_ne_of_not_sameBinding ((List.pairwise_cons.1 htail).1 b hb) hinput hbtype
  simp only [applyTemplate]
  rw [hsplit, List.foldl_append, List.foldl_cons,
    inputSource_foldl_applyProperty_other _ _ after _ hafter]
  have hsame : inputSource
      (before.foldl (applyProperty (registry.getApplied (Element.shape element.businessObject)))
        (clearOldBindings (registry.getApplied (Element.shape element.businessObject))
          newTemplate element.ioMapping)) p.binding
      = inputSource element.ioMapping p.binding := by
    rw [inputSource_foldl_applyProperty_other _ _ before _ hbefore]
    exact inputSource_clearOldBindings _ _ _ p hp hinput
  apply inputSource_applyProperty_same _ _ _ _ hinput
  rw [hsame]
  exact hvalue

/-- C23: keep-vs-default precedence of `applyTemplate`. Let an element have the template
`oldTemplate` applied and hold the value `value` for the `zeebe:input` binding of the
property `p` of the template `newTemplate` (whose properties have distinct bindings),
and let `q` be the property of `oldTemplate` with that binding. After
`applyTemplate(element, newTemplate)`: if `p` is editable and `value` differs from the
default of `q` and is valid under `p`, the binding still holds `value`; if `p` is
editable and `value` equals the default of `q`, the binding holds the default of `p`; if
`p` is hidden or not editable, the binding holds the value of `p`. -/
theorem applyTemplate_keep_vs_default (registry : Registry) (element : TemplatedElement)
    (oldTemplate newTemplate : ElementTemplate) (p q : PropertyDescriptor) (value : String)
    (hold : registry.getApplied (Element.shape element.businessObject) = some oldTemplate)
    (hdistinct : newTemplate.properties.Pairwise (fun a b => sameBinding a b = false))
    (hp : p ∈ newTemplate.properties) (hinput : p.binding.type = "zeebe:input")
    (hq : oldPropertyFor (some oldTemplate) p = some q)
    (hvalue : inputSource element.ioMapping p.binding = some value) :
    (isHiddenOrFixed p = false → defaultSource q ≠ some value → isValidValue p value = true →
      inputSource (applyTemplate registry element (some newTemplate)).ioMapping p.binding
        = some value)
    ∧ (∀ d, isHiddenOrFixed p = false → defaultSource q = some value →
        defaultSource p = some d →
      inputSource (applyTemplate registry element (some newTemplate)).ioMapping p.binding
        = some d)
    ∧ (∀ d, isHiddenOrFixed p = true → defaultSource p = some d →
      inputSource (applyTemplate registry element (some newTemplate)).ioMapping p.binding
        = some d) := by
  refine ⟨?_, ?_, ?_⟩
  · intro heditable hchanged hvalid
    apply inputSource_applyTemplate registry element newTemplate p value hdistinct hp hinput
    rw [hold, hq, hvalue]
    simp [valueToApply, heditable, hchanged, hvalid]
  · intro d heditable hunchanged hdefault
    apply inputSource_applyTemplate registry element newTemplate p d hdistinct hp hinput
    rw [hold, hq, hvalue]
    simp [valueToApply, heditable, hunchanged, hdefault]
  · intro d hhidden hdefault
    apply inputSource_applyTemplate registry element newTemplate p d hdistinct hp hinput
    simp [valueToApply, hhidden, hdefault]

/-- C23, witness: `templateTask` has `templateA` in version 1 applied; applying version 2
keeps `changedDefaultValue = A1-changed`, replaces `defaultValue = A1` by `A2` and sets
`hiddenValue` to `A2`. -/
theorem applyTemplate_keep_vs_default_witness :
    inputSource (applyTemplate integrationCatalog templateTask
        (some (templateA 2 "A2"))).ioMapping
        (inputProperty "changedDefaultValue" "String" (JSVal.str "A2")).binding
      = some "A1-changed"
    ∧ inputSource (applyTemplate integrationCatalog templateTask
        (some (templateA 2 "A2"))).ioMapping
        (inputProperty "defaultValue" "String" (JSVal.str "A2")).binding
      = some "A2"
    ∧ inputSource (applyTemplate integrationCatalog templateTask
        (some (templateA 2 "A2"))).ioMapping
        (inputProperty "hiddenValue" "Hidden" (JSVal.str "A2")).binding
      = some "A2" :=
  ⟨(applyTemplate_keep_vs_default integrationCatalog templateTask (templateA 1 "A1")
      (templateA 2 "A2") (inputProperty "changedDefaultValue" "String" (JSVal.str "A2"))
      (inputProperty "changedDefaultValue" "String" (JSVal.str "A1")) "A1-changed"
      (by decide) (by decide) (by decide) (by decide) (by decide) (by decide)).1
      (by decide) (by decide) (by decide),
   (applyTemplate_keep_vs_default integrationCatalog templateTask (templateA 1 "A1")
      (templateA 2 "A2") (inputProperty "defaultValue" "String" (JSVal.str "A2"))
      (inputProperty "defaultValue" "String" (JSVal.str "A1")) "A1"
      (by decide) (by decide) (by decide) (by decide) (by decide) (by decide)).2.1 "A2"
      (by decide) (by decide) (by decide),
   (applyTemplate_keep_vs_default integrationCatalog templateTask (templateA 1 "A1")
      (templateA 2 "A2") (inputProperty "hiddenValue" "Hidden" (JSVal.str "A2"))
      (inputProperty "hiddenValue" "Hidden" (JSVal.str "A1")) "A1"
      (by decide) (by decide) (by decide) (by decide) (by decide) (by decide)).2.2 "A2"
      (by decide) (by decide)⟩

/-- The scenarios of the integration tests: a service task gets the template, version 1 is
replaced by version 2, the template is unlinked, and it is unlinked and applied again. -/
theorem applyTemplate_integration_scenarios :
    inputsOf (applyTemplate integrationCatalog configuredTask (some (templateA 1 "A1")))
      = [ (some "normalValue", some "existing"), (some "changedDefaultValue", some "existing"),
          (some "hiddenValue", some "A1"), (some "defaultValue", some "A1") ]
    ∧ inputsOf (applyTemplate integrationCatalog templateTask (some (templateA 2 "A2")))
      = [ (some "normalValue", some "A1"), (some "defaultValue", some "A2"),
          (some "changedDefaultValue", some "A1-changed"), (some "hiddenValue", some "A2") ]
    ∧ inputsOf (applyTemplate integrationCatalog templateTask none) = inputsOf templateTask
    ∧ inputsOf (applyTemplate integrationCatalog
        (applyTemplate integrationCatalog templateTask none) (some (templateA 1 "A1")))
      = inputsOf templateTask := by
  decide

theorem getApplied_setMarker_none (registry : Registry) (businessObject : BusinessObject) :
    registry.getApplied (Element.shape (setMarker businessObject none)) = none := by
  have hne : TEMPLATE_ID_ATTR ≠ TEMPLATE_VERSION_ATTR := by decide
  have hid : (setMarker businessObject none).get TEMPLATE_ID_ATTR = JSVal.undefined := by
    simp only [setMarker]
    rw [BusinessObject.get_set_other _ _ _ _ hne, BusinessObject.get_set_same]
  simp only [Registry.getApplied, getTemplateId, getBusinessObject, hid]

theorem getApplied_setMarker_some (registry : Registry) (businessObject : BusinessObject)
    (template : ElementTemplate) :
    registry.getApplied (Element.shape (setMarker businessObject (some template)))
      = registry.get template.id template.version := by
  have hne : TEMPLATE_ID_ATTR ≠ TEMPLATE_VERSION_ATTR := by decide
  have hid : (setMarker businessObject (some template)).get TEMPLATE_ID_ATTR
      = JSVal.str template.id := by
    simp only [setMarker]
    rw [BusinessObject.get_set_other _ _ _ _ hne, BusinessObject.get_set_same]
  have hversion : (setMarker businessObject (some template)).get TEMPLATE_VERSION_ATTR
      = (match template.version with
         | some version => JSVal.num version
         | none => JSVal.undefined) := by
    simp only [setMarker]
    rw [BusinessObject.get_set_same]
  simp only [Registry.getApplied, getTemplateId, getTemplateVersion, getBusinessObject, hid,
    hversion]
  cases template.version <;> rfl

theorem get_of_getApplied {registry : Registry} {element : Element} {template : ElementTemplate}
    (h : registry.getApplied element = some template) :
    registry.get template.id template.version = some template := by
  have hget : ∀ id version, registry.get id version = some template →
      registry.get template.id template.version = some template := by
    intro id version hfound
    have hpred := ((arrayFind_eq_some_iff _ _ _).1 hfound)
    obtain ⟨_, _, _, hmatch, _⟩ := hpred
    simp only [Bool.and_eq_true, decide_eq_true_eq] at hmatch
    rw [hmatch.1, hmatch.2]
    exact hfound
  simp only [Registry.getApplied] at h
  split at h
  · exact hget _ _ h
  · cases h

theorem applyProperty_conforming (ioMapping : IoMapping) (p : PropertyDescriptor)
    (h : p.binding.type = "zeebe:input" →
      ∃ value, inputSource ioMapping p.binding = some value
        ∧ (isHiddenOrFixed p = true → defaultSource p = some value)
        ∧ (isHiddenOrFixed p = false → isValidValue p value = true)) :
    applyProperty none ioMapping p = ioMapping := by
  unfold applyProperty
  split_ifs with hinput
  · obtain ⟨value, hvalue, hhidden, heditable⟩ := h hinput
    have hto : valueToApply (oldPropertyFor none p) p (inputSource ioMapping p.binding)
        = some value := by
      rw [hvalue]
      cases hfixed : isHiddenOrFixed p with
      | true => simp [valueToApply, hfixed, hhidden hfixed]
      | false => simp [valueToApply, hfixed, oldPropertyFor, heditable hfixed]
    rw [hto]
    exact setInput_eq_self _ _ _ hvalue
  · rfl

theorem foldl_applyProperty_conforming (ioMapping : IoMapping) :
    ∀ properties : List PropertyDescriptor,
      (∀ p ∈ properties, p.binding.type = "zeebe:input" →
        ∃ value, inputSource ioMapping p.binding = some value
          ∧ (isHiddenOrFixed p = true → defaultSource p = some value)
          ∧ (isHiddenOrFixed p = false → isValidValue p value = true)) →
      properties.foldl (applyProperty none) ioMapping = ioMapping := by
  intro properties
  induction properties with
  | nil => intro _; rfl
  | cons p rest ih =>
    intro h
    simp only [List.foldl_cons]
    rw [applyProperty_conforming ioMapping p (h p (List.mem_cons_self _ _))]
    exact ih (fun p' hp' => h p' (List.mem_cons_of_mem _ hp'))

/-- C24, counterexample: a service task marked with `templateA` in version 1 whose input
parameters are `normalValue`, `changedDefaultValue` and `hiddenValue`, each with the value
`existing`. Unlinking leaves the parameters as they are; applying the template again
sets `hiddenValue` to `A1` and adds `defaultValue = A1`. -/
theorem unlink_then_apply_changes_values :
    integrationCatalog.getApplied (Element.shape markedConfiguredTask.businessObject)
      = some (templateA 1 "A1")
    ∧ inputsOf markedConfiguredTask
      = [ (some "normalValue", some "existing"), (some "changedDefaultValue", some "existing"),
          (some "hiddenValue", some "existing") ]
    ∧ inputsOf (applyTemplate integrationCatalog markedConfiguredTask none)
      = inputsOf markedConfiguredTask
    ∧ inputsOf (applyTemplate integrationCatalog
        (applyTemplate integrationCatalog markedConfiguredTask none) (some (templateA 1 "A1")))
      = [ (some "normalValue", some "existing"), (some "changedDefaultValue", some "existing"),
          (some "hiddenValue", some "A1"), (some "defaultValue", some "A1") ] := by
  decide

/-- C24, amended: let an element have a template applied, and let every `zeebe:input`
property of the template have an input parameter on the element whose value is the
template's value when the property is hidden or not editable and a value valid under
the property when it is editable. Then unlinking the element leaves its input
parameters as they are and clears the marker, and applying the template again leaves
the input parameters equal to the original ones and sets the marker to the template. -/
theorem unlink_then_apply_restores (registry : Registry) (element : TemplatedElement)
    (template : ElementTemplate)
    (happlied : registry.getApplied (Element.shape element.businessObject) = some template)
    (hconform : ∀ p ∈ template.properties, p.binding.type = "zeebe:input" →
      ∃ value, inputSource element.ioMapping p.binding = some value
        ∧ (isHiddenOrFixed p = true → defaultSource p = some value)
        ∧ (isHiddenOrFixed p = false → isValidValue p value = true)) :
    (applyTemplate registry element none).ioMapping = element.ioMapping
    ∧ registry.getApplied (Element.shape (applyTemplate registry element none).businessObject)
        = none
    ∧ (applyTemplate registry (applyTemplate registry element none) (some template)).ioMapping
        = element.ioMapping
    ∧ registry.getApplied (Element.shape
        (applyTemplate registry (applyTemplate registry element none)
          (some template)).businessObject) = some template := by
  have hunlinked : registry.getApplied
      (Element.shape (applyTemplate registry element none).businessObject) = none :=
    getApplied_setMarker_none registry element.businessObject
  refine ⟨rfl, hunlinked, ?_, ?_⟩
  · have hio : (applyTemplate registry (applyTemplate registry element none)
        (some template)).ioMapping
        = template.properties.foldl
            (applyProperty (registry.getApplied
              (Element.shape (applyTemplate registry element none).businessObject)))
            (clearOldBindings (registry.getApplied
              (Element.shape (applyTemplate registry element none).businessObject))
              template (applyTemplate registry element none).ioMapping) := rfl
    rw [hio, hunlinked]
    exact foldl_applyProperty_conforming element.ioMapping template.properties hconform
  · have hbo : (applyTemplate registry (applyTemplate registry element none)
        (some template)).businessObject
        = setMarker (applyTemplate registry element none).businessObject (some template) := rfl
    rw [hbo, getApplied_setMarker_some]
    exact get_of_getApplied happlied

/-- C24, witness: `templateTask` has `templateA` in version 1 applied and conforms to it;
after unlinking and applying the template again its input parameters are the original
ones. -/
theorem unlink_then_apply_restores_witness :
    (applyTemplate integrationCatalog
        (applyTemplate integrationCatalog templateTask none) (some (templateA 1 "A1"))).ioMapping
      = templateTask.ioMapping :=
  (unlink_then_apply_restores integrationCatalog templateTask (templateA 1 "A1") (by decide)
    (by decide)).2.2.1

end ElementTemplates
